import Mathlib

/-!
txt2pdf — object/xref allocator, page lifecycle and carriage-control engine

A shallow embedding of `txt2pdf.c` (`do_process_pages`, `do_text_translation`,
`start_pdf_page`, `end_pdf_page`, `start_pdf_object`, `store_pdf_page`,
`print_pdf_string`, the page decoration routines, the colour conversions) and
theorems about it.

Modelling conventions

* `stdout` is the byte list `State.out`; every `printf`/`putchar`/`fprintf(stdout, …)`
  appends to it and `ftell(stdout)` is its length (the stream is taken to be a
  regular file positioned at 0 whose `"\n"` is one byte).  `stderr` is `State.err`.
* C `float`/`double` quantities are exact rationals.  For the default layout every
  value the program computes is a small multiple of one half, hence exact in
  binary floating point as well.
* `int`/`long` counters are unbounded naturals or integers (signed overflow is
  undefined in C; the model covers runs in which the counters stay in range).
* `%f` and `%g` are rendered by the two functions `Config.fmt_f`, `Config.fmt_g`
  (the C library's conversions); `%d`, `%ld`, `%6d`, `%04d`, `%010ld` are modelled.
* `malloc` succeeds; freshly allocated cells of the offset table hold 0.
* The globals of the program are the fields of `State` (same names); the
  configuration that `main` fixes before `do_process_pages` is `Config`.
  `buffer1`, `buffer2`, `bResetColor` are the locals of `do_text_translation`.
  `issued`, `started` and `calls` are write-only instrumentation: the ids produced
  by `GV_PDFObjectId++`, the ids passed to `start_pdf_object`, and one record per
  call of `start_pdf_object` (see `XrefCall`), all in call order.
* The only loop without an obvious bound, the band loop of `print_pdf_pagebars`,
  takes an iteration budget `fuel`; exhausting it yields `none`.
-/

namespace Txt2Pdf

/-- Output bytes. -/
abbrev Bytes := List Char

/-- The `struct _RGB` of the source. -/
structure RGB where
  r : ℚ
  g : ℚ
  b : ℚ
deriving DecidableEq

/-- The values `main` establishes before calling `do_process_pages`, together with
the two C-library float conversions. -/
structure Config where
  GV_IsASA : Bool
  GV_IsPrintPageNumbers : Bool
  GV_IsPrintLineNumbers : Bool
  GV_IsPerPageLineNumbers : Bool
  GV_IsPageCountPositionTop : Bool
  GV_ShadeStep : Int
  GV_PageDepth : ℚ
  GV_PageWidth : ℚ
  GV_PageMarginTop : ℚ
  GV_PageMarginBottom : ℚ
  GV_PageMarginLeft : ℚ
  GV_PageMarginRight : ℚ
  GV_LinesPerPage : ℚ
  GV_TitleFontSize : ℚ
  GV_DashCode : Bytes
  GV_BodyFontName : Bytes
  GV_HeadingFontName : Bytes
  GV_TitleLeft : Bytes
  GV_TitleRight : Bytes
  GV_ImpactTop : Bytes
  GV_OVERSTRIKE_COLOR : RGB
  GV_BAR_COLOR : RGB
  GV_FONT_COLOR : RGB
  GV_LINE_NUMBER_COLOR : RGB
  GV_TITLE_COLOR : RGB
  fmt_f : ℚ → Bytes
  fmt_g : ℚ → Bytes

/-- Instrumentation record of one call `start_pdf_object(id)`: the id, the capacity
`GV_PDFXRefCount` after the growth step (at the statement that stores the offset),
the offset table when the call is entered and when it returns, and the ids passed
by the earlier calls. -/
structure XrefCall where
  id : Nat
  capacity : Nat
  before : List Nat
  after : List Nat
  earlier : List Nat

/-- The mutable globals, the two output channels, the locals of
`do_text_translation`, and the instrumentation logs. -/
structure State where
  out : Bytes
  err : Bytes
  GV_PDFObjectId : Nat
  GV_PDFPageTreeId : Nat
  GV_PDFNumberOfPages : Nat
  GV_PDFXRefCount : Nat
  GV_XReferences : List Nat
  GV_PDFStreamId : Nat
  GV_PDFStreamLengthId : Nat
  GV_PDFStreamStart : Nat
  GV_PAGE_LIST : List Nat
  GV_PDFPageYPosition : ℚ
  GV_CurrentLineCount : Int
  GV_CurrentPageCount : Nat
  GV_CURRENT_COLOR : RGB
  GV_IsExtendedASCII : Bool
  GV_IsPrintLineNumbers : Bool
  buffer1 : Bytes
  buffer2 : Bytes
  bResetColor : Bool
  issued : List Nat
  started : List Nat
  calls : List XrefCall

/-! ## printf conversions -/

/-- Conversion `%d` / `%ld` of a non-negative value. -/
def fmt_u (n : Nat) : Bytes := (Nat.repr n).toList

/-- Conversion `%d` of a signed value. -/
def fmt_d (n : Int) : Bytes := (toString n).toList

/-- Left padding to a minimum field width. -/
def pad_left (c : Char) (w : Nat) (bs : Bytes) : Bytes :=
  List.replicate (w - bs.length) c ++ bs

/-- Conversion `%010ld` of a non-negative value. -/
def fmt_010ld (n : Nat) : Bytes := pad_left '0' 10 (fmt_u n)

/-- Conversion `%04d` of a non-negative value. -/
def fmt_04d (n : Nat) : Bytes := pad_left '0' 4 (fmt_u n)

/-- Conversion `%6d`. -/
def fmt_6d (n : Int) : Bytes := pad_left ' ' 6 (fmt_d n)

/-- Any write to `stdout`. -/
def emit (bs : Bytes) (s : State) : State := { s with out := s.out ++ bs }

/-- The call `ftell(stdout)`. -/
def ftell (s : State) : Nat := s.out.length

/-- The expression `GV_PDFObjectId++`: its value and the state after it. -/
def next_object_id (s : State) : Nat × State :=
  (s.GV_PDFObjectId,
   { s with GV_PDFObjectId := s.GV_PDFObjectId + 1, issued := s.issued ++ [s.GV_PDFObjectId] })

/-- Derived in `do_process_pages`:
`GV_StandardLineSize = (GV_PageDepth - GV_PageMarginTop - GV_PageMarginBottom) / GV_LinesPerPage`. -/
def GV_StandardLineSize (cfg : Config) : ℚ :=
  (cfg.GV_PageDepth - cfg.GV_PageMarginTop - cfg.GV_PageMarginBottom) / cfg.GV_LinesPerPage

/-- Derived in `do_process_pages`: `GV_BodyFontSize = GV_StandardLineSize`. -/
def GV_BodyFontSize (cfg : Config) : ℚ := GV_StandardLineSize cfg

/-! ## Colour model -/

/-- The function `colorConverter` on a non-negative packed colour. -/
def colorConverter (hexValue : Nat) : RGB :=
  { r := (((hexValue >>> 16) &&& 0xFF : Nat) : ℚ) / 255
    g := (((hexValue >>> 8) &&& 0xFF : Nat) : ℚ) / 255
    b := ((hexValue &&& 0xFF : Nat) : ℚ) / 255 }

/-- The conversion `(long) x` of a floating value: truncation toward zero. -/
def to_long (x : ℚ) : Int := if 0 ≤ x then ⌊x⌋ else -⌊-x⌋

/-- The function `colorInverter`; the shifts `<< 16` and `<< 8` of non-overflowing
values are multiplications by `2 ^ 16` and `2 ^ 8`. -/
def colorInverter (colorValue : RGB) : Int :=
  to_long (colorValue.r * 255) * 2 ^ 16 + to_long (colorValue.g * 255) * 2 ^ 8
    + to_long (colorValue.b * 255)

/-- The three numbers of a `"%f %f %f"` colour. -/
def fmt_rgb (cfg : Config) (c : RGB) : Bytes :=
  cfg.fmt_f c.r ++ " ".toList ++ cfg.fmt_f c.g ++ " ".toList ++ cfg.fmt_f c.b

/-! ## Object / xref allocator and page registry -/

/-- The function `store_pdf_page`: append to the page list and count the page. -/
def store_pdf_page (id : Nat) (s : State) : State :=
  { s with GV_PAGE_LIST := s.GV_PAGE_LIST ++ [id],
           GV_PDFNumberOfPages := s.GV_PDFNumberOfPages + 1 }

/-- The growth branch of `start_pdf_object`, taken when `id >= GV_PDFXRefCount`:
the table gets `delta` further cells, the old cells are copied. -/
def grow_xrefs (s : State) : State :=
  let delta := s.GV_PDFXRefCount / 5
  let delta := if delta < 1000 then delta + 1000 else delta
  let new_num_xrefs := s.GV_PDFXRefCount + delta
  { s with GV_XReferences := s.GV_XReferences ++ List.replicate delta 0,
           GV_PDFXRefCount := new_num_xrefs }

/-- The function `start_pdf_object`: grow the table once if needed, store the
current offset at index `id`, print the object header. -/
def start_pdf_object (id : Nat) (s : State) : State :=
  let before := s.GV_XReferences
  let s := if id ≥ s.GV_PDFXRefCount then grow_xrefs s else s
  let s := { s with GV_XReferences := s.GV_XReferences.set id (ftell s),
                    started := s.started ++ [id],
                    calls := s.calls ++ [{ id := id, capacity := s.GV_PDFXRefCount,
                                           before := before,
                                           after := s.GV_XReferences.set id (ftell s),
                                           earlier := s.started }] }
  emit (fmt_u id ++ " 0 obj".toList) s

/-! ## Text strings -/

/-- The character loop of `print_pdf_string`. -/
def put_escaped (ext : Bool) : Bytes → Bytes
  | [] => []
  | c :: rest =>
    (if ext then [Char.ofNat ((c.toNat + 127) % 256)]
     else if c = '(' ∨ c = ')' ∨ c = '\\' then ['\\', c]
     else [c]) ++ put_escaped ext rest

/-- The function `print_pdf_string`; `buffer` is the C string passed to it. -/
def print_pdf_string (cfg : Config) (buffer : Bytes) (s : State) : State :=
  let s :=
    if s.GV_IsPrintLineNumbers then
      emit ("/F1 ".toList ++ cfg.fmt_f (GV_BodyFontSize cfg) ++ " Tf\n ".toList
            ++ fmt_rgb cfg cfg.GV_LINE_NUMBER_COLOR ++ " rg\n (".toList
            ++ fmt_6d s.GV_CurrentLineCount ++ " | )Tj\n /F0 ".toList
            ++ cfg.fmt_f (GV_BodyFontSize cfg) ++ " Tf\n ".toList
            ++ fmt_rgb cfg s.GV_CURRENT_COLOR ++ " rg ".toList) s
    else if s.GV_CURRENT_COLOR.r ≠ cfg.GV_FONT_COLOR.r ∨
            s.GV_CURRENT_COLOR.g ≠ cfg.GV_FONT_COLOR.g ∨
            s.GV_CURRENT_COLOR.b ≠ cfg.GV_FONT_COLOR.b then
      emit (" ".toList ++ fmt_rgb cfg s.GV_CURRENT_COLOR ++ " rg\n".toList) s
    else s
  emit ("(".toList ++ put_escaped s.GV_IsExtendedASCII buffer ++ ")".toList) s

/-! ## Page decoration -/

/-- The `while` loop of `print_pdf_pagebars`, with an iteration budget. -/
def pagebars_loop (cfg : Config) (x1 width height : ℚ) : Nat → ℚ → ℚ → State → Option State
  | 0, _, _, _ => none
  | fuel + 1, y1, step, s =>
    if y1 ≥ cfg.GV_PageMarginBottom - height then
      if cfg.GV_DashCode = [] then
        pagebars_loop cfg x1 width height fuel (y1 - 2 * height) 2
          (emit (cfg.fmt_f x1 ++ " ".toList ++ cfg.fmt_f y1 ++ " ".toList ++ cfg.fmt_f width
                 ++ " ".toList ++ cfg.fmt_f height ++ " re f\n".toList) s)
      else
        pagebars_loop cfg x1 width height fuel (y1 - step * height) step
          (emit (cfg.fmt_f (x1 + width) ++ " ".toList ++ cfg.fmt_f y1 ++ " l s\n".toList)
            (emit (cfg.fmt_f x1 ++ " ".toList ++ cfg.fmt_f y1 ++ " m ".toList) s))
    else some s

/-- The function `print_pdf_pagebars`. -/
def print_pdf_pagebars (fuel : Nat) (cfg : Config) (s : State) : Option State :=
  let s := emit (fmt_rgb cfg cfg.GV_BAR_COLOR ++ " rg\n".toList) s
  let s := emit (fmt_u 1 ++ " i\n".toList) s
  let x1 := cfg.GV_PageMarginLeft - (1 / 10 : ℚ) * GV_BodyFontSize cfg
  let height := (cfg.GV_ShadeStep : ℚ) * GV_StandardLineSize cfg
  let y1 := cfg.GV_PageDepth - cfg.GV_PageMarginTop - height - (22 / 100 : ℚ) * GV_BodyFontSize cfg
  let width := cfg.GV_PageWidth - cfg.GV_PageMarginLeft - cfg.GV_PageMarginRight
  let s := if cfg.GV_DashCode ≠ [] then
             emit ("0 w [".toList ++ cfg.GV_DashCode ++ "] 0 d\n".toList) s
           else s
  (pagebars_loop cfg x1 width height fuel y1 1 s).map fun s =>
    let s := if cfg.GV_DashCode ≠ [] then emit "[] 0 d\n".toList s else s
    let s := emit (fmt_u 0 ++ " G\n".toList) s
    emit (fmt_u 0 ++ " g\n".toList) s

/-- The function `print_pdf_title_at`. -/
def print_pdf_title_at (cfg : Config) (xvalue yvalue : ℚ) (string : Bytes) (s : State) : State :=
  let s := emit ("BT /F2 ".toList ++ cfg.fmt_f cfg.GV_TitleFontSize ++ " Tf ".toList
                 ++ cfg.fmt_f xvalue ++ " ".toList ++ cfg.fmt_f yvalue ++ " Td".toList) s
  let s := print_pdf_string cfg string s
  emit " Tj ET\n".toList s

/-- The function `print_pdf_impact_top`. -/
def print_pdf_impact_top (cfg : Config) (s : State) : State :=
  let text_size := cfg.GV_TitleFontSize + 2
  if cfg.GV_ImpactTop ≠ [] then
    let charwidth := text_size * (60 / 100 : ℚ)
    let s := emit "0.9 0.0 0.0 rg\n".toList s
    let yvalue := cfg.GV_PageDepth - text_size
    let xvalue := cfg.GV_PageMarginLeft
        + ((cfg.GV_PageWidth - cfg.GV_PageMarginLeft - cfg.GV_PageMarginRight) / 2)
        - ((cfg.GV_ImpactTop.length : ℚ) * charwidth / 2)
    let s := emit ("BT /F2 ".toList ++ cfg.fmt_f text_size ++ " Tf ".toList
                   ++ cfg.fmt_f xvalue ++ " ".toList ++ cfg.fmt_f yvalue ++ " Td".toList) s
    let s := print_pdf_string cfg cfg.GV_ImpactTop s
    emit " Tj ET\n".toList s
  else s

/-- The function `print_margin_label`. -/
def print_margin_label (cfg : Config) (s : State) : State :=
  let save_linenumber_state := s.GV_IsPrintLineNumbers
  let s := { s with GV_IsPrintLineNumbers := false }
  let s := print_pdf_impact_top cfg s
  let charwidth := cfg.GV_TitleFontSize * (60 / 100 : ℚ)
  let s := emit (fmt_rgb cfg cfg.GV_TITLE_COLOR ++ " rg\n".toList) s
  let pagestring : Bytes := "Page ".toList ++ fmt_04d s.GV_CurrentPageCount
  let position_center := cfg.GV_PageMarginLeft
      + ((cfg.GV_PageWidth - cfg.GV_PageMarginLeft - cfg.GV_PageMarginRight) / 2)
      - ((pagestring.length : ℚ) * charwidth / 2)
  let position_right := cfg.GV_PageWidth - cfg.GV_PageMarginRight
      - ((cfg.GV_TitleRight.length : ℚ) * charwidth)
  let position_left := cfg.GV_PageMarginLeft
  let ytop := cfg.GV_PageDepth - cfg.GV_PageMarginTop + (12 / 100 : ℚ) * cfg.GV_TitleFontSize
  let s := if cfg.GV_TitleRight ≠ [] then
             print_pdf_title_at cfg position_right ytop cfg.GV_TitleRight s
           else s
  let s := if cfg.GV_IsPrintPageNumbers then
             if cfg.GV_IsPageCountPositionTop then
               print_pdf_title_at cfg position_center ytop pagestring s
             else
               print_pdf_title_at cfg position_center
                 (cfg.GV_PageMarginBottom - cfg.GV_TitleFontSize) pagestring s
           else s
  let s := if cfg.GV_TitleLeft ≠ [] then
             print_pdf_title_at cfg position_left ytop cfg.GV_TitleLeft s
           else s
  let s := { s with GV_IsPrintLineNumbers := save_linenumber_state }
  emit (fmt_rgb cfg cfg.GV_FONT_COLOR ++ " rg\n".toList) s

/-! ## Page stream lifecycle -/

/-- The function `start_pdf_page`. -/
def start_pdf_page (fuel : Nat) (cfg : Config) (s : State) : Option State :=
  let (id, s) := next_object_id s
  let s := { s with GV_PDFStreamId := id }
  let (id, s) := next_object_id s
  let s := { s with GV_PDFStreamLengthId := id }
  let s := { s with GV_CurrentPageCount := s.GV_CurrentPageCount + 1 }
  let s := if cfg.GV_IsPerPageLineNumbers then { s with GV_CurrentLineCount := 0 } else s
  let s := start_pdf_object s.GV_PDFStreamId s
  let s := emit ("<< /Length ".toList ++ fmt_u s.GV_PDFStreamLengthId ++ " 0 R >>".toList) s
  let s := emit "stream\n".toList s
  let s := { s with GV_PDFStreamStart := ftell s }
  (print_pdf_pagebars fuel cfg s).map fun s =>
    let s := print_margin_label cfg s
    let s := emit ("BT\n/F0 ".toList ++ cfg.fmt_g (GV_BodyFontSize cfg) ++ " Tf\n".toList) s
    let s := { s with GV_PDFPageYPosition := cfg.GV_PageDepth - cfg.GV_PageMarginTop }
    let s := emit (cfg.fmt_g cfg.GV_PageMarginLeft ++ " ".toList
                   ++ cfg.fmt_g s.GV_PDFPageYPosition ++ " Td\n".toList) s
    emit (cfg.fmt_g (GV_StandardLineSize cfg) ++ " TL\n".toList) s

/-- The function `end_pdf_page`. -/
def end_pdf_page (s : State) : State :=
  let (page_id, s) := next_object_id s
  let s := store_pdf_page page_id s
  let s := emit "ET\n".toList s
  let stream_len := ftell s - s.GV_PDFStreamStart
  let s := emit "endstream\nendobj\n".toList s
  let s := start_pdf_object s.GV_PDFStreamLengthId s
  let s := emit ("\n".toList ++ fmt_u stream_len ++ "\nendobj\n".toList) s
  let s := start_pdf_object page_id s
  emit ("<</Type/Page/Parent ".toList ++ fmt_u s.GV_PDFPageTreeId ++ " 0 R/Contents ".toList
        ++ fmt_u s.GV_PDFStreamId ++ " 0 R>>\nendobj\n".toList) s

/-- The function `adjust_pdf_ypos`. -/
def adjust_pdf_ypos (cfg : Config) (mult : ℚ) (s : State) : State :=
  if s.GV_PDFPageYPosition < cfg.GV_PageDepth - cfg.GV_PageMarginTop then
    { s with GV_PDFPageYPosition := s.GV_PDFPageYPosition + GV_StandardLineSize cfg * mult }
  else s

/-! ## Carriage-control text engine -/

/-- The C string stored at the start of a character buffer: the bytes before the
first NUL. -/
def cstr (buf : Bytes) : Bytes := buf.takeWhile (fun c => c ≠ '\x00')

/-- The call `gets_s(&buffer1[0], sizeof(buffer1))` for an input line of at most
4095 bytes: the line and a terminating NUL overwrite the start of the buffer, the
bytes behind them keep their old values. -/
def gets_s (line : Bytes) (buf : Bytes) : Bytes :=
  line ++ '\x00' :: buf.drop (line.length + 1)

/-- Body of `case '\0'` in the free-form scanner (also reached from `case '\r'`):
show the collected `buffer2`, or undo one line of the cursor when it is empty;
then empty `buffer2`. -/
def flush_buffer2 (cfg : Config) (s : State) : State :=
  let s :=
    if s.buffer2 ≠ [] then
      emit "Tj\n".toList (print_pdf_string cfg s.buffer2 (emit "T*".toList s))
    else
      let s := adjust_pdf_ypos cfg 1 s
      { s with GV_CurrentLineCount := s.GV_CurrentLineCount - 1 }
  { s with buffer2 := [] }

/-- The statement `switch (buffer1[i1])` of the free-form scanner, for the
character `c = buffer1[i1]` and its successor `next = buffer1[i1 + 1]`. -/
def scan_switch (fuel : Nat) (cfg : Config) (c next : Char) (s : State) : Option State :=
  if c = '\x0c' then
    if s.GV_PDFPageYPosition < cfg.GV_PageDepth - cfg.GV_PageMarginTop then
      start_pdf_page fuel cfg (end_pdf_page s)
    else some s
  else if c = '\r' then
    let s := { s with GV_PDFPageYPosition := s.GV_PDFPageYPosition - GV_StandardLineSize cfg }
    let s :=
      if next ≠ '\x00' then
        let s := { s with GV_CURRENT_COLOR := cfg.GV_OVERSTRIKE_COLOR }
        let s := emit ("0 ".toList ++ cfg.fmt_f (GV_StandardLineSize cfg) ++ " Td\n".toList) s
        let s := adjust_pdf_ypos cfg 1 s
        { s with bResetColor := true, GV_CurrentLineCount := s.GV_CurrentLineCount - 1 }
      else s
    some (flush_buffer2 cfg s)
  else if c = '\x00' then
    some (flush_buffer2 cfg s)
  else
    some { s with buffer2 := s.buffer2 ++ [c] }

/-- One iteration of the free-form scanner at index `i1`.  Reading `buffer1`
behind its last cell yields NUL in the model. -/
def scan_char (fuel : Nat) (cfg : Config) (i1 : Nat) (s : State) : Option State :=
  scan_switch fuel cfg (s.buffer1.getD i1 '\x00') (s.buffer1.getD (i1 + 1) '\x00') s

/-- The loop `for (i1 = 0; i1 < sizeof(buffer1); i1++)`: `n` iterations starting
at index `i1`. -/
def scan_loop (fuel : Nat) (cfg : Config) : Nat → Nat → State → Option State
  | 0, _, s => some s
  | n + 1, i1, s => (scan_char fuel cfg i1 s).bind (scan_loop fuel cfg n (i1 + 1))

/-- The free-form branch of `do_text_translation`. -/
def freeform_line (fuel : Nat) (cfg : Config) (s : State) : Option State :=
  scan_loop fuel cfg 4096 0 { s with buffer2 := [] }

/-- The statement `switch (ASA)` of the ASA branch. -/
def asa_switch (fuel : Nat) (cfg : Config) (ASA : Char) (s : State) : Option State :=
  if ASA = '1' then
    if s.GV_PDFPageYPosition < cfg.GV_PageDepth - cfg.GV_PageMarginTop then
      start_pdf_page fuel cfg (end_pdf_page s)
    else some s
  else if ASA = '0' then
    let s := emit "T*()Tj\n".toList s
    some { s with GV_PDFPageYPosition := s.GV_PDFPageYPosition - GV_StandardLineSize cfg,
                  GV_CurrentLineCount := s.GV_CurrentLineCount + 1 }
  else if ASA = '-' then
    let s := emit "T*()Tj\n".toList s
    some { s with GV_PDFPageYPosition := s.GV_PDFPageYPosition - GV_StandardLineSize cfg
                                            - GV_StandardLineSize cfg,
                  GV_CurrentLineCount := s.GV_CurrentLineCount + 1 + 1 }
  else if ASA = '+' then
    let s := { s with GV_CURRENT_COLOR := cfg.GV_OVERSTRIKE_COLOR }
    let s := emit ("0 ".toList ++ cfg.fmt_f (GV_StandardLineSize cfg) ++ " Td\n".toList) s
    let s := adjust_pdf_ypos cfg 1 s
    some { s with bResetColor := true, GV_CurrentLineCount := s.GV_CurrentLineCount - 1 }
  else if ASA = 'R' ∨ ASA = 'G' ∨ ASA = 'B' then
    -- inner switch with labels 'R', 'G', 'B' and no break between them
    let s := if ASA = 'R' then { s with GV_CURRENT_COLOR := colorConverter 0xFF0000 } else s
    let s := if ASA = 'R' ∨ ASA = 'G' then
               { s with GV_CURRENT_COLOR := colorConverter 0x00FF00 } else s
    let s := if ASA = 'R' ∨ ASA = 'G' ∨ ASA = 'B' then
               { s with GV_CURRENT_COLOR := colorConverter 0x0000FF } else s
    let s := { s with bResetColor := true }
    let s := emit ("0 ".toList ++ cfg.fmt_f (GV_StandardLineSize cfg) ++ " Td\n".toList) s
    let s := adjust_pdf_ypos cfg 1 s
    some { s with GV_CurrentLineCount := s.GV_CurrentLineCount - 1 }
  else if ASA = 'H' then
    let s := emit ("0 ".toList ++ cfg.fmt_f (GV_StandardLineSize cfg / 2) ++ " Td\n".toList) s
    some (adjust_pdf_ypos cfg (1 / 2) s)
  else if ASA = 'r' ∨ ASA = 'g' ∨ ASA = 'b' then
    -- inner switch with labels 'R', 'g', 'b' and no break between them
    let s := if ASA = 'R' then { s with GV_CURRENT_COLOR := colorConverter 0xFF0000 } else s
    let s := if ASA = 'R' ∨ ASA = 'g' then
               { s with GV_CURRENT_COLOR := colorConverter 0x00FF00 } else s
    let s := if ASA = 'R' ∨ ASA = 'g' ∨ ASA = 'b' then
               { s with GV_CURRENT_COLOR := colorConverter 0x0000FF } else s
    some { s with bResetColor := true }
  else if ASA = '^' then
    let s := emit ("0 ".toList ++ cfg.fmt_f (GV_StandardLineSize cfg) ++ " Td\n".toList) s
    let s := adjust_pdf_ypos cfg 1 s
    some { s with GV_IsExtendedASCII := true, GV_CurrentLineCount := s.GV_CurrentLineCount - 1 }
  else if ASA = '>' then
    some s
  else if ASA = '\x0c' then
    start_pdf_page fuel cfg (end_pdf_page s)
  else if ASA = ' ' then
    some s
  else
    some { s with err := s.err ++ "(warning) Unknown ASA Carriage Control Character ".toList
                          ++ [ASA] ++ "\n".toList }

/-- The ASA branch of `do_text_translation`: control code, then the rest of the
line as one show-text operation. -/
def asa_line (fuel : Nat) (cfg : Config) (s : State) : Option State :=
  (asa_switch fuel cfg (s.buffer1.getD 0 '\x00') s).map fun s =>
    let s := emit "T*".toList s
    let s := print_pdf_string cfg (cstr (s.buffer1.drop 1)) s
    emit "Tj\n".toList s

/-- The overflow test at the head of the line loop of `do_text_translation`. -/
def overflow_break (fuel : Nat) (cfg : Config) (s : State) : Option State :=
  if s.GV_PDFPageYPosition ≤ cfg.GV_PageMarginBottom + 1 ∧ (cstr s.buffer1).length ≠ 0 ∧
      (cfg.GV_IsASA = true ∧ s.buffer1.getD 0 '\x00' ≠ '+') then
    start_pdf_page fuel cfg (end_pdf_page s)
  else some s

/-- The tail of the line loop: lower the cursor by one line, restore the colour
when `bResetColor` is set. -/
def line_tail (cfg : Config) (s : State) : State :=
  let s := { s with GV_PDFPageYPosition := s.GV_PDFPageYPosition - GV_StandardLineSize cfg }
  if s.bResetColor then
    let s := { s with GV_CURRENT_COLOR := cfg.GV_FONT_COLOR }
    emit (fmt_rgb cfg cfg.GV_FONT_COLOR ++ " rg\n".toList) s
  else s

/-- The three-way branch in the middle of the line loop. -/
def line_body (fuel : Nat) (cfg : Config) (s : State) : Option State :=
  if (cstr s.buffer1).length = 0 then
    some (emit "T*()Tj\n".toList s)
  else if cfg.GV_IsASA = false then
    freeform_line fuel cfg s
  else
    asa_line fuel cfg s

/-- One iteration of `while (gets_s(...) != NULL)` for the input line `line`. -/
def process_line (fuel : Nat) (cfg : Config) (s : State) (line : Bytes) : Option State :=
  let s := { s with buffer1 := gets_s line s.buffer1 }
  let s := { s with GV_CurrentLineCount := s.GV_CurrentLineCount + 1,
                    bResetColor := false, GV_IsExtendedASCII := false }
  ((overflow_break fuel cfg s).bind (line_body fuel cfg)).map (line_tail cfg)

/-- The `while` loop of `do_text_translation` over the lines of the input. -/
def run_lines (fuel : Nat) (cfg : Config) : State → List Bytes → Option State
  | s, [] => some s
  | s, line :: rest => (process_line fuel cfg s line).bind fun s => run_lines fuel cfg s rest

/-- The function `do_text_translation`; `input` is the sequence of lines that
`gets_s` delivers. -/
def do_text_translation (fuel : Nat) (cfg : Config) (input : List Bytes) (s : State) :
    Option State :=
  ((start_pdf_page fuel cfg s).bind fun s => run_lines fuel cfg s input).map end_pdf_page

/-! ## Document assembler -/

/-- The Kids loop of `do_process_pages`. -/
def print_kids : List Nat → State → State
  | [], s => s
  | page_id :: rest, s => print_kids rest (emit (fmt_u page_id ++ " 0 R\n".toList) s)

/-- The loop `for (i = 1; i < GV_PDFObjectId; i++)` of `do_process_pages`:
`n` iterations starting at `i`. -/
def print_xref_entries : Nat → Nat → State → State
  | 0, _, s => s
  | n + 1, i, s =>
    print_xref_entries n (i + 1)
      (emit (fmt_010ld (s.GV_XReferences.getD i 0) ++ " 00000 n \n".toList) s)

/-- The state in which `do_process_pages` starts: the initial values of the
globals, the assignments of `main`, and the stack contents `stack` found in
`buffer1`. -/
def init_state (cfg : Config) (stack : Bytes) : State :=
  { out := [], err := [],
    GV_PDFObjectId := 1, GV_PDFPageTreeId := 0, GV_PDFNumberOfPages := 0,
    GV_PDFXRefCount := 0, GV_XReferences := [],
    GV_PDFStreamId := 0, GV_PDFStreamLengthId := 0, GV_PDFStreamStart := 0,
    GV_PAGE_LIST := [],
    GV_PDFPageYPosition := 0, GV_CurrentLineCount := 0, GV_CurrentPageCount := 0,
    GV_CURRENT_COLOR := cfg.GV_FONT_COLOR,
    GV_IsExtendedASCII := false,
    GV_IsPrintLineNumbers := cfg.GV_IsPrintLineNumbers,
    buffer1 := stack, buffer2 := [], bResetColor := false,
    issued := [], started := [], calls := [] }

/-- First part of `do_process_pages`: everything up to and including the catalog
object, i.e. up to the statement `start_xref = ftell(stdout)`.  The result carries
the local `catalog_id`. -/
def do_process_pages_objects (fuel : Nat) (cfg : Config) (input : List Bytes) (s : State) :
    Option (Nat × State) :=
  let s := emit "%PDF-1.4\n".toList s
  let s := emit ['%', Char.ofNat 0xE2, Char.ofNat 0xE3, Char.ofNat 0xCF, Char.ofNat 0xD3, '\n'] s
  let s := emit "% PDF: Adobe Portable Document Format\n".toList s
  let s := { s with GV_PDFObjectId := 1 }
  let (id, s) := next_object_id s
  let s := { s with GV_PDFPageTreeId := id }
  (do_text_translation fuel cfg input s).map fun s =>
    let (font_id0, s) := next_object_id s
    let s := start_pdf_object font_id0 s
    let s := emit ("<</Type/Font/Subtype/Type1/BaseFont/".toList ++ cfg.GV_BodyFontName
                   ++ "/Encoding/WinAnsiEncoding>>\nendobj\n".toList) s
    let (font_id1, s) := next_object_id s
    let s := start_pdf_object font_id1 s
    let s := emit ("<</Type/Font/Subtype/Type1/BaseFont/".toList ++ cfg.GV_HeadingFontName
                   ++ "/Encoding/WinAnsiEncoding>>\nendobj\n".toList) s
    let s := start_pdf_object s.GV_PDFPageTreeId s
    let s := emit ("<</Type /Pages /Count ".toList ++ fmt_u s.GV_PDFNumberOfPages
                   ++ "\n".toList) s
    let s := emit "/Kids[\n".toList s
    let s := print_kids s.GV_PAGE_LIST s
    let s := emit "]\n".toList s
    let s := emit "/Resources<</ProcSet[/PDF/Text]/Font<<".toList s
    let s := emit ("/F0 ".toList ++ fmt_u font_id0 ++ " 0 R\n".toList) s
    let s := emit ("/F1 ".toList ++ fmt_u font_id1 ++ " 0 R\n".toList) s
    let s := emit ("/F2<</Type /Font /Subtype /Type1 /BaseFont /".toList ++ cfg.GV_HeadingFontName
                   ++ " /Encoding /WinAnsiEncoding >> >>\n".toList) s
    let s := emit (">>/MediaBox [ 0 0 ".toList ++ cfg.fmt_g cfg.GV_PageWidth ++ " ".toList
                   ++ cfg.fmt_g cfg.GV_PageDepth ++ " ]\n".toList) s
    let s := emit ">>\nendobj\n".toList s
    let (catalog_id, s) := next_object_id s
    let s := start_pdf_object catalog_id s
    (catalog_id, emit ("<</Type /Catalog /Pages ".toList ++ fmt_u s.GV_PDFPageTreeId
                       ++ " 0 R>>\nendobj\n".toList) s)

/-- Second part of `do_process_pages`: cross-reference table and trailer, written
from the state `s` reached after the catalog object. -/
def do_process_pages_xref (catalog_id : Nat) (s : State) : State :=
  let start_xref := ftell s
  let s := emit "xref\n".toList s
  let s := emit ("0 ".toList ++ fmt_u s.GV_PDFObjectId ++ "\n".toList) s
  let s := emit "0000000000 65535 f \n".toList s
  let s := print_xref_entries (s.GV_PDFObjectId - 1) 1 s
  let s := emit ("trailer\n<<\n/Size ".toList ++ fmt_u s.GV_PDFObjectId ++ "\n/Root ".toList
                 ++ fmt_u catalog_id ++ " 0 R\n>>\n".toList) s
  emit ("startxref\n".toList ++ fmt_u start_xref ++ "\n%%EOF\n".toList) s

/-- The function `do_process_pages`, run from program start on the input lines
`input`. -/
def do_process_pages (fuel : Nat) (cfg : Config) (stack : Bytes) (input : List Bytes) :
    Option State :=
  (do_process_pages_objects fuel cfg input (init_state cfg stack)).map fun r =>
    do_process_pages_xref r.1 r.2

/-! ## The default configuration -/

/-- A six-decimal rendering of a rational (truncating), used to run the model on
concrete inputs. -/
def fmt_fixed6 (q : ℚ) : Bytes :=
  let n : Int := (q * 1000000).floor
  let a : Nat := n.natAbs
  (if n < 0 then "-".toList else []) ++ fmt_u (a / 1000000) ++ ".".toList
    ++ pad_left '0' 6 (fmt_u (a % 1000000))

/-- The defaults set at the top of `main` (no option given, environment empty);
the float conversions are parameters. -/
def default_config (fmt_f fmt_g : ℚ → Bytes) : Config :=
  { GV_IsASA := true
    GV_IsPrintPageNumbers := false
    GV_IsPrintLineNumbers := false
    GV_IsPerPageLineNumbers := true
    GV_IsPageCountPositionTop := false
    GV_ShadeStep := 2
    GV_PageDepth := (17 / 2) * 72
    GV_PageWidth := 11 * 72
    GV_PageMarginTop := (1 / 2) * 72
    GV_PageMarginBottom := (1 / 2) * 72
    GV_PageMarginLeft := (3 / 4) * 72
    GV_PageMarginRight := (3 / 4) * 72
    GV_LinesPerPage := 60
    GV_TitleFontSize := 12
    GV_DashCode := []
    GV_BodyFontName := "Courier".toList
    GV_HeadingFontName := "Courier-Bold".toList
    GV_TitleLeft := []
    GV_TitleRight := []
    GV_ImpactTop := []
    GV_OVERSTRIKE_COLOR := { r := 0, g := 0, b := 0 }
    GV_BAR_COLOR := colorConverter 0xC0C0C0
    GV_FONT_COLOR := colorConverter 0x000000
    GV_LINE_NUMBER_COLOR := colorConverter 0x330099
    GV_TITLE_COLOR := colorConverter 0xFF3300
    fmt_f := fmt_f
    fmt_g := fmt_g }

/-! ## Predicates and reference renderings used in the statements -/

/-- `Frame s t`: `t` arises from `s` by appending bytes to `stdout` and changing
text-engine fields only; every allocator and page-lifecycle field is unchanged. -/
structure Frame (s t : State) : Prop where
  out : ∃ bs, t.out = s.out ++ bs
  objid : t.GV_PDFObjectId = s.GV_PDFObjectId
  tree : t.GV_PDFPageTreeId = s.GV_PDFPageTreeId
  npages : t.GV_PDFNumberOfPages = s.GV_PDFNumberOfPages
  xcount : t.GV_PDFXRefCount = s.GV_PDFXRefCount
  xrefs : t.GV_XReferences = s.GV_XReferences
  sid : t.GV_PDFStreamId = s.GV_PDFStreamId
  lid : t.GV_PDFStreamLengthId = s.GV_PDFStreamLengthId
  sstart : t.GV_PDFStreamStart = s.GV_PDFStreamStart
  plist : t.GV_PAGE_LIST = s.GV_PAGE_LIST
  cpc : t.GV_CurrentPageCount = s.GV_CurrentPageCount
  issued : t.issued = s.issued
  started : t.started = s.started
  calls : t.calls = s.calls

/-- The header text printed by `start_pdf_object`. -/
def obj_header (id : Nat) : Bytes := fmt_u id ++ " 0 obj".toList

/-- `HeaderAt out off id`: the text `id 0 obj` begins at byte offset `off` of `out`. -/
def HeaderAt (out : Bytes) (off id : Nat) : Prop :=
  ∃ pre post, out = pre ++ obj_header id ++ post ∧ pre.length = off

/-- The offset stored for object `i` (cell `i` of `GV_XReferences`). -/
def xref_of (s : State) (i : Nat) : Nat := s.GV_XReferences.getD i 0

/-- The write of a logged call of `start_pdf_object` is in bounds and keeps the
earlier offsets: when the offset is stored, the table has `capacity` cells and the
id is below `capacity`; when the call returns, the cell of every id passed by an
earlier call holds what it held when the call was entered; the capacity is the
number of cells at entry, or that number after one growth step. -/
def XrefCall.InBounds (c : XrefCall) : Prop :=
  c.after.length = c.capacity ∧ c.id < c.capacity ∧
    (∀ j ∈ c.earlier, c.after.getD j 0 = c.before.getD j 0) ∧
    (c.capacity = c.before.length ∨
      c.capacity = c.before.length + (if c.before.length / 5 < 1000
        then c.before.length / 5 + 1000 else c.before.length / 5))

/-- Every id passed to `start_pdf_object` so far has a cell in the table, and the
offset in that cell is the position of the id's header in the output; every call
so far wrote in bounds. -/
structure Recorded (s : State) : Prop where
  len : s.GV_XReferences.length = s.GV_PDFXRefCount
  ok : ∀ i ∈ s.started, i < s.GV_PDFXRefCount ∧ HeaderAt s.out (xref_of s i) i
  calls : ∀ c ∈ s.calls, c.InBounds
  ids : s.calls.map XrefCall.id = s.started
  kept : ∀ c ∈ s.calls, xref_of s c.id = c.after.getD c.id 0

/-- The text-engine fields of a state. -/
def eng (s : State) : Bytes × ℚ × Int × RGB × Bool × Bool × Bytes × Bytes × Bool :=
  (s.err, s.GV_PDFPageYPosition, s.GV_CurrentLineCount, s.GV_CURRENT_COLOR,
   s.GV_IsExtendedASCII, s.GV_IsPrintLineNumbers, s.buffer1, s.buffer2, s.bResetColor)

/-- What one call of `start_pdf_object` does to the state. -/
structure StartObj (id : Nat) (s t : State) : Prop where
  out : t.out = s.out ++ obj_header id
  started : t.started = s.started ++ [id]
  len : s.GV_XReferences.length = s.GV_PDFXRefCount → t.GV_XReferences.length = t.GV_PDFXRefCount
  mono : s.GV_PDFXRefCount ≤ t.GV_PDFXRefCount
  self : s.GV_XReferences.length = s.GV_PDFXRefCount → id < s.GV_PDFXRefCount + 1000 →
    id < t.GV_PDFXRefCount ∧ xref_of t id = s.out.length
  other : ∀ i, i ≠ id → xref_of t i = xref_of s i
  objid : t.GV_PDFObjectId = s.GV_PDFObjectId
  tree : t.GV_PDFPageTreeId = s.GV_PDFPageTreeId
  npages : t.GV_PDFNumberOfPages = s.GV_PDFNumberOfPages
  sid : t.GV_PDFStreamId = s.GV_PDFStreamId
  lid : t.GV_PDFStreamLengthId = s.GV_PDFStreamLengthId
  sstart : t.GV_PDFStreamStart = s.GV_PDFStreamStart
  plist : t.GV_PAGE_LIST = s.GV_PAGE_LIST
  cpc : t.GV_CurrentPageCount = s.GV_CurrentPageCount
  issued : t.issued = s.issued
  engine : eng t = eng s
  calls : t.calls = s.calls ++ [{ id := id, capacity := t.GV_PDFXRefCount,
                                  before := s.GV_XReferences, after := t.GV_XReferences,
                                  earlier := s.started }]
  grow : t.GV_PDFXRefCount = s.GV_PDFXRefCount ∨
    t.GV_PDFXRefCount = s.GV_PDFXRefCount + (if s.GV_PDFXRefCount / 5 < 1000
      then s.GV_PDFXRefCount / 5 + 1000 else s.GV_PDFXRefCount / 5)

/-- `Ext s t`: the output of `t` extends that of `s`, the call log of `t` extends that
of `s`, and the table cells of the ids already started in `s` are unchanged. -/
structure Ext (s t : State) : Prop where
  out : ∃ bs, t.out = s.out ++ bs
  started : ∃ l, t.started = s.started ++ l
  cells : ∀ i ∈ s.started, xref_of t i = xref_of s i

/-- Text from the header of stream object `sid` up to and including `stream\n`. -/
def stream_open (sid lid : Nat) : Bytes :=
  obj_header sid ++ ("<< /Length ".toList ++ fmt_u lid ++ " 0 R >>".toList ++ "stream\n".toList)

/-- The marker text after a stream body. -/
def stream_end : Bytes := "endstream\nendobj\n".toList

/-- Body of a length object holding the number `n`. -/
def length_obj (n : Nat) : Bytes := "\n".toList ++ fmt_u n ++ "\nendobj\n".toList

/-- Body of a page object. -/
def page_obj (tree sid : Nat) : Bytes :=
  "<</Type/Page/Parent ".toList ++ fmt_u tree ++ " 0 R/Contents ".toList ++ fmt_u sid
    ++ " 0 R>>\nendobj\n".toList

/-- `PageAt s tree sid lid pid`: the output of `s` contains, at the offset recorded
for `sid`, the stream object `sid` whose dictionary names `lid` as its length, a
stream body `body` ending in the end-text marker, the markers `endstream`/`endobj`,
then at the offset recorded for `lid` the object `lid` whose body is the decimal
number `body.length`, then at the offset recorded for `pid` the page object `pid`
with parent `tree` and contents `sid`. -/
def PageAt (s : State) (tree sid lid pid : Nat) : Prop :=
  ∃ pre ops post,
    s.out = pre ++ (stream_open sid lid ++ ((ops ++ "ET\n".toList) ++ (stream_end
              ++ (obj_header lid ++ (length_obj (ops ++ "ET\n".toList).length
              ++ (obj_header pid ++ (page_obj tree sid ++ post))))))) ∧
    pre.length = xref_of s sid ∧
    pre.length + (stream_open sid lid).length + (ops ++ "ET\n".toList).length
      + stream_end.length = xref_of s lid ∧
    pre.length + (stream_open sid lid).length + (ops ++ "ET\n".toList).length
      + stream_end.length + (obj_header lid).length
      + (length_obj (ops ++ "ET\n".toList).length).length = xref_of s pid

/-- State between pages (before the first `start_pdf_page`, or right after an
`end_pdf_page`) when `k` pages have been finished. -/
structure ClosedInv (k : Nat) (s : State) : Prop where
  tree : s.GV_PDFPageTreeId = 1
  objid : s.GV_PDFObjectId = 3 * k + 2
  plist : s.GV_PAGE_LIST = (List.range k).map (fun j => 3 * j + 4)
  npages : s.GV_PDFNumberOfPages = k
  cpc : s.GV_CurrentPageCount = k
  issued : s.issued = List.range' 1 (3 * k + 1)
  started : s.started = List.range' 2 (3 * k)
  recd : Recorded s
  pages : ∀ j, j < k → PageAt s 1 (3 * j + 2) (3 * j + 3) (3 * j + 4)

/-- State while page `k + 1` is open (`k` pages have been finished). -/
structure OpenInv (k : Nat) (s : State) : Prop where
  tree : s.GV_PDFPageTreeId = 1
  objid : s.GV_PDFObjectId = 3 * k + 4
  sid : s.GV_PDFStreamId = 3 * k + 2
  lid : s.GV_PDFStreamLengthId = 3 * k + 3
  plist : s.GV_PAGE_LIST = (List.range k).map (fun j => 3 * j + 4)
  npages : s.GV_PDFNumberOfPages = k
  cpc : s.GV_CurrentPageCount = k + 1
  issued : s.issued = List.range' 1 (3 * k + 3)
  started : s.started = List.range' 2 (3 * k + 1)
  recd : Recorded s
  pages : ∀ j, j < k → PageAt s 1 (3 * j + 2) (3 * j + 3) (3 * j + 4)
  opn : ∃ pre body, s.out = pre ++ (stream_open (3 * k + 2) (3 * k + 3) ++ body) ∧
    pre.length = xref_of s (3 * k + 2) ∧
    s.GV_PDFStreamStart = pre.length + (stream_open (3 * k + 2) (3 * k + 3)).length

/-- The state of `start_pdf_page` just before its call of `start_pdf_object`, with
`lc` the value of the line counter after the per-page reset. -/
def page_ids (s : State) (lc : Int) : State :=
  { s with GV_PDFObjectId := s.GV_PDFObjectId + 1 + 1,
           issued := s.issued ++ [s.GV_PDFObjectId] ++ [s.GV_PDFObjectId + 1],
           GV_PDFStreamId := s.GV_PDFObjectId,
           GV_PDFStreamLengthId := s.GV_PDFObjectId + 1,
           GV_CurrentPageCount := s.GV_CurrentPageCount + 1,
           GV_CurrentLineCount := lc }

/-- The state of `start_pdf_page` at its call of `print_pdf_pagebars`. -/
def page_head (s : State) : State :=
  let s := start_pdf_object s.GV_PDFStreamId s
  let s := emit ("<< /Length ".toList ++ fmt_u s.GV_PDFStreamLengthId ++ " 0 R >>".toList) s
  let s := emit "stream\n".toList s
  { s with GV_PDFStreamStart := ftell s }

/-- The statements of `start_pdf_page` after `print_pdf_pagebars`. -/
def page_rest (cfg : Config) (s : State) : State :=
  let s := print_margin_label cfg s
  let s := emit ("BT\n/F0 ".toList ++ cfg.fmt_g (GV_BodyFontSize cfg) ++ " Tf\n".toList) s
  let s := { s with GV_PDFPageYPosition := cfg.GV_PageDepth - cfg.GV_PageMarginTop }
  let s := emit (cfg.fmt_g cfg.GV_PageMarginLeft ++ " ".toList
                 ++ cfg.fmt_g s.GV_PDFPageYPosition ++ " Td\n".toList) s
  emit (cfg.fmt_g (GV_StandardLineSize cfg) ++ " TL\n".toList) s

/-- `Steps fuel cfg s t`: `t` is reached from `s` by frame steps and page breaks
(`end_pdf_page` followed by `start_pdf_page`). -/
inductive Steps (fuel : Nat) (cfg : Config) : State → State → Prop
  | frame {s t : State} : Frame s t → Steps fuel cfg s t
  | page {s t : State} : start_pdf_page fuel cfg (end_pdf_page s) = some t → Steps fuel cfg s t
  | trans {s t u : State} : Steps fuel cfg s t → Steps fuel cfg t u → Steps fuel cfg s u

/-- `ObjAt s id body`: at the offset recorded for `id` the output of `s` contains
the header of object `id` followed by the text `body`. -/
def ObjAt (s : State) (id : Nat) (body : Bytes) : Prop :=
  ∃ pre post, s.out = pre ++ (obj_header id ++ (body ++ post)) ∧ pre.length = xref_of s id

/-- The text of the entries of a `/Kids` array. -/
def kids_text : List Nat → Bytes
  | [] => []
  | page_id :: rest => (fmt_u page_id ++ " 0 R\n".toList) ++ kids_text rest

/-- Body of a font object. -/
def font_obj (name : Bytes) : Bytes :=
  "<</Type/Font/Subtype/Type1/BaseFont/".toList ++ name
    ++ "/Encoding/WinAnsiEncoding>>\nendobj\n".toList

/-- First lines of the page tree object: type, `/Count` and the `/Kids` array. -/
def tree_head (count : Nat) (kids : List Nat) : Bytes :=
  ("<</Type /Pages /Count ".toList ++ fmt_u count ++ "\n".toList) ++ ("/Kids[\n".toList
    ++ (kids_text kids ++ "]\n".toList))

/-- Rest of the page tree object: resources and media box. -/
def tree_rest (cfg : Config) (font_id0 font_id1 : Nat) : Bytes :=
  "/Resources<</ProcSet[/PDF/Text]/Font<<".toList
    ++ (("/F0 ".toList ++ fmt_u font_id0 ++ " 0 R\n".toList)
    ++ (("/F1 ".toList ++ fmt_u font_id1 ++ " 0 R\n".toList)
    ++ (("/F2<</Type /Font /Subtype /Type1 /BaseFont /".toList ++ cfg.GV_HeadingFontName
          ++ " /Encoding /WinAnsiEncoding >> >>\n".toList)
    ++ ((">>/MediaBox [ 0 0 ".toList ++ cfg.fmt_g cfg.GV_PageWidth ++ " ".toList
          ++ cfg.fmt_g cfg.GV_PageDepth ++ " ]\n".toList)
    ++ ">>\nendobj\n".toList))))

/-- Body of the catalog object. -/
def catalog_obj (tree : Nat) : Bytes :=
  "<</Type /Catalog /Pages ".toList ++ fmt_u tree ++ " 0 R>>\nendobj\n".toList

/-- The statements of `do_process_pages` between `do_text_translation` and
`start_xref = ftell(stdout)`. -/
def objects_tail (cfg : Config) (s : State) : Nat × State :=
  let (font_id0, s) := next_object_id s
  let s := start_pdf_object font_id0 s
  let s := emit (font_obj cfg.GV_BodyFontName) s
  let (font_id1, s) := next_object_id s
  let s := start_pdf_object font_id1 s
  let s := emit (font_obj cfg.GV_HeadingFontName) s
  let s := start_pdf_object s.GV_PDFPageTreeId s
  let s := emit (tree_head s.GV_PDFNumberOfPages s.GV_PAGE_LIST ++ tree_rest cfg font_id0 font_id1) s
  let (catalog_id, s) := next_object_id s
  let s := start_pdf_object catalog_id s
  (catalog_id, emit (catalog_obj s.GV_PDFPageTreeId) s)

/-- What holds when `do_process_pages` reaches `start_xref = ftell(stdout)` with `P`
finished pages and the local `catalog_id`. -/
structure FinalInv (cfg : Config) (P : Nat) (catalog_id : Nat) (s : State) : Prop where
  pos : 1 ≤ P
  catalog : catalog_id = 3 * P + 4
  tree : s.GV_PDFPageTreeId = 1
  objid : s.GV_PDFObjectId = 3 * P + 5
  plist : s.GV_PAGE_LIST = (List.range P).map (fun j => 3 * j + 4)
  npages : s.GV_PDFNumberOfPages = P
  cpc : s.GV_CurrentPageCount = P
  issued : s.issued = List.range' 1 (3 * P + 4)
  started : s.started = List.range' 2 (3 * P + 2) ++ [1, 3 * P + 4]
  recd : Recorded s
  pages : ∀ j, j < P → PageAt s 1 (3 * j + 2) (3 * j + 3) (3 * j + 4)
  font0 : ObjAt s (3 * P + 2) (font_obj cfg.GV_BodyFontName)
  font1 : ObjAt s (3 * P + 3) (font_obj cfg.GV_HeadingFontName)
  treeobj : ObjAt s 1 (tree_head P ((List.range P).map (fun j => 3 * j + 4))
    ++ tree_rest cfg (3 * P + 2) (3 * P + 3))
  catobj : ObjAt s (3 * P + 4) (catalog_obj 1)

/-- Reference rendering of `n` in-use rows of the cross-reference table, for the
objects `i, i + 1, …`, each row being the ten-digit offset `off i`, the generation
`00000` and the flag `n`. -/
def xref_rows (off : Nat → Nat) : Nat → Nat → Bytes
  | 0, _ => []
  | n + 1, i => (fmt_010ld (off i) ++ " 00000 n \n".toList) ++ xref_rows off n (i + 1)

/-- Reference rendering of the cross-reference section for `N` entries: keyword,
subsection header `0 N`, the free-list head, and the rows of objects `1 … N - 1`. -/
def xref_section (N : Nat) (off : Nat → Nat) : Bytes :=
  "xref\n".toList ++ (("0 ".toList ++ fmt_u N ++ "\n".toList)
    ++ ("0000000000 65535 f \n".toList ++ xref_rows off (N - 1) 1))

/-- Reference rendering of the trailer and the `startxref` pointer. -/
def trailer_text (size root startxref : Nat) : Bytes :=
  ("trailer\n<<\n/Size ".toList ++ fmt_u size ++ "\n/Root ".toList ++ fmt_u root
      ++ " 0 R\n>>\n".toList)
    ++ ("startxref\n".toList ++ fmt_u startxref ++ "\n%%EOF\n".toList)

/-- The state in which `do_process_pages` calls `do_text_translation`: the three
header lines are written and the page tree has received object id 1. -/
def doc_start (cfg : Config) (stack : Bytes) : State :=
  { emit "% PDF: Adobe Portable Document Format\n".toList
      (emit ['%', Char.ofNat 0xE2, Char.ofNat 0xE3, Char.ofNat 0xCF, Char.ofNat 0xD3, '\n']
        (emit "%PDF-1.4\n".toList (init_state cfg stack))) with
    GV_PDFObjectId := 2, issued := (init_state cfg stack).issued ++ [1],
    GV_PDFPageTreeId := 1 }

/-- The local `height` of `print_pdf_pagebars`: the depth of one band. -/
def pagebars_height (cfg : Config) : ℚ := (cfg.GV_ShadeStep : ℚ) * GV_StandardLineSize cfg

/-- The value of the local `y1` of `print_pdf_pagebars` when its loop is entered. -/
def pagebars_y1 (cfg : Config) : ℚ :=
  cfg.GV_PageDepth - cfg.GV_PageMarginTop - pagebars_height cfg
    - (22 / 100 : ℚ) * GV_BodyFontSize cfg

/-- An iteration budget that suffices for the band loop of `print_pdf_pagebars` when
the band depth is positive: every iteration lowers `y1` by at least one band. -/
def pagebars_fuel (cfg : Config) : Nat :=
  Int.toNat ⌈(pagebars_y1 cfg - (cfg.GV_PageMarginBottom - pagebars_height cfg))
    / pagebars_height cfg⌉ + 2

/-- `Emits s t`: `t` is `s` with bytes appended to `stdout`, nothing else changed. -/
def Emits (s t : State) : Prop := ∃ bs, t = emit bs s

/-- The statements of `print_margin_label` between saving and restoring
`GV_IsPrintLineNumbers`. -/
def margin_label_body (cfg : Config) (s : State) : State :=
  let s := print_pdf_impact_top cfg s
  let charwidth := cfg.GV_TitleFontSize * (60 / 100 : ℚ)
  let s := emit (fmt_rgb cfg cfg.GV_TITLE_COLOR ++ " rg\n".toList) s
  let pagestring : Bytes := "Page ".toList ++ fmt_04d s.GV_CurrentPageCount
  let position_center := cfg.GV_PageMarginLeft
      + ((cfg.GV_PageWidth - cfg.GV_PageMarginLeft - cfg.GV_PageMarginRight) / 2)
      - ((pagestring.length : ℚ) * charwidth / 2)
  let position_right := cfg.GV_PageWidth - cfg.GV_PageMarginRight
      - ((cfg.GV_TitleRight.length : ℚ) * charwidth)
  let position_left := cfg.GV_PageMarginLeft
  let ytop := cfg.GV_PageDepth - cfg.GV_PageMarginTop + (12 / 100 : ℚ) * cfg.GV_TitleFontSize
  let s := if cfg.GV_TitleRight ≠ [] then
             print_pdf_title_at cfg position_right ytop cfg.GV_TitleRight s
           else s
  let s := if cfg.GV_IsPrintPageNumbers then
             if cfg.GV_IsPageCountPositionTop then
               print_pdf_title_at cfg position_center ytop pagestring s
             else
               print_pdf_title_at cfg position_center
                 (cfg.GV_PageMarginBottom - cfg.GV_TitleFontSize) pagestring s
           else s
  if cfg.GV_TitleLeft ≠ [] then
    print_pdf_title_at cfg position_left ytop cfg.GV_TitleLeft s
  else s

/-- What a page break (`end_pdf_page` then `start_pdf_page`) does to the fields the
text engine reads: the cursor is at top-of-page, the page counters have advanced,
the line counter is reset in per-page mode, everything else is unchanged. -/
structure PageBreak (cfg : Config) (s t : State) : Prop where
  ypos : t.GV_PDFPageYPosition = cfg.GV_PageDepth - cfg.GV_PageMarginTop
  cpc : t.GV_CurrentPageCount = s.GV_CurrentPageCount + 1
  npages : t.GV_PDFNumberOfPages = s.GV_PDFNumberOfPages + 1
  lc : t.GV_CurrentLineCount = if cfg.GV_IsPerPageLineNumbers then 0 else s.GV_CurrentLineCount
  err : t.err = s.err
  color : t.GV_CURRENT_COLOR = s.GV_CURRENT_COLOR
  ext : t.GV_IsExtendedASCII = s.GV_IsExtendedASCII
  pln : t.GV_IsPrintLineNumbers = s.GV_IsPrintLineNumbers
  buffer1 : t.buffer1 = s.buffer1
  buffer2 : t.buffer2 = s.buffer2
  reset : t.bResetColor = s.bResetColor

/-- Head of the line loop of `do_text_translation`: `gets_s` stores the line,
the line counter is incremented, `bResetColor` and `GV_IsExtendedASCII` are cleared. -/
def read_line (s : State) (line : Bytes) : State :=
  { s with buffer1 := gets_s line s.buffer1,
           GV_CurrentLineCount := s.GV_CurrentLineCount + 1,
           bResetColor := false, GV_IsExtendedASCII := false }

/-- End of an ASA line: the show-text operation `T*(payload)Tj` written by
`print_pdf_string`, then the tail of the line loop. -/
def show_payload (cfg : Config) (payload : Bytes) (s : State) : State :=
  line_tail cfg (emit "Tj\n".toList (print_pdf_string cfg payload (emit "T*".toList s)))

/-- The layout of the default configuration in ASA mode: page height 612, top and
bottom margins 36, 60 lines per page. -/
structure DefaultLayout (cfg : Config) : Prop where
  asa : cfg.GV_IsASA = true
  depth : cfg.GV_PageDepth = 612
  top : cfg.GV_PageMarginTop = 36
  bottom : cfg.GV_PageMarginBottom = 36
  lines : cfg.GV_LinesPerPage = 60

/-- Number of lines on the current page after one more line, when `m` lines are on
it before: the line opens a new page when the page is full. -/
def lines_after (m : Nat) : Nat := (if m = 60 then 0 else m) + 1

/-- Number of page breaks caused by one more line when `m` lines are on the page. -/
def break_after (m : Nat) : Nat := if m = 60 then 1 else 0

/-- Reference escaping of a text, following the specification: each of the three
reserved characters `(`, `)` and backslash is preceded by a backslash, every other
character stands for itself. -/
def escape_ref (text : Bytes) : Bytes :=
  text.flatMap fun c => if c = '(' ∨ c = ')' ∨ c = '\\' then ['\\', c] else [c]

/-- A layout whose printable height is one unit: the defaults of `main` with top
and bottom margins of 305.5 (as set by `-u 1 -MT305.5 -MB305.5`), so that
top-of-page, 306.5, equals `GV_PageMarginBottom + 1`. -/
def flat_config : Config :=
  { default_config fmt_fixed6 fmt_fixed6 with
    GV_PageMarginTop := 611 / 2, GV_PageMarginBottom := 611 / 2 }

/-- A state with the cursor at the top-of-page position of the default layout. -/
def top_state : State :=
  { init_state (default_config fmt_fixed6 fmt_fixed6) [] with GV_PDFPageYPosition := 576 }

/-- The bytes that `print_pdf_string` writes for the C string `buffer`, as a function
of the four globals it reads. -/
def pdf_string_bytes (cfg : Config) (pln : Bool) (lc : Int) (cur : RGB) (ext : Bool)
    (buffer : Bytes) : Bytes :=
  (if pln then
      "/F1 ".toList ++ cfg.fmt_f (GV_BodyFontSize cfg) ++ " Tf\n ".toList
        ++ fmt_rgb cfg cfg.GV_LINE_NUMBER_COLOR ++ " rg\n (".toList
        ++ fmt_6d lc ++ " | )Tj\n /F0 ".toList
        ++ cfg.fmt_f (GV_BodyFontSize cfg) ++ " Tf\n ".toList
        ++ fmt_rgb cfg cur ++ " rg ".toList
    else if cur.r ≠ cfg.GV_FONT_COLOR.r ∨ cur.g ≠ cfg.GV_FONT_COLOR.g ∨
        cur.b ≠ cfg.GV_FONT_COLOR.b then
      " ".toList ++ fmt_rgb cfg cur ++ " rg\n".toList
    else [])
  ++ ("(".toList ++ put_escaped ext buffer ++ ")".toList)

/-- A character that the free-form scanner only stores. -/
def Ordinary (c : Char) : Prop := c ≠ '\x0c' ∧ c ≠ '\r' ∧ c ≠ '\x00'

instance : DecidablePred Ordinary := fun c =>
  inferInstanceAs (Decidable (c ≠ '\x0c' ∧ c ≠ '\r' ∧ c ≠ '\x00'))

/-- The defaults of `main` in free-form mode (no `-a`). -/
def freeform_config : Config :=
  { default_config fmt_fixed6 fmt_fixed6 with GV_IsASA := false }

/-- The state `s` with the line buffer and the error channel replaced: the two
fields that no output routine reads. -/
def with_line (b e : Bytes) (s : State) : State := { s with buffer1 := b, err := e }

/-- The `case` labels of the statement `switch (ASA)`. -/
def asa_codes : List Char :=
  ['1', '0', '-', '+', 'R', 'G', 'B', 'H', 'r', 'g', 'b', '^', '>', '\x0c', ' ']

/-- The diagnostic written by the `default` case of `switch (ASA)`. -/
def asa_warning (c : Char) : Bytes :=
  "(warning) Unknown ASA Carriage Control Character ".toList ++ [c] ++ "\n".toList

/-- A state with the cursor one line below top-of-page in the default layout. -/
def below_top_state : State :=
  { init_state (default_config fmt_fixed6 fmt_fixed6) [] with GV_PDFPageYPosition := 567 }

/-- A state with the cursor at the bottom margin of the default layout. -/
def bottom_state : State :=
  { init_state (default_config fmt_fixed6 fmt_fixed6) [] with GV_PDFPageYPosition := 36 }

/-- The colour invariant inside a line: the current colour is the base font colour,
or the reset at the tail of the line loop is pending. -/
def ColourOk (cfg : Config) (s : State) : Prop :=
  s.bResetColor = true ∨ s.GV_CURRENT_COLOR = cfg.GV_FONT_COLOR

/-- The show-text operation written for the segment `X` of a free-form line read
from the state `s`. -/
def segment_shown (cfg : Config) (s : State) (X : Bytes) : Bytes :=
  "T*".toList ++ (pdf_string_bytes cfg s.GV_IsPrintLineNumbers (s.GV_CurrentLineCount + 1)
    s.GV_CURRENT_COLOR false X ++ "Tj\n".toList)

/-- Free-form mode with the overstrike colour red (`-A 0 -o FF0000`). -/
def overstrike_config : Config :=
  { default_config fmt_fixed6 fmt_fixed6 with
    GV_IsASA := false, GV_OVERSTRIKE_COLOR := colorConverter 0xFF0000 }

/-- The show-text operation written for a segment of a free-form line read from the
state `s`, once a carriage return has set the overstrike colour. -/
def overstrike_shown (cfg : Config) (s : State) (X : Bytes) : Bytes :=
  "T*".toList ++ (pdf_string_bytes cfg s.GV_IsPrintLineNumbers (s.GV_CurrentLineCount + 1 - 1)
    cfg.GV_OVERSTRIKE_COLOR false X ++ "Tj\n".toList)

/-- The text of one band drawn at height `y1`: a filled rectangle when the dash
pattern is empty, a dashed rule otherwise. -/
def band_text (cfg : Config) (x1 width height y1 : ℚ) : Bytes :=
  if cfg.GV_DashCode = [] then
    cfg.fmt_f x1 ++ " ".toList ++ cfg.fmt_f y1 ++ " ".toList ++ cfg.fmt_f width
      ++ " ".toList ++ cfg.fmt_f height ++ " re f\n".toList
  else
    (cfg.fmt_f x1 ++ " ".toList ++ cfg.fmt_f y1 ++ " m ".toList)
      ++ (cfg.fmt_f (x1 + width) ++ " ".toList ++ cfg.fmt_f y1 ++ " l s\n".toList)

/-- The distance between two bands in band depths: 2 for filled bars, 1 for dashed
rules. -/
def band_stride (cfg : Config) : ℚ := if cfg.GV_DashCode = [] then 2 else 1

/-- Reference rendering of `n` bands, numbered `k, k + 1, …`, band `j` at height
`y0 - j * m * height` with `m = band_stride cfg`. -/
def bands_text (cfg : Config) (x1 width height y0 : ℚ) : Nat → Nat → Bytes
  | 0, _ => []
  | n + 1, k =>
    band_text cfg x1 width height (y0 - (k : ℚ) * band_stride cfg * height)
      ++ bands_text cfg x1 width height y0 n (k + 1)

/-- The number of bands below a first band at `y0`: `⌊(y0 - bottom + h) / (m h)⌋ + 1`
when `y0 ≥ bottom - h`, none otherwise. -/
def band_count (cfg : Config) (height y0 : ℚ) : Nat :=
  if y0 ≥ cfg.GV_PageMarginBottom - height then
    Int.toNat ⌊(y0 - cfg.GV_PageMarginBottom + height) / (band_stride cfg * height)⌋ + 1
  else 0

/-- What `print_pdf_pagebars` writes before its loop. -/
def pagebars_prologue (cfg : Config) : Bytes :=
  (fmt_rgb cfg cfg.GV_BAR_COLOR ++ " rg\n".toList) ++ (fmt_u 1 ++ " i\n".toList)
    ++ (if cfg.GV_DashCode ≠ [] then "0 w [".toList ++ cfg.GV_DashCode ++ "] 0 d\n".toList
        else [])

/-- What `print_pdf_pagebars` writes after its loop. -/
def pagebars_epilogue (cfg : Config) : Bytes :=
  (if cfg.GV_DashCode ≠ [] then "[] 0 d\n".toList else [])
    ++ (fmt_u 0 ++ " G\n".toList) ++ (fmt_u 0 ++ " g\n".toList)

/-- The byte written by `putchar(c + 127)`. -/
def shift127 (c : Char) : Char := Char.ofNat ((c.toNat + 127) % 256)

/-- What `print_pdf_string` writes before the opening delimiter: the line number,
or a colour operator, or nothing. -/
def string_prefix (cfg : Config) (s : State) : Bytes :=
  if s.GV_IsPrintLineNumbers then
    "/F1 ".toList ++ cfg.fmt_f (GV_BodyFontSize cfg) ++ " Tf\n ".toList
      ++ fmt_rgb cfg cfg.GV_LINE_NUMBER_COLOR ++ " rg\n (".toList
      ++ fmt_6d s.GV_CurrentLineCount ++ " | )Tj\n /F0 ".toList
      ++ cfg.fmt_f (GV_BodyFontSize cfg) ++ " Tf\n ".toList
      ++ fmt_rgb cfg s.GV_CURRENT_COLOR ++ " rg ".toList
  else if s.GV_CURRENT_COLOR.r ≠ cfg.GV_FONT_COLOR.r ∨
      s.GV_CURRENT_COLOR.g ≠ cfg.GV_FONT_COLOR.g ∨
      s.GV_CURRENT_COLOR.b ≠ cfg.GV_FONT_COLOR.b then
    " ".toList ++ fmt_rgb cfg s.GV_CURRENT_COLOR ++ " rg\n".toList
  else []

/-- One ASA line as it reaches the output: the operator `T*`, the prefix of
`print_pdf_string`, the string `body` between the delimiters, the operator `Tj`, and
the tail of the line loop. -/
def shown_line (cfg : Config) (body : Bytes) (w : State) : State :=
  line_tail cfg (emit ("T*".toList ++ string_prefix cfg w
    ++ ("(".toList ++ body ++ ")".toList) ++ "Tj\n".toList) w)

/-- The cursor invariant at a line boundary: the cursor is at top-of-page, or at
least one line height below it. -/
def CursorInv (cfg : Config) (s : State) : Prop :=
  s.GV_PDFPageYPosition = cfg.GV_PageDepth - cfg.GV_PageMarginTop ∨
  s.GV_PDFPageYPosition ≤ cfg.GV_PageDepth - cfg.GV_PageMarginTop - GV_StandardLineSize cfg

/-- Number of lines on the current page after `n` lines of the form `' ' :: payload`
under the default layout. -/
def page_fill (n : Nat) : Nat := if n = 0 then 0 else (n - 1) % 60 + 1

/-- Value of the per-page line counter after `n` such lines: the lines of the first
page count from 1, the lines of later pages from 0. -/
def line_number (n : Nat) : Int := if n ≤ 60 then (n : Int) else (((n - 1) % 60 : Nat) : Int)

/-- The default configuration with line numbering enabled (option `-N 1`). -/
def numbered_config : Config :=
  { default_config fmt_fixed6 fmt_fixed6 with GV_IsPrintLineNumbers := true }

/-! ## Theorems -/

set_option maxHeartbeats 1000000

theorem Frame.same (s : State) : Frame s s :=
  ⟨⟨[], by simp⟩, rfl, rfl, rfl, rfl, rfl, rfl, rfl, rfl, rfl, rfl, rfl, rfl, rfl⟩

theorem Frame.andThen {s t u : State} (h1 : Frame s t) (h2 : Frame t u) : Frame s u := by
  obtain ⟨b1, e1⟩ := h1.out
  obtain ⟨b2, e2⟩ := h2.out
  exact ⟨⟨b1 ++ b2, by rw [e2, e1, List.append_assoc]⟩,
    h2.objid.trans h1.objid, h2.tree.trans h1.tree, h2.npages.trans h1.npages,
    h2.xcount.trans h1.xcount, h2.xrefs.trans h1.xrefs, h2.sid.trans h1.sid,
    h2.lid.trans h1.lid, h2.sstart.trans h1.sstart, h2.plist.trans h1.plist,
    h2.cpc.trans h1.cpc, h2.issued.trans h1.issued, h2.started.trans h1.started,
    h2.calls.trans h1.calls⟩

theorem Frame.emit {s t : State} (h : Frame s t) (bs : Bytes) : Frame s (emit bs t) :=
  h.andThen ⟨⟨bs, rfl⟩, rfl, rfl, rfl, rfl, rfl, rfl, rfl, rfl, rfl, rfl, rfl, rfl, rfl⟩

/-- Overwriting text-engine fields keeps the frame. -/
theorem Frame.engine {s t : State} (h : Frame s t) (e : Bytes) (y : ℚ) (lc : Int) (col : RGB)
    (ext pln : Bool) (b1 b2 : Bytes) (rc : Bool) :
    Frame s { t with err := e, GV_PDFPageYPosition := y, GV_CurrentLineCount := lc,
                     GV_CURRENT_COLOR := col, GV_IsExtendedASCII := ext,
                     GV_IsPrintLineNumbers := pln, buffer1 := b1, buffer2 := b2,
                     bResetColor := rc } :=
  h.andThen ⟨⟨[], by simp⟩, rfl, rfl, rfl, rfl, rfl, rfl, rfl, rfl, rfl, rfl, rfl, rfl, rfl⟩

theorem Frame.print_pdf_string {s t : State} (h : Frame s t) (cfg : Config) (buffer : Bytes) :
    Frame s (print_pdf_string cfg buffer t) := by
  unfold Txt2Pdf.print_pdf_string
  split_ifs <;> repeat (first | exact h | apply Frame.emit)

theorem Frame.print_pdf_title_at {s t : State} (h : Frame s t) (cfg : Config) (x y : ℚ)
    (str : Bytes) : Frame s (print_pdf_title_at cfg x y str t) := by
  unfold Txt2Pdf.print_pdf_title_at
  repeat (first | exact h | apply Frame.print_pdf_string | apply Frame.emit)

theorem Frame.print_pdf_impact_top {s t : State} (h : Frame s t) (cfg : Config) :
    Frame s (print_pdf_impact_top cfg t) := by
  unfold Txt2Pdf.print_pdf_impact_top
  split_ifs <;> repeat (first | exact h | apply Frame.print_pdf_string | apply Frame.emit)

theorem Frame.print_margin_label {s t : State} (h : Frame s t) (cfg : Config) :
    Frame s (print_margin_label cfg t) := by
  unfold Txt2Pdf.print_margin_label
  split_ifs <;>
    repeat (first
      | exact h | apply Frame.print_pdf_title_at | apply Frame.print_pdf_impact_top
      | apply Frame.engine | apply Frame.emit)

theorem Frame.adjust_pdf_ypos {s t : State} (h : Frame s t) (cfg : Config) (mult : ℚ) :
    Frame s (adjust_pdf_ypos cfg mult t) := by
  unfold Txt2Pdf.adjust_pdf_ypos
  split_ifs <;> repeat (first | exact h | apply Frame.engine)

theorem Frame.flush_buffer2 {s t : State} (h : Frame s t) (cfg : Config) :
    Frame s (flush_buffer2 cfg t) := by
  unfold Txt2Pdf.flush_buffer2
  split_ifs <;>
    repeat (first
      | exact h | apply Frame.print_pdf_string | apply Frame.adjust_pdf_ypos
      | apply Frame.engine | apply Frame.emit)

theorem Frame.line_tail {s t : State} (h : Frame s t) (cfg : Config) :
    Frame s (line_tail cfg t) := by
  unfold Txt2Pdf.line_tail
  dsimp only
  split_ifs <;> repeat (first | exact h | apply Frame.engine | apply Frame.emit)

theorem frame_pagebars_loop (cfg : Config) (x1 width height : ℚ) :
    ∀ (fuel : Nat) (y1 step : ℚ) (s t : State),
      pagebars_loop cfg x1 width height fuel y1 step s = some t → Frame s t := by
  intro fuel
  induction fuel with
  | zero => intro y1 step s t h; simp [pagebars_loop] at h
  | succ n ih =>
    intro y1 step s t h
    unfold pagebars_loop at h
    split_ifs at h
    · exact ((Frame.same s).emit _).andThen (ih _ _ _ _ h)
    · exact (((Frame.same s).emit _).emit _).andThen (ih _ _ _ _ h)
    · cases h; exact Frame.same _

theorem frame_print_pdf_pagebars (fuel : Nat) (cfg : Config) (s t : State)
    (h : print_pdf_pagebars fuel cfg s = some t) : Frame s t := by
  unfold print_pdf_pagebars at h
  simp only [Option.map_eq_some'] at h
  obtain ⟨u, hu, rfl⟩ := h
  have h1 := frame_pagebars_loop _ _ _ _ _ _ _ _ _ hu
  have h0 : Frame s (if cfg.GV_DashCode ≠ [] then
      emit ("0 w [".toList ++ cfg.GV_DashCode ++ "] 0 d\n".toList)
        (emit (fmt_u 1 ++ " i\n".toList) (emit (fmt_rgb cfg cfg.GV_BAR_COLOR ++ " rg\n".toList) s))
      else emit (fmt_u 1 ++ " i\n".toList)
        (emit (fmt_rgb cfg cfg.GV_BAR_COLOR ++ " rg\n".toList) s)) := by
    split_ifs <;> repeat (first | exact Frame.same _ | apply Frame.emit)
  have h2 := h0.andThen h1
  split_ifs <;> repeat (first | exact h2 | apply Frame.emit)

theorem HeaderAt.append {out : Bytes} {off id : Nat} (h : HeaderAt out off id) (bs : Bytes) :
    HeaderAt (out ++ bs) off id := by
  obtain ⟨pre, post, e, hl⟩ := h
  exact ⟨pre, post ++ bs, by rw [e, List.append_assoc], hl⟩

theorem getD_append_zeros (xs : List Nat) (d i : Nat) :
    (xs ++ List.replicate d 0).getD i 0 = xs.getD i 0 := by
  rcases Nat.lt_or_ge i xs.length with h | h
  · simp [List.getD_eq_getElem?_getD, List.getElem?_append_left h]
  · rw [List.getD_eq_getElem?_getD, List.getD_eq_getElem?_getD,
      List.getElem?_append_right h, List.getElem?_eq_none h]
    rw [List.getElem?_replicate]
    split_ifs <;> rfl

theorem startObj (id : Nat) (s : State) : StartObj id s (start_pdf_object id s) := by
  unfold start_pdf_object
  by_cases hge : id ≥ s.GV_PDFXRefCount
  · simp only [hge, if_true]
    refine ⟨rfl, rfl, ?_, ?_, ?_, ?_, rfl, rfl, rfl, rfl, rfl, rfl, rfl, rfl, rfl, rfl, rfl,
      Or.inr rfl⟩
    · intro h
      simp [emit, grow_xrefs, h]
    · simp [emit, grow_xrefs]
    · intro h hlt
      have hd : id < s.GV_PDFXRefCount +
          (if s.GV_PDFXRefCount / 5 < 1000 then s.GV_PDFXRefCount / 5 + 1000
           else s.GV_PDFXRefCount / 5) := by
        split_ifs <;> omega
      refine ⟨by simpa [emit, grow_xrefs] using hd, ?_⟩
      simp only [xref_of, emit, grow_xrefs, ftell]
      rw [List.getD_eq_getElem?_getD, List.getElem?_set_self]
      · simp
      · simpa [h] using hd
    · intro i hi
      simp only [xref_of, emit, grow_xrefs]
      rw [List.getD_eq_getElem?_getD, List.getElem?_set_ne (Ne.symm hi),
        ← List.getD_eq_getElem?_getD, getD_append_zeros]
  · simp only [hge, if_false]
    have hlt : id < s.GV_PDFXRefCount := Nat.lt_of_not_ge hge
    refine ⟨rfl, rfl, ?_, ?_, ?_, ?_, rfl, rfl, rfl, rfl, rfl, rfl, rfl, rfl, rfl, rfl, rfl,
      Or.inl rfl⟩
    · intro h
      simp [emit, h]
    · simp [emit]
    · intro h _
      refine ⟨by simpa [emit] using hlt, ?_⟩
      simp only [xref_of, emit, ftell]
      rw [List.getD_eq_getElem?_getD, List.getElem?_set_self]
      · simp
      · simpa [h] using hlt
    · intro i hi
      simp only [xref_of, emit]
      rw [List.getD_eq_getElem?_getD, List.getElem?_set_ne (Ne.symm hi),
        ← List.getD_eq_getElem?_getD]

/-- Appending output and leaving the table and the call log alone keeps `Recorded`. -/
theorem Recorded.of_same {s t : State} (h : Recorded s) (hout : ∃ bs, t.out = s.out ++ bs)
    (hx : t.GV_XReferences = s.GV_XReferences) (hc : t.GV_PDFXRefCount = s.GV_PDFXRefCount)
    (hs : t.started = s.started) (hk : t.calls = s.calls) : Recorded t := by
  obtain ⟨bs, e⟩ := hout
  refine ⟨by rw [hx, hc]; exact h.len, ?_, by rw [hk]; exact h.calls,
    by rw [hk, hs]; exact h.ids, ?_⟩
  swap
  · intro c hc'
    rw [hk] at hc'
    have : xref_of t c.id = xref_of s c.id := by simp [xref_of, hx]
    rw [this]
    exact h.kept c hc'
  intro i hi
  rw [hs] at hi
  obtain ⟨h1, h2⟩ := h.ok i hi
  refine ⟨by rw [hc]; exact h1, ?_⟩
  have : xref_of t i = xref_of s i := by simp [xref_of, hx]
  rw [this, e]
  exact h2.append bs

theorem Recorded.keep {s t : State} (h : Recorded s) (f : Frame s t) : Recorded t :=
  h.of_same f.out f.xrefs f.xcount f.started f.calls

/-- A call of `start_pdf_object` with a fresh id that is less than 1000 cells
beyond the table keeps `Recorded`. -/
theorem Recorded.start {s t : State} {id : Nat} (h : Recorded s) (st : StartObj id s t)
    (hfresh : id ∉ s.started) (hlt : id < s.GV_PDFXRefCount + 1000) : Recorded t := by
  refine ⟨st.len h.len, ?_, ?_, ?_, ?_⟩
  rotate_left
  · intro c hc
    rw [st.calls, List.mem_append, List.mem_singleton] at hc
    rcases hc with hc | rfl
    · exact h.calls c hc
    · refine ⟨st.len h.len, (st.self h.len hlt).1, ?_, ?_⟩
      · intro j hj
        exact st.other j (fun e => hfresh (e ▸ hj))
      · show t.GV_PDFXRefCount = s.GV_XReferences.length ∨ _
        rw [h.len]
        exact st.grow
  · rw [st.calls, st.started, List.map_append, h.ids]
    rfl
  · intro c hc
    rw [st.calls, List.mem_append, List.mem_singleton] at hc
    rcases hc with hc | rfl
    · have hm : c.id ∈ s.started := by
        rw [← h.ids]
        exact List.mem_map_of_mem _ hc
      rw [st.other c.id (fun e => hfresh (e ▸ hm))]
      exact h.kept c hc
    · rfl
  intro i hi
  rw [st.started, List.mem_append, List.mem_singleton] at hi
  rcases hi with hi | rfl
  · obtain ⟨h1, h2⟩ := h.ok i hi
    have hne : i ≠ id := fun e => hfresh (e ▸ hi)
    refine ⟨Nat.lt_of_lt_of_le h1 st.mono, ?_⟩
    rw [st.other i hne, st.out]
    exact h2.append _
  · obtain ⟨h1, h2⟩ := st.self h.len hlt
    refine ⟨h1, ?_⟩
    rw [h2, st.out]
    exact ⟨s.out, [], by simp, rfl⟩

theorem Ext.same_ext (s : State) : Ext s s := ⟨⟨[], by simp⟩, ⟨[], by simp⟩, fun _ _ => rfl⟩

theorem Ext.step {s t u : State} (h1 : Ext s t) (h2 : Ext t u) : Ext s u := by
  obtain ⟨b1, e1⟩ := h1.out
  obtain ⟨b2, e2⟩ := h2.out
  obtain ⟨l1, f1⟩ := h1.started
  obtain ⟨l2, f2⟩ := h2.started
  refine ⟨⟨b1 ++ b2, by rw [e2, e1, List.append_assoc]⟩,
    ⟨l1 ++ l2, by rw [f2, f1, List.append_assoc]⟩, ?_⟩
  intro i hi
  rw [h2.cells i (by rw [f1]; exact List.mem_append_left _ hi), h1.cells i hi]

theorem Ext.of_eq {s t : State} (hout : ∃ bs, t.out = s.out ++ bs) (hs : t.started = s.started)
    (hx : t.GV_XReferences = s.GV_XReferences) : Ext s t :=
  ⟨hout, ⟨[], by simp [hs]⟩, fun i _ => by simp [xref_of, hx]⟩

theorem Frame.to_ext {s t : State} (f : Frame s t) : Ext s t :=
  Ext.of_eq f.out f.started f.xrefs

theorem StartObj.fresh_ext {id : Nat} {s t : State} (st : StartObj id s t) (hfresh : id ∉ s.started) :
    Ext s t :=
  ⟨⟨_, st.out⟩, ⟨_, st.started⟩, fun i hi => st.other i (fun e => hfresh (e ▸ hi))⟩

theorem PageAt.carry {s t : State} {tree sid lid pid : Nat} (h : PageAt s tree sid lid pid)
    (e : Ext s t) (h1 : sid ∈ s.started) (h2 : lid ∈ s.started) (h3 : pid ∈ s.started) :
    PageAt t tree sid lid pid := by
  obtain ⟨pre, ops, post, ho, a1, a2, a3⟩ := h
  obtain ⟨bs, eo⟩ := e.out
  refine ⟨pre, ops, post ++ bs, ?_, ?_, ?_, ?_⟩
  · rw [eo, ho]; simp only [List.append_assoc]
  · rw [e.cells _ h1]; exact a1
  · rw [e.cells _ h2]; exact a2
  · rw [e.cells _ h3]; exact a3

theorem mem_started_of_lt {k j : Nat} (h : j < k) :
    3 * j + 2 ∈ List.range' 2 (3 * k) ∧ 3 * j + 3 ∈ List.range' 2 (3 * k) ∧
      3 * j + 4 ∈ List.range' 2 (3 * k) := by
  simp only [List.mem_range'_1]
  omega

theorem OpenInv.keep_open {k : Nat} {s t : State} (h : OpenInv k s) (f : Frame s t) :
    OpenInv k t := by
  refine ⟨f.tree.trans h.tree, f.objid.trans h.objid, f.sid.trans h.sid, f.lid.trans h.lid,
    f.plist.trans h.plist, f.npages.trans h.npages, f.cpc.trans h.cpc,
    f.issued.trans h.issued, f.started.trans h.started, h.recd.keep f, ?_, ?_⟩
  · intro j hj
    have hm := mem_started_of_lt hj
    have hs : List.range' 2 (3 * k) ⊆ s.started := by
      rw [h.started]
      intro x hx
      simp only [List.mem_range'_1] at hx ⊢
      omega
    exact (h.pages j hj).carry f.to_ext (hs hm.1) (hs hm.2.1) (hs hm.2.2)
  · obtain ⟨pre, body, ho, a1, a2⟩ := h.opn
    obtain ⟨bs, eo⟩ := f.out
    refine ⟨pre, body ++ bs, ?_, ?_, ?_⟩
    · rw [eo, ho]; simp only [List.append_assoc]
    · rw [show xref_of t (3 * k + 2) = xref_of s (3 * k + 2) by simp [xref_of, f.xrefs]]
      exact a1
    · rw [f.sstart]; exact a2

theorem range'_two_subset {a b : Nat} (h : a ≤ b) : List.range' 2 a ⊆ List.range' 2 b := by
  intro x hx
  simp only [List.mem_range'_1] at hx ⊢
  omega

theorem range'_snoc (a n m : Nat) (h : m = a + n) :
    List.range' a n ++ [m] = List.range' a (n + 1) := by
  subst h; exact (List.range'_1_concat a n).symm

/-- Closing the open page: `end_pdf_page` turns the invariant of an open page into
the invariant between pages, with one more finished page. -/
theorem OpenInv.end_page {k : Nat} {s : State} (h : OpenInv k s) :
    ClosedInv (k + 1) (end_pdf_page s) := by
  obtain ⟨pre, body, ho, a1, a2⟩ := h.opn
  -- the states the function passes through
  let s4 : State := emit stream_end
    (emit "ET\n".toList (store_pdf_page s.GV_PDFObjectId (next_object_id s).2))
  have st5 := startObj s.GV_PDFStreamLengthId s4
  let s5 := start_pdf_object s.GV_PDFStreamLengthId s4
  let s6 := emit (length_obj ((s.out ++ "ET\n".toList).length - s.GV_PDFStreamStart)) s5
  have st7 := startObj s.GV_PDFObjectId s6
  let s7 := start_pdf_object s.GV_PDFObjectId s6
  have hend : end_pdf_page s = emit (page_obj s7.GV_PDFPageTreeId s7.GV_PDFStreamId) s7 := rfl
  have hlen : (s.out ++ "ET\n".toList).length - s.GV_PDFStreamStart
      = (body ++ "ET\n".toList).length := by
    rw [a2, ho]; simp only [List.length_append]; omega
  have o4 : s4.out = s.out ++ ("ET\n".toList ++ stream_end) := by
    show (s.out ++ "ET\n".toList) ++ stream_end = _
    rw [List.append_assoc]
  have o5 : s5.out = s4.out ++ obj_header s.GV_PDFStreamLengthId := st5.out
  have o6 : s6.out = s5.out ++ length_obj (body ++ "ET\n".toList).length := by
    show s5.out ++ _ = _
    rw [hlen]
  have o7 : s7.out = s6.out ++ obj_header s.GV_PDFObjectId := st7.out
  have r4 : Recorded s4 := h.recd.of_same ⟨_, o4⟩ rfl rfl rfl rfl
  have m2 : 3 * k + 2 ∈ s.started := by
    rw [h.started]; simp only [List.mem_range'_1]; omega
  have c2 : 3 * k + 2 < s.GV_PDFXRefCount := (h.recd.ok _ m2).1
  have f5 : s.GV_PDFStreamLengthId ∉ s4.started := by
    show s.GV_PDFStreamLengthId ∉ s.started
    rw [h.started, h.lid]; simp only [List.mem_range'_1]; omega
  have r5 : Recorded s5 := r4.start st5 f5 (by
    show s.GV_PDFStreamLengthId < s.GV_PDFXRefCount + 1000
    rw [h.lid]; omega)
  have r6 : Recorded s6 := r5.of_same ⟨_, rfl⟩ rfl rfl rfl rfl
  have e6 : s6.started = s.started ++ [3 * k + 3] := by
    show s5.started = _
    rw [st5.started, h.lid]; rfl
  have f7 : s.GV_PDFObjectId ∉ s6.started := by
    rw [e6, h.started, h.objid]
    simp only [List.mem_append, List.mem_range'_1, List.mem_singleton]; omega
  have c6 : s.GV_PDFXRefCount ≤ s6.GV_PDFXRefCount := st5.mono
  have c7 : s.GV_PDFObjectId < s6.GV_PDFXRefCount + 1000 :=
    Nat.lt_of_lt_of_le (by rw [h.objid]; omega : s.GV_PDFObjectId < s.GV_PDFXRefCount + 1000)
      (Nat.add_le_add_right c6 1000)
  have r7 : Recorded s7 := r6.start st7 f7 c7
  have x4 : Ext s s4 := Ext.of_eq ⟨_, o4⟩ rfl rfl
  have x5 : Ext s4 s5 := st5.fresh_ext f5
  have x6 : Ext s5 s6 := Ext.of_eq ⟨_, rfl⟩ rfl rfl
  have x7 : Ext s6 s7 := st7.fresh_ext f7
  have x8 : Ext s7 (end_pdf_page s) := by rw [hend]; exact Ext.of_eq ⟨_, rfl⟩ rfl rfl
  have xall : Ext s (end_pdf_page s) := (((x4.step x5).step x6).step x7).step x8
  have hst : (end_pdf_page s).started = List.range' 2 (3 * (k + 1)) := by
    rw [hend]
    show s7.started = _
    rw [st7.started, e6, h.started, h.objid, range'_snoc _ _ _ (by omega),
      range'_snoc _ _ _ (by omega)]
    congr 1
  refine ⟨?_, ?_, ?_, ?_, ?_, ?_, hst, ?_, ?_⟩
  · rw [hend]; show s7.GV_PDFPageTreeId = 1
    rw [st7.tree]; show s5.GV_PDFPageTreeId = 1
    rw [st5.tree]; exact h.tree
  · rw [hend]; show s7.GV_PDFObjectId = _
    rw [st7.objid]; show s5.GV_PDFObjectId = _
    rw [st5.objid]; show s.GV_PDFObjectId + 1 = _
    rw [h.objid]; ring
  · rw [hend]; show s7.GV_PAGE_LIST = _
    rw [st7.plist]; show s5.GV_PAGE_LIST = _
    rw [st5.plist]; show s.GV_PAGE_LIST ++ [s.GV_PDFObjectId] = _
    rw [h.plist, h.objid, List.range_succ, List.map_append]; rfl
  · rw [hend]; show s7.GV_PDFNumberOfPages = _
    rw [st7.npages]; show s5.GV_PDFNumberOfPages = _
    rw [st5.npages]; show s.GV_PDFNumberOfPages + 1 = _
    rw [h.npages]
  · rw [hend]; show s7.GV_CurrentPageCount = _
    rw [st7.cpc]; show s5.GV_CurrentPageCount = _
    rw [st5.cpc]; exact h.cpc
  · rw [hend]; show s7.issued = _
    rw [st7.issued]; show s5.issued = _
    rw [st5.issued]; show s.issued ++ [s.GV_PDFObjectId] = _
    rw [h.issued, h.objid, range'_snoc _ _ _ (by omega)]
    congr 1
  · rw [hend]; exact r7.of_same ⟨_, rfl⟩ rfl rfl rfl rfl
  · intro j hj
    rcases Nat.lt_or_ge j k with hjk | hjk
    · have hm := mem_started_of_lt hjk
      have hs : List.range' 2 (3 * k) ⊆ s.started := by
        rw [h.started]; exact range'_two_subset (by omega)
      exact (h.pages j hjk).carry xall (hs hm.1) (hs hm.2.1) (hs hm.2.2)
    · have hjk2 : j = k := by omega
      subst hjk2
      refine ⟨pre, body, [], ?_, ?_, ?_, ?_⟩
      · rw [hend]
        show s7.out ++ page_obj s7.GV_PDFPageTreeId s7.GV_PDFStreamId = _
        have t7 : s7.GV_PDFPageTreeId = 1 := by
          rw [st7.tree]; show s5.GV_PDFPageTreeId = 1
          rw [st5.tree]; exact h.tree
        have i7 : s7.GV_PDFStreamId = 3 * j + 2 := by
          rw [st7.sid]; show s5.GV_PDFStreamId = _
          rw [st5.sid]; exact h.sid
        rw [t7, i7, o7, o6, o5, o4, ho, h.lid, h.objid]
        simp only [List.append_assoc, List.append_nil]
      · rw [xall.cells _ m2]; exact a1
      · have e1 : xref_of (end_pdf_page s) (3 * j + 3) = xref_of s5 (3 * j + 3) := by
          have m3 : 3 * j + 3 ∈ s5.started := by
            rw [st5.started, h.lid]; exact List.mem_append_right _ (List.mem_singleton_self _)
          rw [((x6.step x7).step x8).cells _ m3]
        have e2 : xref_of s5 s.GV_PDFStreamLengthId = s4.out.length :=
          (st5.self r4.len (by
            show s.GV_PDFStreamLengthId < s.GV_PDFXRefCount + 1000
            rw [h.lid]; omega)).2
        rw [h.lid] at e2
        rw [e1, e2, o4, ho]
        simp only [List.length_append]; omega
      · have e1 : xref_of (end_pdf_page s) (3 * j + 4) = xref_of s7 (3 * j + 4) := by
          have m4 : 3 * j + 4 ∈ s7.started := by
            rw [st7.started, h.objid]; exact List.mem_append_right _ (List.mem_singleton_self _)
          rw [x8.cells _ m4]
        have e2 : xref_of s7 s.GV_PDFObjectId = s6.out.length := (st7.self r6.len c7).2
        rw [h.objid] at e2
        rw [e1, e2, o6, o5, o4, ho, h.lid]
        simp only [List.length_append]; omega

theorem start_pdf_page_eq (fuel : Nat) (cfg : Config) (s : State) :
    start_pdf_page fuel cfg s =
      (print_pdf_pagebars fuel cfg
        (page_head (page_ids s (if cfg.GV_IsPerPageLineNumbers then 0
          else s.GV_CurrentLineCount)))).map (page_rest cfg) := by
  cases hpp : cfg.GV_IsPerPageLineNumbers <;>
    simp only [start_pdf_page, hpp, next_object_id, if_true, if_false, Bool.false_eq_true] <;> rfl

theorem frame_page_rest (cfg : Config) (s : State) : Frame s (page_rest cfg s) := by
  unfold page_rest
  repeat (first
    | exact Frame.same _ | apply Frame.print_margin_label | apply Frame.engine | apply Frame.emit)

/-- The cursor is at top-of-page when `start_pdf_page` returns. -/
theorem ypos_page_rest (cfg : Config) (s : State) :
    (page_rest cfg s).GV_PDFPageYPosition = cfg.GV_PageDepth - cfg.GV_PageMarginTop := rfl

/-- Opening a page: `start_pdf_page` turns the invariant between pages into the
invariant of an open page. -/
theorem ClosedInv.start_page {k : Nat} {s t : State} {fuel : Nat} {cfg : Config}
    (h : ClosedInv k s) (ht : start_pdf_page fuel cfg s = some t) : OpenInv k t := by
  rw [start_pdf_page_eq, Option.map_eq_some'] at ht
  obtain ⟨u, hu, rfl⟩ := ht
  generalize (if cfg.GV_IsPerPageLineNumbers then (0 : Int) else s.GV_CurrentLineCount) = lc at hu
  refine OpenInv.keep_open ?_ ((frame_print_pdf_pagebars _ _ _ _ hu).andThen (frame_page_rest _ _))
  let s1 := page_ids s lc
  have st := startObj s.GV_PDFObjectId s1
  let s2 := start_pdf_object s.GV_PDFObjectId s1
  have r1 : Recorded s1 := h.recd.of_same ⟨[], by simp [s1, page_ids]⟩ rfl rfl rfl rfl
  have hfresh : s.GV_PDFObjectId ∉ s1.started := by
    show s.GV_PDFObjectId ∉ s.started
    rw [h.started, h.objid]; simp only [List.mem_range'_1]; omega
  have hlt : s.GV_PDFObjectId < s1.GV_PDFXRefCount + 1000 := by
    show s.GV_PDFObjectId < s.GV_PDFXRefCount + 1000
    rw [h.objid]
    rcases Nat.eq_zero_or_pos k with hk | hk
    · subst hk; omega
    · have hm : 3 * k + 1 ∈ s.started := by
        rw [h.started]; simp only [List.mem_range'_1]; omega
      have := (h.recd.ok _ hm).1
      omega
  have r2 : Recorded s2 := r1.start st hfresh hlt
  have x1 : Ext s s1 := Ext.of_eq ⟨[], by simp [s1, page_ids]⟩ rfl rfl
  have x2 : Ext s1 s2 := st.fresh_ext hfresh
  have o2 : s2.out = s.out ++ obj_header s.GV_PDFObjectId := st.out
  have l2 : s2.GV_PDFStreamLengthId = s.GV_PDFObjectId + 1 := st.lid
  have hhead : (page_head s1).out = s.out ++ stream_open s.GV_PDFObjectId (s.GV_PDFObjectId + 1) := by
    show (s2.out ++ ("<< /Length ".toList ++ fmt_u s2.GV_PDFStreamLengthId ++ " 0 R >>".toList))
      ++ "stream\n".toList = _
    rw [o2, l2, stream_open]
    simp only [List.append_assoc]
  have hx3 : ∃ bs, (page_head s1).out = s2.out ++ bs :=
    ⟨"<< /Length ".toList ++ fmt_u (s.GV_PDFObjectId + 1) ++ " 0 R >>".toList
        ++ "stream\n".toList,
      by rw [hhead, o2, stream_open]; simp only [List.append_assoc]⟩
  have x3 : Ext s2 (page_head s1) := Ext.of_eq hx3 rfl rfl
  have xall : Ext s (page_head s1) := (x1.step x2).step x3
  have e3 : 3 * k + 2 + 1 = 3 * k + 3 := by ring
  refine ⟨?_, ?_, ?_, ?_, ?_, ?_, ?_, ?_, ?_, ?_, ?_, ?_⟩
  · show s2.GV_PDFPageTreeId = 1
    rw [st.tree]; exact h.tree
  · show s2.GV_PDFObjectId = _
    rw [st.objid]; show s.GV_PDFObjectId + 1 + 1 = _
    rw [h.objid]
  · show s2.GV_PDFStreamId = _
    rw [st.sid]; exact h.objid
  · show s2.GV_PDFStreamLengthId = _
    rw [l2, h.objid]
  · show s2.GV_PAGE_LIST = _
    rw [st.plist]; exact h.plist
  · show s2.GV_PDFNumberOfPages = _
    rw [st.npages]; exact h.npages
  · show s2.GV_CurrentPageCount = _
    rw [st.cpc]; show s.GV_CurrentPageCount + 1 = _
    rw [h.cpc]
  · show s2.issued = _
    rw [st.issued]; show s.issued ++ [s.GV_PDFObjectId] ++ [s.GV_PDFObjectId + 1] = _
    rw [h.issued, h.objid, range'_snoc _ _ _ (by omega), range'_snoc _ _ _ (by omega)]
  · show s2.started = _
    rw [st.started]; show s.started ++ [s.GV_PDFObjectId] = _
    rw [h.started, h.objid, range'_snoc _ _ _ (by omega)]
  · exact r2.of_same hx3 rfl rfl rfl rfl
  · intro j hj
    have hm := mem_started_of_lt hj
    rw [← h.started] at hm
    exact (h.pages j hj).carry xall hm.1 hm.2.1 hm.2.2
  · refine ⟨s.out, [], ?_, ?_, ?_⟩
    · rw [hhead, h.objid, List.append_nil]
    · have e2 : xref_of s2 s.GV_PDFObjectId = s1.out.length := (st.self r1.len hlt).2
      rw [h.objid] at e2
      show s.out.length = xref_of s2 (3 * k + 2)
      rw [e2]; rfl
    · show ((s2.out ++ ("<< /Length ".toList ++ fmt_u s2.GV_PDFStreamLengthId
        ++ " 0 R >>".toList)) ++ "stream\n".toList).length = _
      rw [o2, l2, h.objid, e3, stream_open]
      simp only [List.length_append]; omega

/-- A page break (`end_pdf_page` followed by `start_pdf_page`) moves the invariant
of an open page to the next page. -/
theorem OpenInv.page_break {k : Nat} {s t : State} {fuel : Nat} {cfg : Config}
    (h : OpenInv k s) (ht : start_pdf_page fuel cfg (end_pdf_page s) = some t) :
    OpenInv (k + 1) t :=
  h.end_page.start_page ht

theorem Steps.open_inv {fuel : Nat} {cfg : Config} {s t : State} (h : Steps fuel cfg s t) :
    ∀ k, OpenInv k s → ∃ k', k ≤ k' ∧ OpenInv k' t := by
  induction h with
  | frame f => exact fun k hk => ⟨k, Nat.le_refl k, hk.keep_open f⟩
  | page hp => exact fun k hk => ⟨k + 1, Nat.le_succ k, hk.page_break hp⟩
  | trans _ _ ih1 ih2 =>
    intro k hk
    obtain ⟨k1, hle1, h1⟩ := ih1 k hk
    obtain ⟨k2, hle2, h2⟩ := ih2 k1 h1
    exact ⟨k2, Nat.le_trans hle1 hle2, h2⟩

theorem steps_overflow_break {fuel : Nat} {cfg : Config} {s t : State}
    (h : overflow_break fuel cfg s = some t) : Steps fuel cfg s t := by
  unfold overflow_break at h
  split_ifs at h
  · exact Steps.page h
  · cases h; exact Steps.frame (Frame.same _)

theorem Frame.ite {s a b : State} (c : Prop) [Decidable c] (ha : Frame s a) (hb : Frame s b) :
    Frame s (if c then a else b) := by
  split_ifs
  · exact ha
  · exact hb

theorem steps_asa_switch {fuel : Nat} {cfg : Config} {c : Char} {s t : State}
    (h : asa_switch fuel cfg c s = some t) : Steps fuel cfg s t := by
  unfold asa_switch at h
  by_cases c0 : c = '1'
  · rw [if_pos c0] at h
    by_cases hy : s.GV_PDFPageYPosition < cfg.GV_PageDepth - cfg.GV_PageMarginTop
    · rw [if_pos hy] at h; exact Steps.page h
    · rw [if_neg hy] at h; cases h; exact Steps.frame (Frame.same _)
  rw [if_neg c0] at h
  by_cases c1 : c = '0'
  · rw [if_pos c1] at h
    obtain rfl := Option.some.inj h
    exact Steps.frame (by
      repeat (first
        | exact Frame.same _ | apply Frame.flush_buffer2 | apply Frame.adjust_pdf_ypos
        | apply Frame.ite | apply Frame.engine | apply Frame.emit))
  rw [if_neg c1] at h
  by_cases c2 : c = '-'
  · rw [if_pos c2] at h
    obtain rfl := Option.some.inj h
    exact Steps.frame (by
      repeat (first
        | exact Frame.same _ | apply Frame.flush_buffer2 | apply Frame.adjust_pdf_ypos
        | apply Frame.ite | apply Frame.engine | apply Frame.emit))
  rw [if_neg c2] at h
  by_cases c3 : c = '+'
  · rw [if_pos c3] at h
    obtain rfl := Option.some.inj h
    exact Steps.frame (by
      repeat (first
        | exact Frame.same _ | apply Frame.flush_buffer2 | apply Frame.adjust_pdf_ypos
        | apply Frame.ite | apply Frame.engine | apply Frame.emit))
  rw [if_neg c3] at h
  by_cases c4 : c = 'R' ∨ c = 'G' ∨ c = 'B'
  · rw [if_pos c4] at h
    obtain rfl := Option.some.inj h
    exact Steps.frame (by
      repeat (first
        | exact Frame.same _ | apply Frame.flush_buffer2 | apply Frame.adjust_pdf_ypos
        | apply Frame.ite | apply Frame.engine | apply Frame.emit))
  rw [if_neg c4] at h
  by_cases c5 : c = 'H'
  · rw [if_pos c5] at h
    obtain rfl := Option.some.inj h
    exact Steps.frame (by
      repeat (first
        | exact Frame.same _ | apply Frame.flush_buffer2 | apply Frame.adjust_pdf_ypos
        | apply Frame.ite | apply Frame.engine | apply Frame.emit))
  rw [if_neg c5] at h
  by_cases c6 : c = 'r' ∨ c = 'g' ∨ c = 'b'
  · rw [if_pos c6] at h
    obtain rfl := Option.some.inj h
    exact Steps.frame (by
      repeat (first
        | exact Frame.same _ | apply Frame.flush_buffer2 | apply Frame.adjust_pdf_ypos
        | apply Frame.ite | apply Frame.engine | apply Frame.emit))
  rw [if_neg c6] at h
  by_cases c7 : c = '^'
  · rw [if_pos c7] at h
    obtain rfl := Option.some.inj h
    exact Steps.frame (by
      repeat (first
        | exact Frame.same _ | apply Frame.flush_buffer2 | apply Frame.adjust_pdf_ypos
        | apply Frame.ite | apply Frame.engine | apply Frame.emit))
  rw [if_neg c7] at h
  by_cases c8 : c = '>'
  · rw [if_pos c8] at h
    obtain rfl := Option.some.inj h
    exact Steps.frame (by
      repeat (first
        | exact Frame.same _ | apply Frame.flush_buffer2 | apply Frame.adjust_pdf_ypos
        | apply Frame.ite | apply Frame.engine | apply Frame.emit))
  rw [if_neg c8] at h
  by_cases c9 : c = '\x0c'
  · rw [if_pos c9] at h; exact Steps.page h
  rw [if_neg c9] at h
  by_cases c10 : c = ' '
  · rw [if_pos c10] at h
    obtain rfl := Option.some.inj h
    exact Steps.frame (by
      repeat (first
        | exact Frame.same _ | apply Frame.flush_buffer2 | apply Frame.adjust_pdf_ypos
        | apply Frame.ite | apply Frame.engine | apply Frame.emit))
  rw [if_neg c10] at h
  obtain rfl := Option.some.inj h
  exact Steps.frame (by
    repeat (first
      | exact Frame.same _ | apply Frame.flush_buffer2 | apply Frame.adjust_pdf_ypos
      | apply Frame.ite | apply Frame.engine | apply Frame.emit))

theorem steps_asa_line {fuel : Nat} {cfg : Config} {s t : State}
    (h : asa_line fuel cfg s = some t) : Steps fuel cfg s t := by
  unfold asa_line at h
  rw [Option.map_eq_some'] at h
  obtain ⟨u, hu, rfl⟩ := h
  refine (steps_asa_switch hu).trans (Steps.frame ?_)
  repeat (first | exact Frame.same _ | apply Frame.print_pdf_string | apply Frame.emit)

theorem steps_scan_switch {fuel : Nat} {cfg : Config} {c next : Char} {s t : State}
    (h : scan_switch fuel cfg c next s = some t) : Steps fuel cfg s t := by
  unfold scan_switch at h
  by_cases c0 : c = '\x0c'
  · rw [if_pos c0] at h
    by_cases hy : s.GV_PDFPageYPosition < cfg.GV_PageDepth - cfg.GV_PageMarginTop
    · rw [if_pos hy] at h; exact Steps.page h
    · rw [if_neg hy] at h; cases h; exact Steps.frame (Frame.same _)
  rw [if_neg c0] at h
  by_cases c1 : c = '\r'
  · rw [if_pos c1] at h
    obtain rfl := Option.some.inj h
    exact Steps.frame (by
      repeat (first
        | exact Frame.same _ | apply Frame.flush_buffer2 | apply Frame.adjust_pdf_ypos
        | apply Frame.ite | apply Frame.engine | apply Frame.emit))
  rw [if_neg c1] at h
  by_cases c2 : c = '\x00'
  · rw [if_pos c2] at h
    obtain rfl := Option.some.inj h
    exact Steps.frame (by
      repeat (first
        | exact Frame.same _ | apply Frame.flush_buffer2 | apply Frame.adjust_pdf_ypos
        | apply Frame.ite | apply Frame.engine | apply Frame.emit))
  rw [if_neg c2] at h
  obtain rfl := Option.some.inj h
  exact Steps.frame (by
    repeat (first
      | exact Frame.same _ | apply Frame.flush_buffer2 | apply Frame.adjust_pdf_ypos
      | apply Frame.ite | apply Frame.engine | apply Frame.emit))

theorem steps_scan_char {fuel : Nat} {cfg : Config} {i1 : Nat} {s t : State}
    (h : scan_char fuel cfg i1 s = some t) : Steps fuel cfg s t :=
  steps_scan_switch h

theorem steps_scan_loop {fuel : Nat} {cfg : Config} :
    ∀ (n i1 : Nat) (s t : State), scan_loop fuel cfg n i1 s = some t → Steps fuel cfg s t := by
  intro n
  induction n with
  | zero =>
    intro i1 s t h
    simp only [scan_loop, Option.some.injEq] at h
    subst h; exact Steps.frame (Frame.same _)
  | succ n ih =>
    intro i1 s t h
    simp only [scan_loop, Option.bind_eq_some] at h
    obtain ⟨u, hu, ht⟩ := h
    exact (steps_scan_char hu).trans (ih _ _ _ ht)

theorem steps_freeform_line {fuel : Nat} {cfg : Config} {s t : State}
    (h : freeform_line fuel cfg s = some t) : Steps fuel cfg s t := by
  unfold freeform_line at h
  exact (Steps.frame ((Frame.same s).engine _ _ _ _ _ _ _ _ _)).trans (steps_scan_loop _ _ _ _ h)

theorem steps_line_body {fuel : Nat} {cfg : Config} {s t : State}
    (h : line_body fuel cfg s = some t) : Steps fuel cfg s t := by
  unfold line_body at h
  split_ifs at h
  · cases h; exact Steps.frame ((Frame.same s).emit _)
  · exact steps_freeform_line h
  · exact steps_asa_line h

theorem steps_process_line {fuel : Nat} {cfg : Config} {s t : State} {line : Bytes}
    (h : process_line fuel cfg s line = some t) : Steps fuel cfg s t := by
  unfold process_line at h
  simp only [Option.map_eq_some', Option.bind_eq_some] at h
  obtain ⟨u, ⟨v, hv, hu⟩, rfl⟩ := h
  refine (Steps.frame ?_).trans
    ((steps_overflow_break hv).trans ((steps_line_body hu).trans
      (Steps.frame ((Frame.same u).line_tail cfg))))
  exact ((Frame.same s).engine _ _ _ _ _ _ _ _ _).engine _ _ _ _ _ _ _ _ _

theorem steps_run_lines {fuel : Nat} {cfg : Config} :
    ∀ (input : List Bytes) (s t : State), run_lines fuel cfg s input = some t →
      Steps fuel cfg s t := by
  intro input
  induction input with
  | nil =>
    intro s t h
    simp only [run_lines, Option.some.injEq] at h
    subst h; exact Steps.frame (Frame.same _)
  | cons line rest ih =>
    intro s t h
    simp only [run_lines, Option.bind_eq_some] at h
    obtain ⟨u, hu, ht⟩ := h
    exact (steps_process_line hu).trans (ih _ _ ht)

theorem ObjAt.carry_obj {s t : State} {id : Nat} {body : Bytes} (h : ObjAt s id body) (e : Ext s t)
    (hm : id ∈ s.started) : ObjAt t id body := by
  obtain ⟨pre, post, ho, a⟩ := h
  obtain ⟨bs, eo⟩ := e.out
  refine ⟨pre, post ++ bs, ?_, ?_⟩
  · rw [eo, ho]; simp only [List.append_assoc]
  · rw [e.cells _ hm]; exact a

/-- An object started with a fresh id and followed by `body` is found at its
recorded offset. -/
theorem ObjAt.of_start {s t u : State} {id : Nat} {body : Bytes} (st : StartObj id s t)
    (hlen : s.GV_XReferences.length = s.GV_PDFXRefCount) (hlt : id < s.GV_PDFXRefCount + 1000)
    (hout : u.out = t.out ++ body) (hx : u.GV_XReferences = t.GV_XReferences) :
    ObjAt u id body := by
  refine ⟨s.out, [], ?_, ?_⟩
  · rw [hout, st.out]; simp only [List.append_assoc, List.append_nil]
  · rw [show xref_of u id = xref_of t id by simp [xref_of, hx], (st.self hlen hlt).2]

theorem emit_emit (a b : Bytes) (s : State) : emit b (emit a s) = emit (a ++ b) s := by
  simp [emit, List.append_assoc]

theorem print_kids_eq (l : List Nat) : ∀ s : State, print_kids l s = emit (kids_text l) s := by
  induction l with
  | nil => intro s; simp [print_kids, kids_text, emit]
  | cons a l ih => intro s; rw [print_kids, ih, emit_emit, kids_text]

theorem do_process_pages_objects_eq (fuel : Nat) (cfg : Config) (input : List Bytes)
    (s : State) :
    do_process_pages_objects fuel cfg input s =
      (do_text_translation fuel cfg input
        { emit "% PDF: Adobe Portable Document Format\n".toList
            (emit ['%', Char.ofNat 0xE2, Char.ofNat 0xE3, Char.ofNat 0xCF, Char.ofNat 0xD3, '\n']
              (emit "%PDF-1.4\n".toList s)) with
          GV_PDFObjectId := 2, issued := s.issued ++ [1], GV_PDFPageTreeId := 1 }).map
        (objects_tail cfg) := by
  unfold do_process_pages_objects objects_tail
  simp only [next_object_id, print_kids_eq, emit_emit, font_obj, tree_head, tree_rest,
    catalog_obj, List.append_assoc]
  rfl

/-- The fonts, the page tree and the catalog, written after `P ≥ 1` finished pages. -/
theorem ClosedInv.finish {P : Nat} {s : State} (cfg : Config) (h : ClosedInv P s)
    (hP : 1 ≤ P) : FinalInv cfg P (objects_tail cfg s).1 (objects_tail cfg s).2 := by
  have hlast : 3 * P + 1 ∈ s.started := by
    rw [h.started]; simp only [List.mem_range'_1]; omega
  have hcount : 3 * P + 1 < s.GV_PDFXRefCount := (h.recd.ok _ hlast).1
  -- first font
  let a1 : State := (next_object_id s).2
  have st2 := startObj s.GV_PDFObjectId a1
  let a2 := start_pdf_object s.GV_PDFObjectId a1
  let a3 := emit (font_obj cfg.GV_BodyFontName) a2
  have r1 : Recorded a1 := h.recd.of_same ⟨[], by simp [a1, next_object_id]⟩ rfl rfl rfl rfl
  have f2 : s.GV_PDFObjectId ∉ a1.started := by
    show s.GV_PDFObjectId ∉ s.started
    rw [h.started, h.objid]; simp only [List.mem_range'_1]; omega
  have l2 : s.GV_PDFObjectId < a1.GV_PDFXRefCount + 1000 := by
    show s.GV_PDFObjectId < s.GV_PDFXRefCount + 1000
    rw [h.objid]; omega
  have r2 : Recorded a2 := r1.start st2 f2 l2
  have r3 : Recorded a3 := r2.of_same ⟨_, rfl⟩ rfl rfl rfl rfl
  have e3 : a3.started = List.range' 2 (3 * P + 1) := by
    show a2.started = _
    rw [st2.started]; show s.started ++ [s.GV_PDFObjectId] = _
    rw [h.started, h.objid, range'_snoc _ _ _ (by omega)]
  have c3 : s.GV_PDFXRefCount ≤ a3.GV_PDFXRefCount := st2.mono
  have x1 : Ext s a1 := Ext.of_eq ⟨[], by simp [a1, next_object_id]⟩ rfl rfl
  have x2 : Ext a1 a2 := st2.fresh_ext f2
  have x23 : Ext a2 a3 := Ext.of_eq ⟨_, rfl⟩ rfl rfl
  have x3 : Ext s a3 := (x1.step x2).step x23
  have o3 : ObjAt a3 s.GV_PDFObjectId (font_obj cfg.GV_BodyFontName) :=
    ObjAt.of_start st2 r1.len l2 rfl rfl
  -- second font
  let a4 : State := (next_object_id a3).2
  have id4 : a3.GV_PDFObjectId = s.GV_PDFObjectId + 1 := st2.objid
  have st5 := startObj a3.GV_PDFObjectId a4
  let a5 := start_pdf_object a3.GV_PDFObjectId a4
  let a6 := emit (font_obj cfg.GV_HeadingFontName) a5
  have r4 : Recorded a4 := r3.of_same ⟨[], by simp [a4, next_object_id]⟩ rfl rfl rfl rfl
  have f5 : a3.GV_PDFObjectId ∉ a4.started := by
    show a3.GV_PDFObjectId ∉ a3.started
    rw [e3, id4, h.objid]; simp only [List.mem_range'_1]; omega
  have l5 : a3.GV_PDFObjectId < a4.GV_PDFXRefCount + 1000 := by
    show a3.GV_PDFObjectId < a3.GV_PDFXRefCount + 1000
    rw [id4, h.objid]
    exact Nat.lt_of_lt_of_le (by omega : 3 * P + 2 + 1 < s.GV_PDFXRefCount + 1000)
      (Nat.add_le_add_right c3 1000)
  have r5 : Recorded a5 := r4.start st5 f5 l5
  have r6 : Recorded a6 := r5.of_same ⟨_, rfl⟩ rfl rfl rfl rfl
  have e6 : a6.started = List.range' 2 (3 * P + 2) := by
    show a5.started = _
    rw [st5.started]; show a3.started ++ [a3.GV_PDFObjectId] = _
    rw [e3, id4, h.objid, range'_snoc _ _ _ (by omega)]
  have x4 : Ext a3 a4 := Ext.of_eq ⟨[], by simp [a4, next_object_id]⟩ rfl rfl
  have x5 : Ext a4 a5 := st5.fresh_ext f5
  have x56 : Ext a5 a6 := Ext.of_eq ⟨_, rfl⟩ rfl rfl
  have x6 : Ext a3 a6 := (x4.step x5).step x56
  have o6 : ObjAt a6 a3.GV_PDFObjectId (font_obj cfg.GV_HeadingFontName) :=
    ObjAt.of_start st5 r4.len l5 rfl rfl
  have c6 : 1 < a6.GV_PDFXRefCount := by
    have hm : 2 ∈ a6.started := by
      rw [e6]; simp only [List.mem_range'_1]; omega
    exact Nat.lt_trans (by omega) (r6.ok _ hm).1
  have t6 : a6.GV_PDFPageTreeId = 1 := by
    show a5.GV_PDFPageTreeId = 1
    rw [st5.tree]; show a2.GV_PDFPageTreeId = 1
    rw [st2.tree]; exact h.tree
  have n6 : a6.GV_PDFNumberOfPages = P := by
    show a5.GV_PDFNumberOfPages = P
    rw [st5.npages]; show a2.GV_PDFNumberOfPages = P
    rw [st2.npages]; exact h.npages
  have p6 : a6.GV_PAGE_LIST = (List.range P).map (fun j => 3 * j + 4) := by
    show a5.GV_PAGE_LIST = _
    rw [st5.plist]; show a2.GV_PAGE_LIST = _
    rw [st2.plist]; exact h.plist
  have i6 : a6.issued = List.range' 1 (3 * P + 3) := by
    show a5.issued = _
    rw [st5.issued]; show a3.issued ++ [a3.GV_PDFObjectId] = _
    rw [id4]; show a2.issued ++ _ = _
    rw [st2.issued]; show s.issued ++ [s.GV_PDFObjectId] ++ _ = _
    rw [h.issued, h.objid, range'_snoc _ _ _ (by omega), range'_snoc _ _ _ (by omega)]
  have j6 : a6.GV_PDFObjectId = 3 * P + 4 := by
    show a5.GV_PDFObjectId = _
    rw [st5.objid]; show a3.GV_PDFObjectId + 1 = _
    rw [id4, h.objid]
  have q6 : a6.GV_CurrentPageCount = P := by
    show a5.GV_CurrentPageCount = P
    rw [st5.cpc]; show a2.GV_CurrentPageCount = P
    rw [st2.cpc]; exact h.cpc
  -- page tree
  have st7 := startObj a6.GV_PDFPageTreeId a6
  let a7 := start_pdf_object a6.GV_PDFPageTreeId a6
  let a8 := emit (tree_head a7.GV_PDFNumberOfPages a7.GV_PAGE_LIST
    ++ tree_rest cfg s.GV_PDFObjectId a3.GV_PDFObjectId) a7
  have f7 : a6.GV_PDFPageTreeId ∉ a6.started := by
    rw [e6, t6]; simp only [List.mem_range'_1]; omega
  have l7 : a6.GV_PDFPageTreeId < a6.GV_PDFXRefCount + 1000 := by
    rw [t6]; exact Nat.lt_of_lt_of_le c6 (Nat.le_add_right _ _)
  have r7 : Recorded a7 := r6.start st7 f7 l7
  have r8 : Recorded a8 := r7.of_same ⟨_, rfl⟩ rfl rfl rfl rfl
  have e8 : a8.started = List.range' 2 (3 * P + 2) ++ [1] := by
    show a7.started = _
    rw [st7.started, e6, t6]
  have x7 : Ext a6 a7 := st7.fresh_ext f7
  have x78 : Ext a7 a8 := Ext.of_eq ⟨_, rfl⟩ rfl rfl
  have x8 : Ext a6 a8 := x7.step x78
  have o8 : ObjAt a8 a6.GV_PDFPageTreeId (tree_head a7.GV_PDFNumberOfPages a7.GV_PAGE_LIST
      ++ tree_rest cfg s.GV_PDFObjectId a3.GV_PDFObjectId) :=
    ObjAt.of_start st7 r6.len l7 rfl rfl
  rw [st7.npages, st7.plist, n6, p6, t6, id4, h.objid] at o8
  have c8 : a6.GV_PDFXRefCount ≤ a8.GV_PDFXRefCount := st7.mono
  have j8 : a8.GV_PDFObjectId = 3 * P + 4 := by
    show a7.GV_PDFObjectId = _
    rw [st7.objid]; exact j6
  have t8 : a8.GV_PDFPageTreeId = 1 := by
    show a7.GV_PDFPageTreeId = 1
    rw [st7.tree]; exact t6
  -- catalog
  let a9 : State := (next_object_id a8).2
  have st10 := startObj a8.GV_PDFObjectId a9
  let a10 := start_pdf_object a8.GV_PDFObjectId a9
  have hfin : objects_tail cfg s = (a8.GV_PDFObjectId, emit (catalog_obj a10.GV_PDFPageTreeId) a10) :=
    rfl
  have r9 : Recorded a9 := r8.of_same ⟨[], by simp [a9, next_object_id]⟩ rfl rfl rfl rfl
  have f10 : a8.GV_PDFObjectId ∉ a9.started := by
    show a8.GV_PDFObjectId ∉ a8.started
    rw [e8, j8]
    simp only [List.mem_append, List.mem_range'_1, List.mem_singleton]; omega
  have c9 : 3 * P + 3 < a8.GV_PDFXRefCount := by
    have hm : 3 * P + 3 ∈ a8.started := by
      rw [e8]
      exact List.mem_append_left _ (by simp only [List.mem_range'_1]; omega)
    exact (r8.ok _ hm).1
  have l10 : a8.GV_PDFObjectId < a9.GV_PDFXRefCount + 1000 := by
    show a8.GV_PDFObjectId < a8.GV_PDFXRefCount + 1000
    rw [j8]; omega
  have r10 : Recorded a10 := r9.start st10 f10 l10
  have t10 : a10.GV_PDFPageTreeId = 1 := by
    rw [st10.tree]; exact t8
  have x9 : Ext a8 a9 := Ext.of_eq ⟨[], by simp [a9, next_object_id]⟩ rfl rfl
  have x910 : Ext a9 a10 := st10.fresh_ext f10
  have x10 : Ext a8 (objects_tail cfg s).2 := by
    rw [hfin]
    exact (x9.step x910).step (Ext.of_eq ⟨_, rfl⟩ rfl rfl)
  have o10 : ObjAt (objects_tail cfg s).2 a8.GV_PDFObjectId (catalog_obj a10.GV_PDFPageTreeId) := by
    rw [hfin]
    exact ObjAt.of_start st10 r9.len l10 rfl rfl
  rw [t10, j8] at o10
  have m2 : 3 * P + 2 ∈ a3.started := by
    rw [e3]; simp only [List.mem_range'_1]; omega
  have m3 : 3 * P + 3 ∈ a6.started := by
    rw [e6]; simp only [List.mem_range'_1]; omega
  have m1 : 1 ∈ a8.started := by
    rw [e8]; exact List.mem_append_right _ (List.mem_singleton_self _)
  rw [h.objid] at o3
  rw [id4, h.objid] at o6
  refine ⟨hP, ?_, ?_, ?_, ?_, ?_, ?_, ?_, ?_, ?_, ?_, ?_, ?_, ?_, o10⟩
  · rw [hfin]; exact j8
  · rw [hfin]; exact t10
  · rw [hfin]; show a10.GV_PDFObjectId = _
    rw [st10.objid]; show a8.GV_PDFObjectId + 1 = _
    rw [j8]
  · rw [hfin]; show a10.GV_PAGE_LIST = _
    rw [st10.plist]; show a7.GV_PAGE_LIST = _
    rw [st7.plist]; exact p6
  · rw [hfin]; show a10.GV_PDFNumberOfPages = _
    rw [st10.npages]; show a7.GV_PDFNumberOfPages = _
    rw [st7.npages]; exact n6
  · rw [hfin]; show a10.GV_CurrentPageCount = _
    rw [st10.cpc]; show a7.GV_CurrentPageCount = _
    rw [st7.cpc]; exact q6
  · rw [hfin]; show a10.issued = _
    rw [st10.issued]; show a8.issued ++ [a8.GV_PDFObjectId] = _
    rw [j8]; show a7.issued ++ _ = _
    rw [st7.issued, i6, range'_snoc _ _ _ (by omega)]
  · rw [hfin]; show a10.started = _
    rw [st10.started]; show a8.started ++ [a8.GV_PDFObjectId] = _
    rw [e8, j8]; simp only [List.append_assoc, List.singleton_append]
  · rw [hfin]; exact r10.of_same ⟨_, rfl⟩ rfl rfl rfl rfl
  · intro j hj
    have hm := mem_started_of_lt hj
    rw [← h.started] at hm
    exact (h.pages j hj).carry (((x3.step x6).step x8).step x10) hm.1 hm.2.1 hm.2.2
  · exact o3.carry_obj ((x6.step x8).step x10) m2
  · exact o6.carry_obj (x8.step x10) m3
  · exact o8.carry_obj x10 m1

theorem print_xref_entries_eq (n : Nat) :
    ∀ (i : Nat) (s : State), print_xref_entries n i s = emit (xref_rows (xref_of s) n i) s := by
  induction n with
  | zero => intro i s; simp [print_xref_entries, xref_rows, emit]
  | succ n ih =>
    intro i s
    rw [print_xref_entries, ih, emit_emit, xref_rows]
    rfl

theorem do_process_pages_xref_eq (catalog_id : Nat) (s : State) :
    do_process_pages_xref catalog_id s =
      emit (xref_section s.GV_PDFObjectId (xref_of s)
        ++ trailer_text s.GV_PDFObjectId catalog_id s.out.length) s := by
  unfold do_process_pages_xref
  simp only [print_xref_entries_eq, emit_emit, xref_section, trailer_text, List.append_assoc]
  rfl

theorem closedInv_init (cfg : Config) (stack : Bytes) : ClosedInv 0 (doc_start cfg stack) :=
  ⟨rfl, rfl, rfl, rfl, rfl, rfl, rfl, ⟨rfl, fun i hi => (by cases hi), fun c hc => (by cases hc), rfl,
      fun c hc => (by cases hc)⟩,
    fun j hj => absurd hj (Nat.not_lt_zero j)⟩

theorem do_process_pages_objects_start (fuel : Nat) (cfg : Config) (stack : Bytes)
    (input : List Bytes) :
    do_process_pages_objects fuel cfg input (init_state cfg stack) =
      (do_text_translation fuel cfg input (doc_start cfg stack)).map (objects_tail cfg) :=
  do_process_pages_objects_eq fuel cfg input (init_state cfg stack)

/-- The text engine keeps the lifecycle invariant: from a state between pages,
`do_text_translation` returns between pages with at least one more page. -/
theorem ClosedInv.text_translation {k : Nat} {s t : State} {fuel : Nat} {cfg : Config}
    {input : List Bytes} (h : ClosedInv k s) (ht : do_text_translation fuel cfg input s = some t) :
    ∃ P, k + 1 ≤ P ∧ ClosedInv P t := by
  unfold do_text_translation at ht
  simp only [Option.map_eq_some', Option.bind_eq_some] at ht
  obtain ⟨u, ⟨v, hv, hu⟩, rfl⟩ := ht
  obtain ⟨k', hk', hinv⟩ := (steps_run_lines _ _ _ hu).open_inv k (h.start_page hv)
  exact ⟨k' + 1, by omega, hinv.end_page⟩

/-- Every completed run of `do_process_pages` passes through a state `u` in which
`do_text_translation` returns with `P ≥ 1` finished pages, then through a state `s`
at `start_xref = ftell(stdout)` that satisfies `FinalInv`, and ends in the state
that the cross-reference writer makes of `s`. -/
theorem do_process_pages_parts {fuel : Nat} {cfg : Config} {stack : Bytes} {input : List Bytes}
    {final : State} (h : do_process_pages fuel cfg stack input = some final) :
    ∃ P c s u, do_text_translation fuel cfg input (doc_start cfg stack) = some u ∧
      ClosedInv P u ∧
      do_process_pages_objects fuel cfg input (init_state cfg stack) = some (c, s) ∧
      FinalInv cfg P c s ∧
      final = emit (xref_section s.GV_PDFObjectId (xref_of s)
        ++ trailer_text s.GV_PDFObjectId c s.out.length) s := by
  unfold do_process_pages at h
  rw [Option.map_eq_some'] at h
  obtain ⟨⟨c, s⟩, hcs, rfl⟩ := h
  have hcs2 := hcs
  rw [do_process_pages_objects_start, Option.map_eq_some'] at hcs2
  obtain ⟨u, hu, he⟩ := hcs2
  obtain ⟨P, hP, hinv⟩ := (closedInv_init cfg stack).text_translation hu
  have hfin := hinv.finish cfg (by omega)
  rw [he] at hfin
  exact ⟨P, c, s, u, hu, hinv, hcs, hfin, do_process_pages_xref_eq c s⟩

theorem do_process_pages_final {fuel : Nat} {cfg : Config} {stack : Bytes} {input : List Bytes}
    {final : State} (h : do_process_pages fuel cfg stack input = some final) :
    ∃ P c s, do_process_pages_objects fuel cfg input (init_state cfg stack) = some (c, s) ∧
      FinalInv cfg P c s ∧
      final = emit (xref_section s.GV_PDFObjectId (xref_of s)
        ++ trailer_text s.GV_PDFObjectId c s.out.length) s := by
  obtain ⟨P, c, s, _, _, _, h1, h2, h3⟩ := do_process_pages_parts h
  exact ⟨P, c, s, h1, h2, h3⟩

theorem pagebars_loop_total (cfg : Config) (x1 w h : ℚ) (hh : 0 < h) :
    ∀ (fuel : Nat) (y1 step : ℚ) (s : State), 1 ≤ step → 1 ≤ fuel →
      (y1 - (cfg.GV_PageMarginBottom - h)) / h + 1 < fuel →
      ∃ t, pagebars_loop cfg x1 w h fuel y1 step s = some t := by
  intro fuel
  induction fuel with
  | zero =>
    intro y1 step s _ h1 _
    omega
  | succ n ih =>
    intro y1 step s hstep _ hm
    rw [pagebars_loop]
    by_cases hy : y1 ≥ cfg.GV_PageMarginBottom - h
    · rw [if_pos hy]
      have hm0 : 0 ≤ (y1 - (cfg.GV_PageMarginBottom - h)) / h :=
        div_nonneg (sub_nonneg.mpr hy) hh.le
      have hn : (y1 - (cfg.GV_PageMarginBottom - h)) / h < n := by
        push_cast at hm
        linarith
      have hn1 : 1 ≤ n := by
        have : (0 : ℚ) < n := lt_of_le_of_lt hm0 hn
        exact_mod_cast this
      have key : ∀ k : ℚ, 1 ≤ k →
          (y1 - k * h - (cfg.GV_PageMarginBottom - h)) / h + 1 < n := by
        intro k hk
        have e : (y1 - k * h - (cfg.GV_PageMarginBottom - h)) / h
            = (y1 - (cfg.GV_PageMarginBottom - h)) / h - k := by
          field_simp
          ring
        rw [e]
        linarith
      by_cases hd : cfg.GV_DashCode = []
      · rw [if_pos hd]
        exact ih _ 2 _ (by norm_num) hn1 (key 2 (by norm_num))
      · rw [if_neg hd]
        exact ih _ step _ hstep hn1 (key step hstep)
    · rw [if_neg hy]
      exact ⟨s, rfl⟩

theorem print_pdf_pagebars_total {fuel : Nat} {cfg : Config} (hh : 0 < pagebars_height cfg)
    (hf : pagebars_fuel cfg ≤ fuel) (s : State) :
    ∃ t, print_pdf_pagebars fuel cfg s = some t := by
  have hc := Int.le_ceil ((pagebars_y1 cfg - (cfg.GV_PageMarginBottom - pagebars_height cfg))
    / pagebars_height cfg)
  have hn : (⌈(pagebars_y1 cfg - (cfg.GV_PageMarginBottom - pagebars_height cfg))
      / pagebars_height cfg⌉ : ℚ) ≤ ((Int.toNat ⌈(pagebars_y1 cfg
        - (cfg.GV_PageMarginBottom - pagebars_height cfg)) / pagebars_height cfg⌉ : Nat) : ℚ) := by
    have := Int.self_le_toNat ⌈(pagebars_y1 cfg
        - (cfg.GV_PageMarginBottom - pagebars_height cfg)) / pagebars_height cfg⌉
    exact_mod_cast this
  have hfq : ((Int.toNat ⌈(pagebars_y1 cfg
        - (cfg.GV_PageMarginBottom - pagebars_height cfg)) / pagebars_height cfg⌉ : Nat) : ℚ) + 2
      ≤ fuel := by
    have : Int.toNat ⌈(pagebars_y1 cfg
        - (cfg.GV_PageMarginBottom - pagebars_height cfg)) / pagebars_height cfg⌉ + 2 ≤ fuel := hf
    exact_mod_cast this
  have h1 : 1 ≤ fuel := by
    unfold pagebars_fuel at hf
    omega
  obtain ⟨t, ht⟩ := pagebars_loop_total cfg
    (cfg.GV_PageMarginLeft - (1 / 10 : ℚ) * GV_BodyFontSize cfg)
    (cfg.GV_PageWidth - cfg.GV_PageMarginLeft - cfg.GV_PageMarginRight)
    (pagebars_height cfg) hh fuel (pagebars_y1 cfg) 1
    (if cfg.GV_DashCode ≠ [] then
        emit ("0 w [".toList ++ cfg.GV_DashCode ++ "] 0 d\n".toList)
          (emit (fmt_u 1 ++ " i\n".toList) (emit (fmt_rgb cfg cfg.GV_BAR_COLOR ++ " rg\n".toList) s))
      else emit (fmt_u 1 ++ " i\n".toList) (emit (fmt_rgb cfg cfg.GV_BAR_COLOR ++ " rg\n".toList) s))
    le_rfl h1 (by linarith)
  apply Option.isSome_iff_exists.mp
  show (Option.map _ (pagebars_loop cfg _ _ (pagebars_height cfg) fuel
    (pagebars_y1 cfg) 1 _)).isSome = true
  rw [ht]
  rfl

theorem start_pdf_page_total {fuel : Nat} {cfg : Config} (hh : 0 < pagebars_height cfg)
    (hf : pagebars_fuel cfg ≤ fuel) (s : State) :
    ∃ t, start_pdf_page fuel cfg s = some t := by
  rw [start_pdf_page_eq]
  obtain ⟨t, ht⟩ := print_pdf_pagebars_total hh hf
    (page_head (page_ids s (if cfg.GV_IsPerPageLineNumbers then 0 else s.GV_CurrentLineCount)))
  rw [ht]
  exact ⟨_, rfl⟩

theorem ite_total {α : Type} {c : Prop} [Decidable c] {a b : Option α}
    (ha : ∃ t, a = some t) (hb : ∃ t, b = some t) : ∃ t, (if c then a else b) = some t := by
  split
  · exact ha
  · exact hb

theorem bind_total {α β : Type} {a : Option α} {f : α → Option β}
    (ha : ∃ t, a = some t) (hf : ∀ x, ∃ t, f x = some t) : ∃ t, a.bind f = some t := by
  obtain ⟨x, rfl⟩ := ha
  exact hf x

theorem map_total {α β : Type} {a : Option α} (f : α → β)
    (ha : ∃ t, a = some t) : ∃ t, a.map f = some t := by
  obtain ⟨x, rfl⟩ := ha
  exact ⟨_, rfl⟩

theorem asa_switch_total {fuel : Nat} {cfg : Config} (hh : 0 < pagebars_height cfg)
    (hf : pagebars_fuel cfg ≤ fuel) (c : Char) (s : State) :
    ∃ t, asa_switch fuel cfg c s = some t := by
  unfold asa_switch
  repeat (first
    | exact start_pdf_page_total hh hf _
    | exact ⟨_, rfl⟩
    | apply ite_total)

theorem scan_switch_total {fuel : Nat} {cfg : Config} (hh : 0 < pagebars_height cfg)
    (hf : pagebars_fuel cfg ≤ fuel) (c next : Char) (s : State) :
    ∃ t, scan_switch fuel cfg c next s = some t := by
  unfold scan_switch
  repeat (first
    | exact start_pdf_page_total hh hf _
    | exact ⟨_, rfl⟩
    | apply ite_total)

theorem scan_loop_total {fuel : Nat} {cfg : Config} (hh : 0 < pagebars_height cfg)
    (hf : pagebars_fuel cfg ≤ fuel) :
    ∀ (n i : Nat) (s : State), ∃ t, scan_loop fuel cfg n i s = some t := by
  intro n
  induction n with
  | zero =>
    intro i s
    exact ⟨s, rfl⟩
  | succ n ih =>
    intro i s
    rw [scan_loop]
    exact bind_total (scan_switch_total hh hf _ _ s) (ih (i + 1))

theorem overflow_break_total {fuel : Nat} {cfg : Config} (hh : 0 < pagebars_height cfg)
    (hf : pagebars_fuel cfg ≤ fuel) (s : State) :
    ∃ t, overflow_break fuel cfg s = some t := by
  unfold overflow_break
  exact ite_total (start_pdf_page_total hh hf _) ⟨_, rfl⟩

theorem line_body_total {fuel : Nat} {cfg : Config} (hh : 0 < pagebars_height cfg)
    (hf : pagebars_fuel cfg ≤ fuel) (s : State) :
    ∃ t, line_body fuel cfg s = some t := by
  unfold line_body
  refine ite_total ⟨_, rfl⟩ (ite_total ?_ ?_)
  · exact scan_loop_total hh hf 4096 0 _
  · exact map_total _ (asa_switch_total hh hf _ s)

theorem process_line_total {fuel : Nat} {cfg : Config} (hh : 0 < pagebars_height cfg)
    (hf : pagebars_fuel cfg ≤ fuel) (s : State) (line : Bytes) :
    ∃ t, process_line fuel cfg s line = some t := by
  unfold process_line
  exact map_total _ (bind_total (overflow_break_total hh hf _) (line_body_total hh hf))

theorem run_lines_total {fuel : Nat} {cfg : Config} (hh : 0 < pagebars_height cfg)
    (hf : pagebars_fuel cfg ≤ fuel) :
    ∀ (input : List Bytes) (s : State), ∃ t, run_lines fuel cfg s input = some t := by
  intro input
  induction input with
  | nil =>
    intro s
    exact ⟨s, rfl⟩
  | cons line rest ih =>
    intro s
    rw [run_lines]
    exact bind_total (process_line_total hh hf s line) ih

/-- With a positive band depth and the iteration budget `pagebars_fuel`, the
conversion of any input runs to completion. -/
theorem do_process_pages_total {fuel : Nat} {cfg : Config} (hh : 0 < pagebars_height cfg)
    (hf : pagebars_fuel cfg ≤ fuel) (stack : Bytes) (input : List Bytes) :
    ∃ final, do_process_pages fuel cfg stack input = some final := by
  unfold do_process_pages
  rw [do_process_pages_objects_start]
  refine map_total _ (map_total _ ?_)
  unfold do_text_translation
  exact map_total _ (bind_total (start_pdf_page_total hh hf _) (run_lines_total hh hf input))

theorem default_config_total (fmt_f fmt_g : ℚ → Bytes) :
    0 < pagebars_height (default_config fmt_f fmt_g) ∧
    pagebars_fuel (default_config fmt_f fmt_g) = 32 := by
  constructor
  · norm_num [pagebars_height, default_config, GV_StandardLineSize]
  · have e : pagebars_fuel (default_config fmt_f fmt_g)
        = pagebars_fuel (default_config fmt_fixed6 fmt_fixed6) := rfl
    rw [e]
    decide!

theorem range'_two_perm (n : Nat) (a b : Nat) (ha : a = 1) (hb : b = 2 + n) :
    (List.range' 2 n ++ [a, b]).Perm (List.range' 1 (n + 2)) := by
  subst ha; subst hb
  have h1 : List.range' 1 (n + 2) = 1 :: (List.range' 2 n ++ [2 + n]) := by
    rw [List.range'_succ, ← List.range'_1_concat]
  rw [h1]
  have h2 : List.range' 2 n ++ [1, 2 + n] = List.range' 2 n ++ ([1] ++ [2 + n]) := rfl
  rw [h2, ← List.append_assoc]
  have h3 : 1 :: (List.range' 2 n ++ [2 + n]) = ([1] ++ List.range' 2 n) ++ [2 + n] := rfl
  rw [h3]
  exact List.Perm.append_right _ List.perm_append_comm

/-- C1: the run completes when the band depth is positive and the iteration budget is at
least `pagebars_fuel`; in the document emitted by any completed run, the
cross-reference section consists of the keyword `xref`, the subsection header `0 N`
with `N` the next free object id, the fixed free-list head `0000000000 65535 f `, and
one row per id `1 ≤ i < N` whose ten-digit offset is the table cell of `i`; that
offset is the byte position, in the output written before the section, at which the
header text `i 0 obj` begins. -/
theorem xref_offsets_point_at_headers (fuel : Nat) (cfg : Config) (stack : Bytes)
    (input : List Bytes) :
    (0 < pagebars_height cfg → pagebars_fuel cfg ≤ fuel →
      ∃ final, do_process_pages fuel cfg stack input = some final) ∧
    ∀ final, do_process_pages fuel cfg stack input = some final →
      ∃ body rest : Bytes,
        final.out = body ++ ("xref\n".toList
          ++ (("0 ".toList ++ fmt_u final.GV_PDFObjectId ++ "\n".toList)
          ++ ("0000000000 65535 f \n".toList
          ++ (xref_rows (xref_of final) (final.GV_PDFObjectId - 1) 1 ++ rest)))) ∧
        ∀ i, 1 ≤ i → i < final.GV_PDFObjectId →
          ∃ pre post, body = pre ++ (fmt_u i ++ " 0 obj".toList) ++ post ∧
            pre.length = xref_of final i := by
  refine ⟨fun hh hf => do_process_pages_total hh hf stack input, ?_⟩
  intro final h
  obtain ⟨P, c, s, _, inv, rfl⟩ := do_process_pages_final h
  refine ⟨s.out, trailer_text s.GV_PDFObjectId c s.out.length, ?_, ?_⟩
  · show s.out ++ _ = _
    simp only [xref_section, List.append_assoc]
    rfl
  · intro i h1 h2
    have h2' : i < s.GV_PDFObjectId := h2
    rw [inv.objid] at h2'
    have hm : i ∈ s.started := by
      rw [inv.started]
      simp only [List.mem_append, List.mem_range'_1, List.mem_cons, List.mem_singleton,
        List.mem_nil_iff, or_false]
      omega
    exact (inv.recd.ok i hm).2

/-- C2: the run completes when the band depth is positive and the iteration budget is at
least `pagebars_fuel`; for every page of a completed run (page `j`, counted from 0,
has stream object `3j+2`, length object `3j+3`, page object `3j+4`), the output holds
at the recorded offset of the stream object its header, the dictionary naming the
length object, `stream\n`, a body ending in the end-text marker `ET\n`, then
`endstream`, and at the recorded offset of the length object an object whose body is
the decimal number of bytes of that stream body. -/
theorem stream_length_object_counts_body (fuel : Nat) (cfg : Config) (stack : Bytes)
    (input : List Bytes) :
    (0 < pagebars_height cfg → pagebars_fuel cfg ≤ fuel →
      ∃ final, do_process_pages fuel cfg stack input = some final) ∧
    ∀ final, do_process_pages fuel cfg stack input = some final →
      ∀ j, j < final.GV_PDFNumberOfPages →
        ∃ pre ops post,
          final.out = pre ++ ((fmt_u (3 * j + 2) ++ " 0 obj".toList)
            ++ (("<< /Length ".toList ++ fmt_u (3 * j + 3) ++ " 0 R >>".toList
                  ++ "stream\n".toList)
            ++ ((ops ++ "ET\n".toList)
            ++ ("endstream\nendobj\n".toList
            ++ ((fmt_u (3 * j + 3) ++ " 0 obj".toList)
            ++ (("\n".toList ++ fmt_u (ops ++ "ET\n".toList).length ++ "\nendobj\n".toList)
            ++ post)))))) ∧
          pre.length = xref_of final (3 * j + 2) ∧
          pre.length + (stream_open (3 * j + 2) (3 * j + 3)).length
            + (ops ++ "ET\n".toList).length + "endstream\nendobj\n".toList.length
              = xref_of final (3 * j + 3) := by
  refine ⟨fun hh hf => do_process_pages_total hh hf stack input, ?_⟩
  intro final h
  obtain ⟨P, c, s, _, inv, rfl⟩ := do_process_pages_final h
  intro j hj
  have hj' : j < P := by
    have : j < s.GV_PDFNumberOfPages := hj
    rwa [inv.npages] at this
  obtain ⟨pre, ops, post, ho, a1, a2, _⟩ := inv.pages j hj'
  refine ⟨pre, ops, obj_header (3 * j + 4) ++ (page_obj 1 (3 * j + 2) ++ post)
    ++ (xref_section s.GV_PDFObjectId (xref_of s)
        ++ trailer_text s.GV_PDFObjectId c s.out.length), ?_, a1, a2⟩
  show s.out ++ _ = _
  rw [ho]
  simp only [stream_open, stream_end, obj_header, length_obj, List.append_assoc]

/-- C3: the run completes when the band depth is positive and the iteration budget is at
least `pagebars_fuel`; at the moment the cross-reference table is emitted (state `s`,
from which the rest of the run only appends the table and the trailer), the ids handed
out by `GV_PDFObjectId++` are `1, 2, …, N-1` in this order, and the ids passed to
`start_pdf_object` are a rearrangement of them, each passed exactly once. -/
theorem ids_increasing_and_started_once (fuel : Nat) (cfg : Config) (stack : Bytes)
    (input : List Bytes) :
    (0 < pagebars_height cfg → pagebars_fuel cfg ≤ fuel →
      ∃ final, do_process_pages fuel cfg stack input = some final) ∧
    ∀ final, do_process_pages fuel cfg stack input = some final →
      ∃ c s, do_process_pages_objects fuel cfg input (init_state cfg stack) = some (c, s) ∧
        final = do_process_pages_xref c s ∧
        s.issued = List.range' 1 (s.GV_PDFObjectId - 1) ∧
        s.started.Perm s.issued ∧
        (∀ i ∈ s.issued, s.started.count i = 1) ∧
        final.issued = s.issued ∧ final.started = s.started := by
  refine ⟨fun hh hf => do_process_pages_total hh hf stack input, ?_⟩
  intro final h
  obtain ⟨P, c, s, hcs, inv, rfl⟩ := do_process_pages_final h
  have hperm : s.started.Perm s.issued := by
    rw [inv.started, inv.issued]
    exact range'_two_perm (3 * P + 2) 1 (3 * P + 4) rfl (by omega)
  refine ⟨c, s, hcs, (do_process_pages_xref_eq c s).symm, ?_, hperm, ?_, rfl, rfl⟩
  · rw [inv.issued, inv.objid]; rfl
  · intro i hi
    rw [hperm.count_eq]
    rw [inv.issued] at hi ⊢
    exact List.count_eq_one_of_mem (List.nodup_range' 1 _) hi

/-- C4: the run completes when the band depth is positive and the iteration budget is at
least `pagebars_fuel`; in a completed run the page tree object, found at its recorded
offset, starts with `/Count n` and a `/Kids` array whose entries are the ids of the
page registry `GV_PAGE_LIST` in its (append) order; the `j`-th registry entry is
`3j+4`, the page object written when the `j`-th page was closed, and `n` is the number
of entries. -/
theorem kids_list_is_page_registry (fuel : Nat) (cfg : Config) (stack : Bytes)
    (input : List Bytes) :
    (0 < pagebars_height cfg → pagebars_fuel cfg ≤ fuel →
      ∃ final, do_process_pages fuel cfg stack input = some final) ∧
    ∀ final, do_process_pages fuel cfg stack input = some final →
      (∃ pre post,
        final.out = pre ++ ((fmt_u final.GV_PDFPageTreeId ++ " 0 obj".toList)
          ++ (("<</Type /Pages /Count ".toList ++ fmt_u final.GV_PAGE_LIST.length
                ++ "\n".toList)
          ++ ("/Kids[\n".toList ++ (kids_text final.GV_PAGE_LIST ++ ("]\n".toList ++ post))))) ∧
        pre.length = xref_of final final.GV_PDFPageTreeId) ∧
      final.GV_PAGE_LIST = (List.range final.GV_PDFNumberOfPages).map (fun j => 3 * j + 4) ∧
      ∀ j, j < final.GV_PDFNumberOfPages →
        ObjAt final (3 * j + 4) (page_obj final.GV_PDFPageTreeId (3 * j + 2)) := by
  refine ⟨fun hh hf => do_process_pages_total hh hf stack input, ?_⟩
  intro final h
  obtain ⟨P, c, s, _, inv, rfl⟩ := do_process_pages_final h
  have hl : s.GV_PAGE_LIST.length = P := by rw [inv.plist]; simp
  refine ⟨?_, ?_, ?_⟩
  · obtain ⟨pre, post, ho, a⟩ := inv.treeobj
    refine ⟨pre, tree_rest cfg (3 * P + 2) (3 * P + 3) ++ post
      ++ (xref_section s.GV_PDFObjectId (xref_of s)
          ++ trailer_text s.GV_PDFObjectId c s.out.length), ?_, ?_⟩
    · show s.out ++ _ = pre ++ ((fmt_u s.GV_PDFPageTreeId ++ _) ++ ((_ ++ fmt_u
        s.GV_PAGE_LIST.length ++ _) ++ (_ ++ (kids_text s.GV_PAGE_LIST ++ _))))
      rw [ho, hl, inv.tree, inv.plist]
      simp only [tree_head, obj_header, List.append_assoc]
    · show pre.length = xref_of s s.GV_PDFPageTreeId
      rw [inv.tree]; exact a
  · show s.GV_PAGE_LIST = (List.range s.GV_PDFNumberOfPages).map _
    rw [inv.npages]; exact inv.plist
  · intro j hj
    have hj' : j < P := by
      have : j < s.GV_PDFNumberOfPages := hj
      rwa [inv.npages] at this
    obtain ⟨pre, ops, post, ho, _, _, a3⟩ := inv.pages j hj'
    refine ⟨pre ++ (stream_open (3 * j + 2) (3 * j + 3) ++ ((ops ++ "ET\n".toList)
      ++ (stream_end ++ (obj_header (3 * j + 3)
      ++ length_obj (ops ++ "ET\n".toList).length)))),
      post ++ (xref_section s.GV_PDFObjectId (xref_of s)
          ++ trailer_text s.GV_PDFObjectId c s.out.length), ?_, ?_⟩
    · show s.out ++ _ = _ ++ (_ ++ (page_obj s.GV_PDFPageTreeId _ ++ _))
      rw [ho, inv.tree]
      simp only [List.append_assoc]
    · show _ = xref_of s (3 * j + 4)
      rw [← a3]
      simp only [List.length_append]
      omega

/-- C5: the run completes when the band depth is positive and the iteration budget is at
least `pagebars_fuel`; in a completed run the output ends with the cross-reference
section followed by a trailer whose `/Size` is the next free object id `N` (the number
in the section header), whose `/Root` is `N - 1`, and whose `startxref` number is the
length of the output before the keyword `xref`; object `N - 1` is the catalog (found
at its recorded offset) and is the last id handed out. -/
theorem trailer_size_root_startxref (fuel : Nat) (cfg : Config) (stack : Bytes)
    (input : List Bytes) :
    (0 < pagebars_height cfg → pagebars_fuel cfg ≤ fuel →
      ∃ final, do_process_pages fuel cfg stack input = some final) ∧
    ∀ final, do_process_pages fuel cfg stack input = some final →
      ∃ body rows : Bytes,
        final.out = body ++ (("xref\n".toList
            ++ (("0 ".toList ++ fmt_u final.GV_PDFObjectId ++ "\n".toList) ++ rows))
          ++ (("trailer\n<<\n/Size ".toList ++ fmt_u final.GV_PDFObjectId
                ++ "\n/Root ".toList ++ fmt_u (final.GV_PDFObjectId - 1) ++ " 0 R\n>>\n".toList)
          ++ ("startxref\n".toList ++ fmt_u body.length ++ "\n%%EOF\n".toList))) ∧
        (∃ pre post, body = pre ++ ((fmt_u (final.GV_PDFObjectId - 1) ++ " 0 obj".toList)
            ++ (("<</Type /Catalog /Pages ".toList ++ fmt_u final.GV_PDFPageTreeId
                ++ " 0 R>>\nendobj\n".toList) ++ post)) ∧
          pre.length = xref_of final (final.GV_PDFObjectId - 1)) ∧
        final.issued.getLast? = some (final.GV_PDFObjectId - 1) := by
  refine ⟨fun hh hf => do_process_pages_total hh hf stack input, ?_⟩
  intro final h
  obtain ⟨P, c, s, hcs, inv, rfl⟩ := do_process_pages_final h
  refine ⟨s.out, "0000000000 65535 f \n".toList ++ xref_rows (xref_of s) (s.GV_PDFObjectId - 1) 1,
    ?_, ?_, ?_⟩
  · show s.out ++ _ = s.out ++ ((_ ++ ((_ ++ fmt_u s.GV_PDFObjectId ++ _) ++ _))
      ++ ((_ ++ fmt_u s.GV_PDFObjectId ++ _ ++ fmt_u (s.GV_PDFObjectId - 1) ++ _) ++ _))
    rw [inv.catalog, inv.objid]
    simp only [xref_section, trailer_text, List.append_assoc]
    rfl
  · obtain ⟨pre, post, ho, a⟩ := inv.catobj
    refine ⟨pre, post, ?_, ?_⟩
    · show s.out = pre ++ ((fmt_u (s.GV_PDFObjectId - 1) ++ _) ++ ((_ ++ fmt_u
        s.GV_PDFPageTreeId ++ _) ++ post))
      rw [ho, inv.objid, inv.tree]
      rfl
    · show pre.length = xref_of s (s.GV_PDFObjectId - 1)
      rw [a, inv.objid]
      rfl
  · show s.issued.getLast? = some (s.GV_PDFObjectId - 1)
    rw [inv.issued, inv.objid, List.getLast?_range']
    simp

theorem exists_of_isSome {α : Type} {x : Option α} (h : x.isSome = true) : ∃ a, x = some a :=
  Option.isSome_iff_exists.mp h

theorem xref_offsets_point_at_headers_witness :
    ∃ final, do_process_pages 20 (default_config fmt_fixed6 fmt_fixed6) []
        ["1Hello".toList, "0World".toList] = some final ∧
      ∃ body rest : Bytes,
        final.out = body ++ ("xref\n".toList
          ++ (("0 ".toList ++ fmt_u final.GV_PDFObjectId ++ "\n".toList)
          ++ ("0000000000 65535 f \n".toList
          ++ (xref_rows (xref_of final) (final.GV_PDFObjectId - 1) 1 ++ rest)))) ∧
        ∀ i, 1 ≤ i → i < final.GV_PDFObjectId →
          ∃ pre post, body = pre ++ (fmt_u i ++ " 0 obj".toList) ++ post ∧
            pre.length = xref_of final i := by
  obtain ⟨final, hf⟩ := exists_of_isSome
    (x := do_process_pages 20 (default_config fmt_fixed6 fmt_fixed6) []
      ["1Hello".toList, "0World".toList]) (by decide!)
  exact ⟨final, hf, (xref_offsets_point_at_headers _ _ _ _).2 _ hf⟩

theorem stream_length_object_counts_body_witness :
    ∃ final, do_process_pages 21 (default_config fmt_fixed6 fmt_fixed6) []
        [" first".toList, "1second page".toList] = some final ∧
      (∀ j, j < final.GV_PDFNumberOfPages →
      ∃ pre ops post,
        final.out = pre ++ ((fmt_u (3 * j + 2) ++ " 0 obj".toList)
          ++ (("<< /Length ".toList ++ fmt_u (3 * j + 3) ++ " 0 R >>".toList
                ++ "stream\n".toList)
          ++ ((ops ++ "ET\n".toList)
          ++ ("endstream\nendobj\n".toList
          ++ ((fmt_u (3 * j + 3) ++ " 0 obj".toList)
          ++ (("\n".toList ++ fmt_u (ops ++ "ET\n".toList).length ++ "\nendobj\n".toList)
          ++ post)))))) ∧
        pre.length = xref_of final (3 * j + 2) ∧
        pre.length + (stream_open (3 * j + 2) (3 * j + 3)).length
          + (ops ++ "ET\n".toList).length + "endstream\nendobj\n".toList.length
            = xref_of final (3 * j + 3)) := by
  obtain ⟨final, hf⟩ := exists_of_isSome
    (x := do_process_pages 21 (default_config fmt_fixed6 fmt_fixed6) []
      [" first".toList, "1second page".toList]) (by decide!)
  exact ⟨final, hf, (stream_length_object_counts_body _ _ _ _).2 _ hf⟩

theorem ids_increasing_and_started_once_witness :
    ∃ final, do_process_pages 22 (default_config fmt_fixed6 fmt_fixed6) []
        ["+over".toList, "Rred".toList] = some final ∧
      (∃ c s, do_process_pages_objects 22 (default_config fmt_fixed6 fmt_fixed6) ["+over".toList, "Rred".toList]
          (init_state (default_config fmt_fixed6 fmt_fixed6) []) = some (c, s) ∧
      final = do_process_pages_xref c s ∧
      s.issued = List.range' 1 (s.GV_PDFObjectId - 1) ∧
      s.started.Perm s.issued ∧
      (∀ i ∈ s.issued, s.started.count i = 1) ∧
      final.issued = s.issued ∧ final.started = s.started) := by
  obtain ⟨final, hf⟩ := exists_of_isSome
    (x := do_process_pages 22 (default_config fmt_fixed6 fmt_fixed6) []
      ["+over".toList, "Rred".toList]) (by decide!)
  exact ⟨final, hf, (ids_increasing_and_started_once _ _ _ _).2 _ hf⟩

theorem kids_list_is_page_registry_witness :
    ∃ final, do_process_pages 23 (default_config fmt_fixed6 fmt_fixed6) []
        [" a".toList, "1b".toList, "1c".toList] = some final ∧
      ((∃ pre post,
      final.out = pre ++ ((fmt_u final.GV_PDFPageTreeId ++ " 0 obj".toList)
        ++ (("<</Type /Pages /Count ".toList ++ fmt_u final.GV_PAGE_LIST.length
              ++ "\n".toList)
        ++ ("/Kids[\n".toList ++ (kids_text final.GV_PAGE_LIST ++ ("]\n".toList ++ post))))) ∧
      pre.length = xref_of final final.GV_PDFPageTreeId) ∧
    final.GV_PAGE_LIST = (List.range final.GV_PDFNumberOfPages).map (fun j => 3 * j + 4) ∧
    ∀ j, j < final.GV_PDFNumberOfPages →
      ObjAt final (3 * j + 4) (page_obj final.GV_PDFPageTreeId (3 * j + 2))) := by
  obtain ⟨final, hf⟩ := exists_of_isSome
    (x := do_process_pages 23 (default_config fmt_fixed6 fmt_fixed6) []
      [" a".toList, "1b".toList, "1c".toList]) (by decide!)
  exact ⟨final, hf, (kids_list_is_page_registry _ _ _ _).2 _ hf⟩

theorem trailer_size_root_startxref_witness :
    ∃ final, do_process_pages 24 (default_config fmt_fixed6 fmt_fixed6) []
        ["-three".toList] = some final ∧
      (∃ body rows : Bytes,
      final.out = body ++ (("xref\n".toList
          ++ (("0 ".toList ++ fmt_u final.GV_PDFObjectId ++ "\n".toList) ++ rows))
        ++ (("trailer\n<<\n/Size ".toList ++ fmt_u final.GV_PDFObjectId
              ++ "\n/Root ".toList ++ fmt_u (final.GV_PDFObjectId - 1) ++ " 0 R\n>>\n".toList)
        ++ ("startxref\n".toList ++ fmt_u body.length ++ "\n%%EOF\n".toList))) ∧
      (∃ pre post, body = pre ++ ((fmt_u (final.GV_PDFObjectId - 1) ++ " 0 obj".toList)
          ++ (("<</Type /Catalog /Pages ".toList ++ fmt_u final.GV_PDFPageTreeId
              ++ " 0 R>>\nendobj\n".toList) ++ post)) ∧
        pre.length = xref_of final (final.GV_PDFObjectId - 1)) ∧
      final.issued.getLast? = some (final.GV_PDFObjectId - 1)) := by
  obtain ⟨final, hf⟩ := exists_of_isSome
    (x := do_process_pages 24 (default_config fmt_fixed6 fmt_fixed6) []
      ["-three".toList]) (by decide!)
  exact ⟨final, hf, (trailer_size_root_startxref _ _ _ _).2 _ hf⟩

theorem emit_nil (s : State) : emit [] s = s := by
  simp [emit]

theorem Emits.none (s : State) : Emits s s := ⟨[], (emit_nil s).symm⟩

theorem Emits.more {s t : State} (h : Emits s t) (bs : Bytes) : Emits s (emit bs t) := by
  obtain ⟨b, rfl⟩ := h
  exact ⟨b ++ bs, emit_emit _ _ _⟩

theorem Emits.chain {s t u : State} (h1 : Emits s t) (h2 : Emits t u) : Emits s u := by
  obtain ⟨b2, rfl⟩ := h2
  exact h1.more b2

theorem Emits.cond {s a b : State} (c : Prop) [Decidable c] (ha : Emits s a) (hb : Emits s b) :
    Emits s (if c then a else b) := by
  split_ifs
  · exact ha
  · exact hb

theorem Emits.print_string {s t : State} (h : Emits s t) (cfg : Config) (buffer : Bytes) :
    Emits s (print_pdf_string cfg buffer t) := by
  unfold print_pdf_string
  split_ifs <;> repeat (first | exact h | apply Emits.more)

theorem Emits.title_at {s t : State} (h : Emits s t) (cfg : Config) (x y : ℚ) (str : Bytes) :
    Emits s (print_pdf_title_at cfg x y str t) := by
  unfold print_pdf_title_at
  repeat (first | exact h | apply Emits.print_string | apply Emits.more)

theorem Emits.impact_top {s t : State} (h : Emits s t) (cfg : Config) :
    Emits s (print_pdf_impact_top cfg t) := by
  unfold print_pdf_impact_top
  split_ifs <;> repeat (first | exact h | apply Emits.print_string | apply Emits.more)

/-- Setting the line-number flag on both sides. -/
theorem Emits.set_flag {s t : State} (h : Emits s t) (b : Bool) :
    Emits { s with GV_IsPrintLineNumbers := b } { t with GV_IsPrintLineNumbers := b } := by
  obtain ⟨bs, rfl⟩ := h
  exact ⟨bs, rfl⟩

theorem print_margin_label_eq (cfg : Config) (s : State) :
    print_margin_label cfg s =
      emit (fmt_rgb cfg cfg.GV_FONT_COLOR ++ " rg\n".toList)
        { margin_label_body cfg { s with GV_IsPrintLineNumbers := false } with
          GV_IsPrintLineNumbers := s.GV_IsPrintLineNumbers } := rfl

theorem emits_margin_label_body (cfg : Config) (s : State) :
    Emits s (margin_label_body cfg s) := by
  unfold margin_label_body
  repeat (first
    | exact Emits.none _ | apply Emits.title_at | apply Emits.impact_top | apply Emits.cond
    | apply Emits.more)

theorem emits_print_margin_label (cfg : Config) (s : State) :
    Emits s (print_margin_label cfg s) := by
  rw [print_margin_label_eq]
  apply Emits.more
  exact (emits_margin_label_body cfg { s with GV_IsPrintLineNumbers := false }).set_flag
    s.GV_IsPrintLineNumbers

theorem emits_pagebars_loop (cfg : Config) (x1 width height : ℚ) :
    ∀ (fuel : Nat) (y1 step : ℚ) (s t : State),
      pagebars_loop cfg x1 width height fuel y1 step s = some t → Emits s t := by
  intro fuel
  induction fuel with
  | zero => intro y1 step s t h; simp [pagebars_loop] at h
  | succ n ih =>
    intro y1 step s t h
    unfold pagebars_loop at h
    split_ifs at h
    · exact ((Emits.none s).more _).chain (ih _ _ _ _ h)
    · exact (((Emits.none s).more _).more _).chain (ih _ _ _ _ h)
    · cases h; exact Emits.none _

theorem emits_print_pdf_pagebars (fuel : Nat) (cfg : Config) (s t : State)
    (h : print_pdf_pagebars fuel cfg s = some t) : Emits s t := by
  unfold print_pdf_pagebars at h
  simp only [Option.map_eq_some'] at h
  obtain ⟨u, hu, rfl⟩ := h
  have h1 := emits_pagebars_loop _ _ _ _ _ _ _ _ _ hu
  have h0 : Emits s (if cfg.GV_DashCode ≠ [] then
      emit ("0 w [".toList ++ cfg.GV_DashCode ++ "] 0 d\n".toList)
        (emit (fmt_u 1 ++ " i\n".toList) (emit (fmt_rgb cfg cfg.GV_BAR_COLOR ++ " rg\n".toList) s))
      else emit (fmt_u 1 ++ " i\n".toList)
        (emit (fmt_rgb cfg cfg.GV_BAR_COLOR ++ " rg\n".toList) s)) := by
    repeat (first | exact Emits.none _ | apply Emits.cond | apply Emits.more)
  have h2 := h0.chain h1
  repeat (first | exact h2 | apply Emits.cond | apply Emits.more)

/-- The fields read by the text engine after `start_pdf_page`. -/
theorem start_pdf_page_fields {fuel : Nat} {cfg : Config} {s t : State}
    (h : start_pdf_page fuel cfg s = some t) :
    t.GV_PDFPageYPosition = cfg.GV_PageDepth - cfg.GV_PageMarginTop ∧
    t.GV_CurrentPageCount = s.GV_CurrentPageCount + 1 ∧
    t.GV_PDFNumberOfPages = s.GV_PDFNumberOfPages ∧
    (t.GV_CurrentLineCount = if cfg.GV_IsPerPageLineNumbers then 0 else s.GV_CurrentLineCount) ∧
    t.err = s.err ∧ t.GV_CURRENT_COLOR = s.GV_CURRENT_COLOR ∧
    t.GV_IsExtendedASCII = s.GV_IsExtendedASCII ∧
    t.GV_IsPrintLineNumbers = s.GV_IsPrintLineNumbers ∧
    t.buffer1 = s.buffer1 ∧ t.buffer2 = s.buffer2 ∧ t.bResetColor = s.bResetColor := by
  rw [start_pdf_page_eq, Option.map_eq_some'] at h
  obtain ⟨u, hu, rfl⟩ := h
  generalize (if cfg.GV_IsPerPageLineNumbers then (0 : Int) else s.GV_CurrentLineCount) = lc
    at hu ⊢
  obtain ⟨b1, hb1⟩ := emits_print_pdf_pagebars _ _ _ _ hu
  obtain ⟨b2, hb2⟩ := emits_print_margin_label cfg u
  have st := startObj s.GV_PDFObjectId (page_ids s lc)
  have he := st.engine
  simp only [eng, Prod.mk.injEq] at he
  obtain ⟨e1, e2, e3, e4, e5, e6, e7, e8, e9⟩ := he
  unfold page_rest
  rw [hb2, hb1]
  refine ⟨rfl, ?_, ?_, ?_, ?_, ?_, ?_, ?_, ?_, ?_, ?_⟩
  · exact st.cpc
  · exact st.npages
  · exact e3
  · exact e1
  · exact e4
  · exact e5
  · exact e6
  · exact e7
  · exact e8
  · exact e9

theorem end_pdf_page_fields (s : State) :
    eng (end_pdf_page s) = eng s ∧
    (end_pdf_page s).GV_CurrentPageCount = s.GV_CurrentPageCount ∧
    (end_pdf_page s).GV_PDFNumberOfPages = s.GV_PDFNumberOfPages + 1 := by
  let s4 : State := emit stream_end
    (emit "ET\n".toList (store_pdf_page s.GV_PDFObjectId (next_object_id s).2))
  have st5 := startObj s.GV_PDFStreamLengthId s4
  let s5 := start_pdf_object s.GV_PDFStreamLengthId s4
  let s6 := emit (length_obj ((s.out ++ "ET\n".toList).length - s.GV_PDFStreamStart)) s5
  have st7 := startObj s.GV_PDFObjectId s6
  let s7 := start_pdf_object s.GV_PDFObjectId s6
  have hend : end_pdf_page s = emit (page_obj s7.GV_PDFPageTreeId s7.GV_PDFStreamId) s7 := rfl
  rw [hend]
  refine ⟨?_, ?_, ?_⟩
  · show eng s7 = eng s
    rw [st7.engine]
    show eng s5 = eng s
    rw [st5.engine]
    rfl
  · show s7.GV_CurrentPageCount = _
    rw [st7.cpc]
    show s5.GV_CurrentPageCount = _
    rw [st5.cpc]
    rfl
  · show s7.GV_PDFNumberOfPages = _
    rw [st7.npages]
    show s5.GV_PDFNumberOfPages = _
    rw [st5.npages]
    rfl

theorem page_break_fields {fuel : Nat} {cfg : Config} {s t : State}
    (h : start_pdf_page fuel cfg (end_pdf_page s) = some t) : PageBreak cfg s t := by
  obtain ⟨a1, a2, a3, a4, a5, a6, a7, a8, a9, a10, a11⟩ := start_pdf_page_fields h
  obtain ⟨he, c1, c2⟩ := end_pdf_page_fields s
  simp only [eng, Prod.mk.injEq] at he
  obtain ⟨e1, e2, e3, e4, e5, e6, e7, e8, e9⟩ := he
  exact ⟨a1, by rw [a2, c1], by rw [a3, c2], by rw [a4, e3], by rw [a5, e1], by rw [a6, e4],
    by rw [a7, e5], by rw [a8, e6], by rw [a9, e7], by rw [a10, e8], by rw [a11, e9]⟩

theorem process_line_eq (fuel : Nat) (cfg : Config) (s : State) (line : Bytes) :
    process_line fuel cfg s line =
      ((overflow_break fuel cfg (read_line s line)).bind (line_body fuel cfg)).map
        (line_tail cfg) := rfl

theorem cstr_append_nul (p r : Bytes) : cstr (p ++ '\x00' :: r) = cstr p := by
  induction p with
  | nil => simp [cstr]
  | cons c p ih =>
    simp only [cstr] at ih ⊢
    rw [List.cons_append, List.takeWhile_cons, List.takeWhile_cons, ih]

theorem cstr_of_no_nul (p : Bytes) (h : ∀ c ∈ p, c ≠ '\x00') : cstr p = p := by
  unfold cstr
  rw [List.takeWhile_eq_self_iff]
  intro c hc
  simpa using h c hc

/-- The buffer after reading the line `c :: payload`. -/
theorem buffer_after_read (s : State) (c : Char) (payload : Bytes) :
    (read_line s (c :: payload)).buffer1 =
      c :: (payload ++ '\x00' :: s.buffer1.drop (payload.length + 1 + 1)) := rfl

/-- One ASA line with a non-NUL control code `c`, written with the buffer contents
made explicit: overflow test, control code, show-text of the payload, loop tail. -/
theorem asa_line_after_read {fuel : Nat} {cfg : Config} {u : State} {c : Char}
    {payload rest : Bytes} (hasa : cfg.GV_IsASA = true) (hc : c ≠ '\x00')
    (hb : u.buffer1 = c :: (payload ++ '\x00' :: rest)) :
    (line_body fuel cfg u).map (line_tail cfg) =
      (asa_switch fuel cfg c u).map fun v => show_payload cfg (cstr (v.buffer1.drop 1)) v := by
  unfold line_body
  have h1 : (cstr u.buffer1).length ≠ 0 := by
    rw [hb]; unfold cstr; simp [List.takeWhile_cons, hc]
  rw [if_neg h1, if_neg (by simp [hasa])]
  unfold asa_line
  rw [hb, Option.map_map]
  rfl

theorem overflow_break_no {fuel : Nat} {cfg : Config} {u : State}
    (h : ¬ u.GV_PDFPageYPosition ≤ cfg.GV_PageMarginBottom + 1) :
    overflow_break fuel cfg u = some u := by
  unfold overflow_break
  rw [if_neg (fun hc => h hc.1)]

theorem overflow_break_yes {fuel : Nat} {cfg : Config} {u : State} {c : Char} {rest : Bytes}
    (h : u.GV_PDFPageYPosition ≤ cfg.GV_PageMarginBottom + 1) (hasa : cfg.GV_IsASA = true)
    (hb : u.buffer1 = c :: rest) (hc : c ≠ '\x00') (hplus : c ≠ '+') :
    overflow_break fuel cfg u = start_pdf_page fuel cfg (end_pdf_page u) := by
  unfold overflow_break
  rw [if_pos]
  refine ⟨h, ?_, hasa, ?_⟩
  · rw [hb]; unfold cstr; simp [List.takeWhile_cons, hc]
  · rw [hb]; simpa using hplus

theorem asa_switch_space (fuel : Nat) (cfg : Config) (u : State) :
    asa_switch fuel cfg ' ' u = some u := by
  unfold asa_switch
  rw [if_neg (by decide), if_neg (by decide), if_neg (by decide), if_neg (by decide),
    if_neg (by decide), if_neg (by decide), if_neg (by decide), if_neg (by decide),
    if_neg (by decide), if_neg (by decide), if_pos rfl]

theorem asa_switch_one_at_top (fuel : Nat) (cfg : Config) (u : State)
    (h : ¬ u.GV_PDFPageYPosition < cfg.GV_PageDepth - cfg.GV_PageMarginTop) :
    asa_switch fuel cfg '1' u = some u := by
  unfold asa_switch
  rw [if_pos rfl, if_neg h]

theorem asa_switch_one_below_top (fuel : Nat) (cfg : Config) (u : State)
    (h : u.GV_PDFPageYPosition < cfg.GV_PageDepth - cfg.GV_PageMarginTop) :
    asa_switch fuel cfg '1' u = start_pdf_page fuel cfg (end_pdf_page u) := by
  unfold asa_switch
  rw [if_pos rfl, if_pos h]

theorem asa_switch_zero (fuel : Nat) (cfg : Config) (u : State) :
    asa_switch fuel cfg '0' u =
      some { emit "T*()Tj\n".toList u with
        GV_PDFPageYPosition := u.GV_PDFPageYPosition - GV_StandardLineSize cfg,
        GV_CurrentLineCount := u.GV_CurrentLineCount + 1 } := by
  unfold asa_switch
  rw [if_neg (by decide), if_pos rfl]
  rfl

theorem frame_show_payload (cfg : Config) (payload : Bytes) (s : State) :
    Frame s (show_payload cfg payload s) := by
  unfold show_payload
  repeat (first
    | exact Frame.same _ | apply Frame.line_tail | apply Frame.print_pdf_string
    | apply Frame.emit)

theorem line_tail_ypos (cfg : Config) (s : State) :
    (line_tail cfg s).GV_PDFPageYPosition = s.GV_PDFPageYPosition - GV_StandardLineSize cfg := by
  unfold line_tail
  dsimp only
  split_ifs <;> rfl

theorem print_pdf_string_ypos (cfg : Config) (b : Bytes) (s : State) :
    (print_pdf_string cfg b s).GV_PDFPageYPosition = s.GV_PDFPageYPosition := by
  obtain ⟨bs, h⟩ := (Emits.none s).print_string cfg b
  rw [h]; rfl

theorem show_payload_ypos (cfg : Config) (payload : Bytes) (s : State) :
    (show_payload cfg payload s).GV_PDFPageYPosition =
      s.GV_PDFPageYPosition - GV_StandardLineSize cfg := by
  unfold show_payload
  rw [line_tail_ypos]
  show (print_pdf_string cfg payload (emit "T*".toList s)).GV_PDFPageYPosition - _ = _
  rw [print_pdf_string_ypos]
  rfl

/-- One ASA line `' ' :: payload`: a page break exactly when the cursor is at or
below `GV_PageMarginBottom + 1`, then one show-text of the payload. -/
theorem space_line_cases {fuel : Nat} {cfg : Config} {s t : State} {payload : Bytes}
    (hasa : cfg.GV_IsASA = true)
    (h : process_line fuel cfg s (' ' :: payload) = some t) :
    (¬ s.GV_PDFPageYPosition ≤ cfg.GV_PageMarginBottom + 1 ∧
        t = show_payload cfg (cstr payload) (read_line s (' ' :: payload))) ∨
    (s.GV_PDFPageYPosition ≤ cfg.GV_PageMarginBottom + 1 ∧
      ∃ u, start_pdf_page fuel cfg (end_pdf_page (read_line s (' ' :: payload))) = some u ∧
        t = show_payload cfg (cstr payload) u) := by
  rw [process_line_eq] at h
  by_cases hy : s.GV_PDFPageYPosition ≤ cfg.GV_PageMarginBottom + 1
  · right
    refine ⟨hy, ?_⟩
    rw [overflow_break_yes (c := ' ') (show (read_line s (' ' :: payload)).GV_PDFPageYPosition ≤ _
      from hy) hasa (buffer_after_read s ' ' payload) (by decide) (by decide)] at h
    simp only [Option.map_eq_some', Option.bind_eq_some] at h
    obtain ⟨v, ⟨u, hu, hv⟩, rfl⟩ := h
    have hb : u.buffer1 = ' ' :: (payload ++ '\x00' :: s.buffer1.drop (payload.length + 1 + 1)) := by
      rw [(page_break_fields hu).buffer1]; rfl
    have h2 := @asa_line_after_read fuel _ _ _ _ _ hasa (by decide) hb
    rw [hv, asa_switch_space] at h2
    simp only [Option.map_some'] at h2
    refine ⟨u, hu, ?_⟩
    rw [Option.some.inj h2, hb]
    simp only [List.drop_succ_cons, List.drop_zero, cstr_append_nul]
  · left
    refine ⟨hy, ?_⟩
    rw [overflow_break_no (show ¬ (read_line s (' ' :: payload)).GV_PDFPageYPosition ≤ _
      from hy)] at h
    simp only [Option.map_eq_some', Option.bind_eq_some, Option.some.injEq] at h
    obtain ⟨v, ⟨u, rfl, hv⟩, rfl⟩ := h
    have hb := buffer_after_read s ' ' payload
    have h2 := @asa_line_after_read fuel _ _ _ _ _ hasa (by decide) hb
    rw [hv, asa_switch_space] at h2
    simp only [Option.map_some'] at h2
    rw [Option.some.inj h2, hb]
    simp only [List.drop_succ_cons, List.drop_zero, cstr_append_nul]

theorem DefaultLayout.line_size {cfg : Config} (h : DefaultLayout cfg) :
    GV_StandardLineSize cfg = 9 := by
  unfold GV_StandardLineSize
  rw [h.depth, h.top, h.bottom, h.lines]
  norm_num

theorem default_config_layout (fmt_f fmt_g : ℚ → Bytes) :
    DefaultLayout (default_config fmt_f fmt_g) :=
  ⟨rfl, by norm_num [default_config], by norm_num [default_config],
    by norm_num [default_config], rfl⟩

/-- One line `' ' :: payload` under the default layout, with `m ≤ 60` lines on the
current page (cursor at `576 - 9 m`): the page is broken exactly when `m = 60`, and
the payload is shown on the page that is then current. -/
theorem space_line_step {fuel : Nat} {cfg : Config} {s t : State} {payload : Bytes} {m : Nat}
    (hl : DefaultLayout cfg) (hm : m ≤ 60) (hy : s.GV_PDFPageYPosition = 576 - 9 * (m : ℚ))
    (h : process_line fuel cfg s (' ' :: payload) = some t) :
    ∃ u, t = show_payload cfg (cstr payload) u ∧
      u.GV_CurrentPageCount = s.GV_CurrentPageCount + break_after m ∧
      u.GV_PDFNumberOfPages = s.GV_PDFNumberOfPages + break_after m ∧
      t.GV_PDFPageYPosition = 576 - 9 * (lines_after m : ℚ) := by
  have hL := hl.line_size
  rcases space_line_cases hl.asa h with ⟨hno, rfl⟩ | ⟨hyes, u, hu, rfl⟩
  · have hm' : m ≠ 60 := by
      rintro rfl
      apply hno
      rw [hy, hl.bottom]; norm_num
    refine ⟨_, rfl, ?_, ?_, ?_⟩
    · simp [break_after, hm', read_line]
    · simp [break_after, hm', read_line]
    · rw [show_payload_ypos, hL]
      show s.GV_PDFPageYPosition - 9 = _
      rw [hy]
      simp only [lines_after, if_neg hm']
      push_cast
      ring
  · have hm' : m = 60 := by
      by_contra hne
      have h59 : m ≤ 59 := by omega
      have : (m : ℚ) ≤ 59 := by exact_mod_cast h59
      rw [hy, hl.bottom] at hyes
      linarith
    have pb := page_break_fields hu
    refine ⟨u, rfl, ?_, ?_, ?_⟩
    · rw [pb.cpc]; simp [break_after, hm', read_line]
    · rw [pb.npages]; simp [break_after, hm', read_line]
    · rw [show_payload_ypos, hL, pb.ypos, hl.depth, hl.top]
      simp only [lines_after, hm', if_true]
      norm_num

theorem run_lines_append (fuel : Nat) (cfg : Config) (l1 l2 : List Bytes) :
    ∀ s, run_lines fuel cfg s (l1 ++ l2) =
      (run_lines fuel cfg s l1).bind fun t => run_lines fuel cfg t l2 := by
  induction l1 with
  | nil => intro s; simp [run_lines]
  | cons l l1 ih =>
    intro s
    simp only [List.cons_append, run_lines]
    cases hp : process_line fuel cfg s l with
    | none => simp
    | some u => simp [ih]

/-- Lines of the form `' ' :: payload` under the default layout: starting with `m`
lines on the current page, `n` further lines cause `(m + n - 1) / 60` page breaks. -/
theorem run_space_lines {fuel : Nat} {cfg : Config} (hl : DefaultLayout cfg) :
    ∀ (lines : List Bytes) (s final : State) (m : Nat), m ≤ 60 →
      s.GV_PDFPageYPosition = 576 - 9 * (m : ℚ) →
      (∀ l ∈ lines, ∃ p, l = ' ' :: p) →
      run_lines fuel cfg s lines = some final →
      ∃ m' : Nat, m' ≤ 60 ∧ final.GV_PDFPageYPosition = 576 - 9 * (m' : ℚ) ∧
        (lines ≠ [] → m' = (m + lines.length - 1) % 60 + 1) ∧ (lines = [] → m' = m) ∧
        final.GV_CurrentPageCount = s.GV_CurrentPageCount + (m + lines.length - 1) / 60 ∧
        final.GV_PDFNumberOfPages = s.GV_PDFNumberOfPages + (m + lines.length - 1) / 60 := by
  intro lines
  induction lines with
  | nil =>
    intro s final m hm hy _ h
    simp only [run_lines, Option.some.injEq] at h
    subst h
    refine ⟨m, hm, hy, fun hne => absurd rfl hne, fun _ => rfl, ?_, ?_⟩
    · simp only [List.length_nil]; omega
    · simp only [List.length_nil]; omega
  | cons l rest ih =>
    intro s final m hm hy hsp h
    obtain ⟨p, rfl⟩ := hsp l (List.mem_cons_self _ _)
    simp only [run_lines, Option.bind_eq_some] at h
    obtain ⟨t, ht, hfin⟩ := h
    obtain ⟨u, rfl, hc, hn, hy'⟩ := space_line_step hl hm hy ht
    have hf := frame_show_payload cfg (cstr p) u
    have hla : lines_after m ≤ 60 := by unfold lines_after; split_ifs <;> omega
    obtain ⟨m', hm', hfy, h1, h2, h3, h4⟩ := ih _ final (lines_after m) hla hy'
      (fun l hl' => hsp l (List.mem_cons_of_mem _ hl')) hfin
    refine ⟨m', hm', hfy, ?_, fun hc' => absurd hc' (List.cons_ne_nil _ _), ?_, ?_⟩
    · intro _
      rcases rest with _ | ⟨r, rest⟩
      · rw [h2 rfl]
        simp only [lines_after, List.length_cons, List.length_nil]
        split_ifs <;> omega
      · rw [h1 (List.cons_ne_nil _ _)]
        simp only [lines_after, List.length_cons]
        split_ifs <;> omega
    · rw [h3, hf.cpc, hc]
      simp only [lines_after, break_after, List.length_cons]
      split_ifs <;> omega
    · rw [h4, hf.npages, hn]
      simp only [lines_after, break_after, List.length_cons]
      split_ifs <;> omega

theorem count_lines_on_page (n k : Nat) :
    ((List.range n).filter (fun i => i / 60 = k)).length = min 60 (n - 60 * k) := by
  induction n with
  | zero => simp
  | succ n ih =>
    rw [List.range_succ, List.filter_append, List.length_append, ih]
    by_cases hk : n / 60 = k
    · simp only [List.filter_cons, List.filter_nil, hk, decide_True, if_true, List.length_cons,
        List.length_nil]
      omega
    · simp only [List.filter_cons, List.filter_nil, hk, decide_False, List.length_nil]
      simp only [Bool.false_eq_true, if_false, List.length_nil]
      omega

/-- The text engine run of a document: `do_text_translation` opens the first page,
runs the line loop and closes the last page. -/
theorem do_text_translation_parts {fuel : Nat} {cfg : Config} {input : List Bytes}
    {s u : State} (h : do_text_translation fuel cfg input s = some u) :
    ∃ t0 v, start_pdf_page fuel cfg s = some t0 ∧ run_lines fuel cfg t0 input = some v ∧
      u = end_pdf_page v := by
  unfold do_text_translation at h
  simp only [Option.map_eq_some', Option.bind_eq_some] at h
  obtain ⟨v, ⟨t0, h0, hv⟩, rfl⟩ := h
  exact ⟨t0, v, h0, hv, rfl⟩

/-- C7: in ASA mode with the default layout, the run on `N ≥ 1` lines each beginning with
a space completes when the band depth is positive and the iteration budget is at least
`pagebars_fuel`, and a completed run has `⌈N/60⌉` pages; line `i` (counted from 0) is
shown, by one show-text operation after the lines before it, while page `i / 60 + 1`
is the current page; hence page `k + 1` carries `min 60 (N - 60 k)` lines: 60 on every
page but the last, the remainder on the last. -/
theorem asa_default_sixty_lines_per_page (fuel : Nat) (cfg : Config) (stack : Bytes)
    (lines : List Bytes) (hl : DefaultLayout cfg) (hne : lines ≠ [])
    (hsp : ∀ l ∈ lines, ∃ p, l = ' ' :: p) :
    (0 < pagebars_height cfg → pagebars_fuel cfg ≤ fuel →
      ∃ final, do_process_pages fuel cfg stack lines = some final) ∧
    ∀ final, do_process_pages fuel cfg stack lines = some final →
      final.GV_PDFNumberOfPages = (lines.length + 59) / 60 ∧
      (∃ t0, start_pdf_page fuel cfg (doc_start cfg stack) = some t0 ∧
        ∀ i (hi : i < lines.length), ∃ u,
          u.GV_CurrentPageCount = i / 60 + 1 ∧
          run_lines fuel cfg t0 (lines.take (i + 1)) =
            some (show_payload cfg (cstr ((lines.get ⟨i, hi⟩).drop 1)) u)) ∧
      ∀ k, k < final.GV_PDFNumberOfPages →
        ((List.range lines.length).filter (fun i => i / 60 + 1 = k + 1)).length
          = min 60 (lines.length - 60 * k) := by
  refine ⟨fun hh hf => do_process_pages_total hh hf stack lines, ?_⟩
  intro final h
  obtain ⟨P, c, s, u, hu, hcl, _, hfin, rfl⟩ := do_process_pages_parts h
  obtain ⟨t0, v, h0, hv, rfl⟩ := do_text_translation_parts hu
  obtain ⟨y0, c0, n0, _⟩ := start_pdf_page_fields h0
  have hy0 : t0.GV_PDFPageYPosition = 576 - 9 * ((0 : Nat) : ℚ) := by
    rw [y0, hl.depth, hl.top]; norm_num
  have hc0 : t0.GV_CurrentPageCount = 1 := by rw [c0]; rfl
  have hn0 : t0.GV_PDFNumberOfPages = 0 := by rw [n0]; rfl
  have hlen : 0 < lines.length := List.length_pos.mpr hne
  refine ⟨?_, ⟨t0, h0, ?_⟩, ?_⟩
  · obtain ⟨m', _, _, _, _, _, hn⟩ := run_space_lines hl lines t0 v 0 (by omega) hy0 hsp hv
    have h1 : (end_pdf_page v).GV_PDFNumberOfPages = P := hcl.npages
    rw [(end_pdf_page_fields v).2.2, hn, hn0] at h1
    show s.GV_PDFNumberOfPages = _
    rw [hfin.npages, ← h1]
    omega
  · intro i hi
    -- the lines before line `i`, then line `i`
    have hsplit : lines.take (i + 1) = lines.take i ++ [lines.get ⟨i, hi⟩] := by
      rw [List.take_succ, List.getElem?_eq_getElem hi]; rfl
    have hrun : ∃ w, run_lines fuel cfg t0 (lines.take (i + 1)) = some w := by
      have := hv
      rw [← List.take_append_drop (i + 1) lines, run_lines_append] at this
      rw [Option.bind_eq_some] at this
      obtain ⟨w, hw, _⟩ := this
      exact ⟨w, hw⟩
    obtain ⟨w, hw⟩ := hrun
    have hw2 := hw
    rw [hsplit, run_lines_append, Option.bind_eq_some] at hw2
    obtain ⟨a, ha, hlast⟩ := hw2
    simp only [run_lines, Option.bind_eq_some, Option.some.injEq] at hlast
    obtain ⟨w', hw', rfl⟩ := hlast
    obtain ⟨p, hp⟩ := hsp (lines.get ⟨i, hi⟩) (List.get_mem _ _ _)
    obtain ⟨m', hm', hay, h1, h2, h3, _⟩ := run_space_lines hl (lines.take i) t0 a 0
      (by omega) hy0 (fun l hl' => hsp l (List.mem_of_mem_take hl')) ha
    rw [hp] at hw'
    obtain ⟨b, hb, hbc, _, _⟩ := space_line_step hl hm' hay hw'
    refine ⟨b, ?_, ?_⟩
    · rw [hbc, h3, hc0]
      have hlt : (lines.take i).length = i := by
        rw [List.length_take]; omega
      rw [hlt]
      rcases Nat.eq_zero_or_pos i with hi0 | hi0
      · subst hi0
        have : m' = 0 := h2 (by simp)
        subst this
        simp [break_after]
      · have hne' : lines.take i ≠ [] := by
          intro hc
          rw [hc] at hlt
          simp at hlt
          omega
        have := h1 hne'
        rw [hlt] at this
        unfold break_after
        split_ifs <;> omega
    · rw [hw, hb, hp]
      simp
  · intro k _
    have : (fun i => decide (i / 60 + 1 = k + 1)) = (fun i => decide (i / 60 = k)) := by
      funext i
      simp
    rw [this]
    exact count_lines_on_page _ _

theorem asa_default_sixty_lines_per_page_witness :
    ∃ final, do_process_pages 20 (default_config fmt_fixed6 fmt_fixed6) []
        (List.replicate 61 " text".toList) = some final ∧
      final.GV_PDFNumberOfPages = 2 ∧
      ((List.range 61).filter (fun i => i / 60 + 1 = 1)).length = 60 ∧
      ((List.range 61).filter (fun i => i / 60 + 1 = 2)).length = 1 := by
  obtain ⟨final, hf⟩ := exists_of_isSome
    (x := do_process_pages 20 (default_config fmt_fixed6 fmt_fixed6) []
      (List.replicate 61 " text".toList)) (by decide!)
  have hsp : ∀ l ∈ List.replicate 61 " text".toList, ∃ p, l = ' ' :: p := by
    intro l hl
    rw [List.eq_of_mem_replicate hl]
    exact ⟨"text".toList, rfl⟩
  obtain ⟨h1, _, h3⟩ := (asa_default_sixty_lines_per_page 20
    (default_config fmt_fixed6 fmt_fixed6) [] (List.replicate 61 " text".toList)
    (default_config_layout _ _) (by decide) hsp).2 final hf
  rw [List.length_replicate] at h1 h3
  have hp : final.GV_PDFNumberOfPages = 2 := by rw [h1]
  exact ⟨final, hf, hp, by simpa using h3 0 (by omega), by simpa using h3 1 (by omega)⟩

theorem put_escaped_eq_ref (text : Bytes) : put_escaped false text = escape_ref text := by
  induction text with
  | nil => rfl
  | cons c rest ih =>
    rw [put_escaped, ih]
    simp [escape_ref, List.flatMap_cons]

/-- C6: with the extended flag clear, line numbering off and the active colour
equal to the base font colour, `print_pdf_string` writes exactly `(`, the text with
each `(`, `)` and backslash preceded by a backslash, and `)`, and changes nothing
else; for the text `(test)` the bytes written are `(\(test\))`. -/
theorem print_pdf_string_escapes (cfg : Config) (s : State) (text : Bytes)
    (hext : s.GV_IsExtendedASCII = false) (hln : s.GV_IsPrintLineNumbers = false)
    (hcol : s.GV_CURRENT_COLOR = cfg.GV_FONT_COLOR) :
    print_pdf_string cfg text s = emit ("(".toList ++ escape_ref text ++ ")".toList) s ∧
    (print_pdf_string cfg "(test)".toList s).out = s.out ++ "(\\(test\\))".toList := by
  have key : ∀ t : Bytes,
      print_pdf_string cfg t s = emit ("(".toList ++ escape_ref t ++ ")".toList) s := by
    intro t
    unfold print_pdf_string
    rw [if_neg (by simp [hln]), if_neg (by simp [hcol])]
    simp only [hext, put_escaped_eq_ref]
  refine ⟨key text, ?_⟩
  rw [key]
  show s.out ++ _ = _
  congr 1

theorem print_pdf_string_escapes_witness :
    (init_state (default_config fmt_fixed6 fmt_fixed6) []).GV_IsExtendedASCII = false ∧
    (init_state (default_config fmt_fixed6 fmt_fixed6) []).GV_IsPrintLineNumbers = false ∧
    (init_state (default_config fmt_fixed6 fmt_fixed6) []).GV_CURRENT_COLOR
      = (default_config fmt_fixed6 fmt_fixed6).GV_FONT_COLOR ∧
    (print_pdf_string (default_config fmt_fixed6 fmt_fixed6) "a(b)c\\d".toList
        (init_state (default_config fmt_fixed6 fmt_fixed6) [])).out
      = "(a\\(b\\)c\\\\d)".toList :=
  ⟨rfl, rfl, rfl, by
    rw [(print_pdf_string_escapes (default_config fmt_fixed6 fmt_fixed6)
      (init_state (default_config fmt_fixed6 fmt_fixed6) []) "a(b)c\\d".toList rfl rfl rfl).1]
    decide⟩

/-- An ASA line `c :: payload` (with `c` not NUL) read while the cursor is above
`GV_PageMarginBottom + 1`: no overflow break; the control code is handled, then the
payload is shown. -/
theorem asa_line_no_overflow {fuel : Nat} {cfg : Config} {s : State} {c : Char}
    {payload : Bytes} (hasa : cfg.GV_IsASA = true) (hc : c ≠ '\x00')
    (hy : ¬ s.GV_PDFPageYPosition ≤ cfg.GV_PageMarginBottom + 1) :
    process_line fuel cfg s (c :: payload) =
      (asa_switch fuel cfg c (read_line s (c :: payload))).map
        fun v => show_payload cfg (cstr (v.buffer1.drop 1)) v := by
  rw [process_line_eq, overflow_break_no (show ¬ (read_line s (c :: payload)).GV_PDFPageYPosition
    ≤ _ from hy), Option.some_bind]
  exact asa_line_after_read hasa hc (buffer_after_read s c payload)

theorem cstr_drop_after_read (s : State) (c : Char) (payload : Bytes) :
    cstr ((read_line s (c :: payload)).buffer1.drop 1) = cstr payload := by
  rw [buffer_after_read]
  simp only [List.drop_succ_cons, List.drop_zero, cstr_append_nul]

/-- The line `'1' :: payload` read with the cursor at top-of-page, in a layout whose
top-of-page lies above `GV_PageMarginBottom + 1`: the payload is shown and no page
function is called. -/
theorem one_line_at_top {fuel : Nat} {cfg : Config} {s : State} {payload : Bytes}
    (hasa : cfg.GV_IsASA = true)
    (htop : s.GV_PDFPageYPosition = cfg.GV_PageDepth - cfg.GV_PageMarginTop)
    (hroom : cfg.GV_PageMarginBottom + 1 < cfg.GV_PageDepth - cfg.GV_PageMarginTop) :
    process_line fuel cfg s ('1' :: payload) =
      some (show_payload cfg (cstr payload) (read_line s ('1' :: payload))) := by
  rw [asa_line_no_overflow hasa (by decide) (by rw [htop]; exact not_le.mpr hroom),
    asa_switch_one_at_top _ _ _ (by
      show ¬ s.GV_PDFPageYPosition < _
      rw [htop]; exact lt_irrefl _),
    Option.map_some', cstr_drop_after_read]

/-- The line `'0' :: payload` read with the cursor above `GV_PageMarginBottom + 1`:
an empty show-text, then the payload, and no page function is called. -/
theorem zero_line_no_overflow {fuel : Nat} {cfg : Config} {s : State} {payload : Bytes}
    (hasa : cfg.GV_IsASA = true)
    (hy : ¬ s.GV_PDFPageYPosition ≤ cfg.GV_PageMarginBottom + 1) :
    process_line fuel cfg s ('0' :: payload) =
      some (show_payload cfg (cstr payload)
        { emit "T*()Tj\n".toList (read_line s ('0' :: payload)) with
          GV_PDFPageYPosition := s.GV_PDFPageYPosition - GV_StandardLineSize cfg,
          GV_CurrentLineCount := s.GV_CurrentLineCount + 1 + 1 }) := by
  rw [asa_line_no_overflow hasa (by decide) hy, asa_switch_zero, Option.map_some']
  congr 2
  exact cstr_drop_after_read s '0' payload

/-- C8 (as amended): in ASA mode the handler of control code `1` does nothing when
the cursor is at top-of-page; and when top-of-page lies above the overflow
threshold `GV_PageMarginBottom + 1`, a whole line `1payload` read with the cursor
at top-of-page only shows its payload: no page is closed or opened.  In particular
the first line of a document, read right after the first `start_pdf_page`, is
shown on page 1 with no finished page before it. -/
theorem one_at_top_breaks_no_page (fuel : Nat) (cfg : Config) (s : State) (payload : Bytes)
    (hasa : cfg.GV_IsASA = true)
    (htop : s.GV_PDFPageYPosition = cfg.GV_PageDepth - cfg.GV_PageMarginTop)
    (hroom : cfg.GV_PageMarginBottom + 1 < cfg.GV_PageDepth - cfg.GV_PageMarginTop) :
    asa_switch fuel cfg '1' s = some s ∧
    process_line fuel cfg s ('1' :: payload) =
      some (show_payload cfg (cstr payload) (read_line s ('1' :: payload))) ∧
    (show_payload cfg (cstr payload) (read_line s ('1' :: payload))).GV_PDFNumberOfPages
      = s.GV_PDFNumberOfPages ∧
    (show_payload cfg (cstr payload) (read_line s ('1' :: payload))).GV_CurrentPageCount
      = s.GV_CurrentPageCount ∧
    (show_payload cfg (cstr payload) (read_line s ('1' :: payload))).GV_PDFObjectId
      = s.GV_PDFObjectId ∧
    ∀ (stack : Bytes) (rest : List Bytes) (t0 : State),
      start_pdf_page fuel cfg (doc_start cfg stack) = some t0 →
        run_lines fuel cfg t0 (('1' :: payload) :: rest) =
          run_lines fuel cfg (show_payload cfg (cstr payload) (read_line t0 ('1' :: payload)))
            rest ∧
        (read_line t0 ('1' :: payload)).GV_CurrentPageCount = 1 ∧
        (read_line t0 ('1' :: payload)).GV_PDFNumberOfPages = 0 := by
  have hf := frame_show_payload cfg (cstr payload) (read_line s ('1' :: payload))
  refine ⟨asa_switch_one_at_top _ _ _ (by rw [htop]; exact lt_irrefl _),
    one_line_at_top hasa htop hroom, hf.npages, hf.cpc, hf.objid, ?_⟩
  intro stack rest t0 h0
  obtain ⟨y0, c0, n0, _⟩ := start_pdf_page_fields h0
  refine ⟨?_, ?_, ?_⟩
  · rw [run_lines, one_line_at_top hasa y0 hroom, Option.some_bind]
  · show t0.GV_CurrentPageCount = 1
    rw [c0]; rfl
  · show t0.GV_PDFNumberOfPages = 0
    rw [n0]; rfl

/-- C8, counterexample: in the layout `flat_config` (ASA mode) the first line `1x`
of a document is read with the cursor at top-of-page, yet processing it closes a
page and opens one (one finished page, current page 2), and the one-line document
has two pages. -/
theorem one_at_top_breaks_page_in_flat_layout :
    flat_config.GV_IsASA = true ∧
    (start_pdf_page 40 flat_config (doc_start flat_config [])).map
        (fun t => t.GV_PDFPageYPosition)
      = some (flat_config.GV_PageDepth - flat_config.GV_PageMarginTop) ∧
    ((start_pdf_page 40 flat_config (doc_start flat_config [])).bind
        (fun t0 => process_line 40 flat_config t0 "1x".toList)).map
        (fun t => (t.GV_PDFNumberOfPages, t.GV_CurrentPageCount))
      = some (1, 2) ∧
    (do_process_pages 40 flat_config [] ["1x".toList]).map (fun s => s.GV_PDFNumberOfPages)
      = some 2 := by
  decide!

theorem one_at_top_breaks_no_page_witness :
    (default_config fmt_fixed6 fmt_fixed6).GV_IsASA = true ∧
    top_state.GV_PDFPageYPosition = (default_config fmt_fixed6 fmt_fixed6).GV_PageDepth
      - (default_config fmt_fixed6 fmt_fixed6).GV_PageMarginTop ∧
    (default_config fmt_fixed6 fmt_fixed6).GV_PageMarginBottom + 1
      < (default_config fmt_fixed6 fmt_fixed6).GV_PageDepth
        - (default_config fmt_fixed6 fmt_fixed6).GV_PageMarginTop ∧
    process_line 20 (default_config fmt_fixed6 fmt_fixed6) top_state "1Hello".toList =
      some (show_payload (default_config fmt_fixed6 fmt_fixed6) (cstr "Hello".toList)
        (read_line top_state "1Hello".toList)) :=
  ⟨rfl, by decide!, by decide!,
    (one_at_top_breaks_no_page 20 (default_config fmt_fixed6 fmt_fixed6) top_state
      "Hello".toList rfl (by decide!) (by decide!)).2.1⟩

/-- The ASA input `1Hello`, `0World` under the default layout: the line loop breaks
no page. -/
theorem hello_world_no_break {fuel : Nat} {cfg : Config} {t0 v : State}
    (hl : DefaultLayout cfg)
    (hy : t0.GV_PDFPageYPosition = cfg.GV_PageDepth - cfg.GV_PageMarginTop)
    (hv : run_lines fuel cfg t0 ["1Hello".toList, "0World".toList] = some v) :
    v.GV_PDFNumberOfPages = t0.GV_PDFNumberOfPages := by
  have hroom : cfg.GV_PageMarginBottom + 1 < cfg.GV_PageDepth - cfg.GV_PageMarginTop := by
    rw [hl.bottom, hl.depth, hl.top]; norm_num
  have h1 := @one_line_at_top fuel _ _ "Hello".toList hl.asa hy hroom
  have e1 : "1Hello".toList = '1' :: "Hello".toList := rfl
  have e2 : "0World".toList = '0' :: "World".toList := rfl
  rw [run_lines, e1, h1, Option.some_bind, run_lines, e2] at hv
  have hy2 : ¬ (show_payload cfg (cstr "Hello".toList)
      (read_line t0 ('1' :: "Hello".toList))).GV_PDFPageYPosition
        ≤ cfg.GV_PageMarginBottom + 1 := by
    rw [show_payload_ypos, hl.line_size, hl.bottom]
    show ¬ t0.GV_PDFPageYPosition - 9 ≤ _
    rw [hy, hl.depth, hl.top]; norm_num
  rw [zero_line_no_overflow hl.asa hy2, Option.some_bind, run_lines] at hv
  obtain rfl := Option.some.inj hv
  rw [(frame_show_payload _ _ _).npages]
  show (show_payload cfg (cstr "Hello".toList)
    (read_line t0 ('1' :: "Hello".toList))).GV_PDFNumberOfPages = _
  rw [(frame_show_payload _ _ _).npages]
  rfl

/-- C9: the run completes when the band depth is positive and the iteration budget is at
least `pagebars_fuel`; a completed run with `P` pages has written exactly the objects
`1 … 3P+4` (each once; the next free id is `3P+5`): the page tree is object 1; the
`k`-th page (`1 ≤ k ≤ P`) has content stream `3k-1`, length object `3k` and page
object `3k+1`; the two fonts are `3P+2` and `3P+3`; the catalog is `3P+4`. For the ASA
input `1Hello`, `0World` under the default layout `P = 1` and 7 objects are written. -/
theorem objects_are_one_to_three_p_plus_four (fuel : Nat) (cfg : Config) (stack : Bytes)
    (input : List Bytes) :
    (0 < pagebars_height cfg → pagebars_fuel cfg ≤ fuel →
      ∃ final, do_process_pages fuel cfg stack input = some final) ∧
    ∀ final, do_process_pages fuel cfg stack input = some final →
      final.GV_PDFObjectId = 3 * final.GV_PDFNumberOfPages + 5 ∧
      final.started.Perm (List.range' 1 (3 * final.GV_PDFNumberOfPages + 4)) ∧
      ObjAt final 1 (tree_head final.GV_PDFNumberOfPages final.GV_PAGE_LIST) ∧
      (∀ k, 1 ≤ k → k ≤ final.GV_PDFNumberOfPages →
        PageAt final 1 (3 * k - 1) (3 * k) (3 * k + 1)) ∧
      ObjAt final (3 * final.GV_PDFNumberOfPages + 2) (font_obj cfg.GV_BodyFontName) ∧
      ObjAt final (3 * final.GV_PDFNumberOfPages + 3) (font_obj cfg.GV_HeadingFontName) ∧
      ObjAt final (3 * final.GV_PDFNumberOfPages + 4) (catalog_obj 1) ∧
      (DefaultLayout cfg → input = ["1Hello".toList, "0World".toList] →
        final.GV_PDFNumberOfPages = 1 ∧ final.GV_PDFObjectId - 1 = 7) := by
  refine ⟨fun hh hf => do_process_pages_total hh hf stack input, ?_⟩
  intro final h
  obtain ⟨P, c, s, u, hu, hcl, _, inv, rfl⟩ := do_process_pages_parts h
  have hx : Ext s (emit (xref_section s.GV_PDFObjectId (xref_of s)
      ++ trailer_text s.GV_PDFObjectId c s.out.length) s) := Ext.of_eq ⟨_, rfl⟩ rfl rfl
  have hn : (emit (xref_section s.GV_PDFObjectId (xref_of s)
      ++ trailer_text s.GV_PDFObjectId c s.out.length) s).GV_PDFNumberOfPages = P := inv.npages
  rw [hn]
  have mem : ∀ i, 1 ≤ i → i ≤ 3 * P + 4 → i ∈ s.started := by
    intro i h1 h2
    rw [inv.started]
    simp only [List.mem_append, List.mem_range'_1, List.mem_cons, List.mem_singleton,
      List.mem_nil_iff, or_false]
    omega
  refine ⟨inv.objid, ?_, ?_, ?_, ?_, ?_, ?_, ?_⟩
  · show s.started.Perm _
    rw [inv.started]
    exact range'_two_perm (3 * P + 2) 1 (3 * P + 4) rfl (by omega)
  · have ht : ObjAt s 1 (tree_head P ((List.range P).map (fun j => 3 * j + 4))) := by
      obtain ⟨pre, post, ho, a⟩ := inv.treeobj
      exact ⟨pre, tree_rest cfg (3 * P + 2) (3 * P + 3) ++ post,
        by rw [ho]; simp only [List.append_assoc], a⟩
    show ObjAt _ 1 (tree_head P s.GV_PAGE_LIST)
    rw [inv.plist]
    exact ht.carry_obj hx (mem 1 (by omega) (by omega))
  · intro k h1 h2
    have e1 : 3 * k - 1 = 3 * (k - 1) + 2 := by omega
    have e2 : 3 * k = 3 * (k - 1) + 3 := by omega
    have e3 : 3 * k + 1 = 3 * (k - 1) + 4 := by omega
    rw [e3, e1, e2]
    exact (inv.pages (k - 1) (by omega)).carry hx (mem _ (by omega) (by omega))
      (mem _ (by omega) (by omega)) (mem _ (by omega) (by omega))
  · exact inv.font0.carry_obj hx (mem _ (by omega) (by omega))
  · exact inv.font1.carry_obj hx (mem _ (by omega) (by omega))
  · exact inv.catobj.carry_obj hx (mem _ (by omega) (by omega))
  · intro hl hin
    subst hin
    obtain ⟨t0, v, h0, hv, rfl⟩ := do_text_translation_parts hu
    obtain ⟨y0, _, n0, _⟩ := start_pdf_page_fields h0
    have h1 := hello_world_no_break hl y0 hv
    have h2 : (end_pdf_page v).GV_PDFNumberOfPages = P := hcl.npages
    rw [(end_pdf_page_fields v).2.2, h1, n0] at h2
    have hP : P = 1 := by
      rw [← h2]; rfl
    refine ⟨hP, ?_⟩
    show s.GV_PDFObjectId - 1 = 7
    rw [inv.objid, hP]

theorem objects_are_one_to_three_p_plus_four_witness :
    ∃ final, do_process_pages 25 (default_config fmt_fixed6 fmt_fixed6) []
        ["1Hello".toList, "0World".toList] = some final ∧
      final.GV_PDFNumberOfPages = 1 ∧ final.GV_PDFObjectId - 1 = 7 ∧
      final.started.Perm (List.range' 1 7) := by
  obtain ⟨final, hf⟩ := exists_of_isSome
    (x := do_process_pages 25 (default_config fmt_fixed6 fmt_fixed6) []
      ["1Hello".toList, "0World".toList]) (by decide!)
  have hh := (objects_are_one_to_three_p_plus_four 25 (default_config fmt_fixed6 fmt_fixed6) []
    ["1Hello".toList, "0World".toList]).2 final hf
  obtain ⟨hp, ho⟩ := hh.2.2.2.2.2.2.2 (default_config_layout _ _) rfl
  have hperm := hh.2.1
  rw [hp] at hperm
  exact ⟨final, hf, hp, ho, hperm⟩

theorem print_pdf_string_bytes (cfg : Config) (buffer : Bytes) (s : State) :
    print_pdf_string cfg buffer s =
      emit (pdf_string_bytes cfg s.GV_IsPrintLineNumbers s.GV_CurrentLineCount
        s.GV_CURRENT_COLOR s.GV_IsExtendedASCII buffer) s := by
  unfold print_pdf_string pdf_string_bytes
  by_cases hpl : s.GV_IsPrintLineNumbers = true
  · rw [if_pos hpl, if_pos hpl, emit_emit]
    rfl
  · rw [if_neg hpl, if_neg hpl]
    by_cases h2 : s.GV_CURRENT_COLOR.r ≠ cfg.GV_FONT_COLOR.r ∨
        s.GV_CURRENT_COLOR.g ≠ cfg.GV_FONT_COLOR.g ∨
        s.GV_CURRENT_COLOR.b ≠ cfg.GV_FONT_COLOR.b
    · rw [if_pos h2, if_pos h2, emit_emit]
      rfl
    · rw [if_neg h2, if_neg h2]
      rfl

theorem scan_switch_ordinary (fuel : Nat) (cfg : Config) (c next : Char) (s : State)
    (h : Ordinary c) :
    scan_switch fuel cfg c next s = some { s with buffer2 := s.buffer2 ++ [c] } := by
  unfold scan_switch
  rw [if_neg h.1, if_neg h.2.1, if_neg h.2.2]

theorem scan_switch_formfeed_at_top (fuel : Nat) (cfg : Config) (next : Char) (s : State)
    (h : ¬ s.GV_PDFPageYPosition < cfg.GV_PageDepth - cfg.GV_PageMarginTop) :
    scan_switch fuel cfg '\x0c' next s = some s := by
  unfold scan_switch
  rw [if_pos rfl, if_neg h]

theorem scan_switch_nul (fuel : Nat) (cfg : Config) (next : Char) (s : State) :
    scan_switch fuel cfg '\x00' next s = some (flush_buffer2 cfg s) := by
  unfold scan_switch
  rw [if_neg (by decide), if_neg (by decide), if_pos rfl]

theorem getD_middle (pre post : Bytes) (c : Char) :
    (pre ++ c :: post).getD pre.length '\x00' = c := by
  induction pre with
  | nil => rfl
  | cons a pre ih => simpa using ih

/-- Scanning a run `cs` of ordinary characters that sits in `buffer1` at index `i`
only appends it to `buffer2`. -/
theorem scan_loop_ordinary (fuel : Nat) (cfg : Config) :
    ∀ (cs pre post : Bytes) (n : Nat) (s : State), (∀ c ∈ cs, Ordinary c) →
      s.buffer1 = pre ++ (cs ++ post) →
      scan_loop fuel cfg (cs.length + n) pre.length s =
        scan_loop fuel cfg n (pre.length + cs.length)
          { s with buffer2 := s.buffer2 ++ cs } := by
  intro cs
  induction cs with
  | nil =>
    intro pre post n s _ _
    simp
  | cons c cs ih =>
    intro pre post n s hord hb
    have e : (c :: cs).length + n = (cs.length + n) + 1 := by
      simp only [List.length_cons]; omega
    rw [e, scan_loop, scan_char]
    have hg : s.buffer1.getD pre.length '\x00' = c := by
      rw [hb]; exact getD_middle pre (cs ++ post) c
    rw [hg, scan_switch_ordinary _ _ _ _ _ (hord c (List.mem_cons_self _ _)), Option.some_bind]
    have hb' : ({ s with buffer2 := s.buffer2 ++ [c] } : State).buffer1
        = (pre ++ [c]) ++ (cs ++ post) := by
      show s.buffer1 = _
      rw [hb]; simp
    have := ih (pre ++ [c]) post n { s with buffer2 := s.buffer2 ++ [c] }
      (fun x hx => hord x (List.mem_cons_of_mem _ hx)) hb'
    simp only [List.length_append, List.length_singleton] at this
    rw [this]
    simp only [List.length_cons, List.append_assoc, List.singleton_append]
    congr 1
    omega

/-- Scanning NUL bytes with `buffer2` empty and the cursor at top-of-page only
decrements the line counter. -/
theorem scan_loop_nuls (fuel : Nat) (cfg : Config) :
    ∀ (n i : Nat) (s : State), (∀ j, i ≤ j → s.buffer1.getD j '\x00' = '\x00') →
      s.buffer2 = [] →
      ¬ s.GV_PDFPageYPosition < cfg.GV_PageDepth - cfg.GV_PageMarginTop →
      scan_loop fuel cfg n i s =
        some { s with GV_CurrentLineCount := s.GV_CurrentLineCount - (n : Int),
                      buffer2 := [] } := by
  intro n
  induction n with
  | zero =>
    intro i s _ hb2 _
    rw [scan_loop]
    congr 1
    cases s
    simp only [State.mk.injEq, true_and, and_true] at hb2 ⊢
    simp_all
  | succ n ih =>
    intro i s hz hb2 hy
    rw [scan_loop, scan_char, hz i (Nat.le_refl i), scan_switch_nul, Option.some_bind]
    have hf : flush_buffer2 cfg s =
        { s with GV_CurrentLineCount := s.GV_CurrentLineCount - 1, buffer2 := [] } := by
      unfold flush_buffer2 adjust_pdf_ypos
      rw [if_neg (by simp [hb2]), if_neg hy]
    rw [hf, ih (i + 1)
      { s with GV_CurrentLineCount := s.GV_CurrentLineCount - 1, buffer2 := [] }
      (fun j hj => hz j (by omega)) rfl hy]
    congr 1
    simp only [State.mk.injEq, true_and, and_true]
    push_cast
    ring

theorem getD_all_nul (l : Bytes) (j : Nat) (h : ∀ c ∈ l, c = '\x00') :
    l.getD j '\x00' = '\x00' := by
  rw [List.getD_eq_getElem?_getD]
  cases hj : l[j]? with
  | none => rfl
  | some c => exact h c (List.getElem?_mem hj)

/-- Behind a line read into a buffer of NUL bytes there are only NUL bytes. -/
theorem getD_after_line (line stack : Bytes) (j : Nat) (h : ∀ c ∈ stack, c = '\x00')
    (hj : line.length ≤ j) : (gets_s line stack).getD j '\x00' = '\x00' := by
  unfold gets_s
  rw [List.getD_append_right _ _ _ _ hj]
  exact getD_all_nul _ _ (by
    intro c hc
    rcases List.mem_cons.mp hc with rfl | hc
    · rfl
    · exact h c (List.mem_of_mem_drop hc))

theorem flush_buffer2_nonempty (cfg : Config) (s : State) (h : s.buffer2 ≠ []) :
    flush_buffer2 cfg s =
      { emit ("T*".toList ++ (pdf_string_bytes cfg s.GV_IsPrintLineNumbers s.GV_CurrentLineCount
          s.GV_CURRENT_COLOR s.GV_IsExtendedASCII s.buffer2 ++ "Tj\n".toList)) s with
        buffer2 := [] } := by
  unfold flush_buffer2
  rw [if_pos h, print_pdf_string_bytes, emit_emit, emit_emit]
  rfl

theorem line_tail_out_noreset (cfg : Config) (s : State) (h : s.bResetColor = false) :
    (line_tail cfg s).out = s.out := by
  unfold line_tail
  simp [h]

/-- A free-form line `X ++ [form-feed] ++ Y` read into a buffer of NUL bytes with the
cursor at top-of-page: the form-feed breaks no page and flushes nothing; `X ++ Y`
is shown by one show-text operation when the terminator is reached. -/
theorem formfeed_line_at_top {fuel : Nat} {cfg : Config} {s : State} {X Y : Bytes}
    (hfree : cfg.GV_IsASA = false) (hX : X ≠ []) (hXo : ∀ c ∈ X, Ordinary c)
    (hYo : ∀ c ∈ Y, Ordinary c) (hlen : X.length + 1 + Y.length ≤ 4095)
    (hz : ∀ c ∈ s.buffer1, c = '\x00')
    (hy : s.GV_PDFPageYPosition = cfg.GV_PageDepth - cfg.GV_PageMarginTop) :
    ∃ t, process_line fuel cfg s (X ++ '\x0c' :: Y) = some t ∧
      t.out = s.out ++ ("T*".toList ++ (pdf_string_bytes cfg s.GV_IsPrintLineNumbers
        (s.GV_CurrentLineCount + 1) s.GV_CURRENT_COLOR false (X ++ Y) ++ "Tj\n".toList)) ∧
      t.GV_PDFNumberOfPages = s.GV_PDFNumberOfPages ∧
      t.GV_CurrentPageCount = s.GV_CurrentPageCount ∧
      t.GV_PDFObjectId = s.GV_PDFObjectId := by
  let line := X ++ '\x0c' :: Y
  let s0 := read_line s line
  have hb0 : s0.buffer1 = line ++ '\x00' :: s.buffer1.drop (line.length + 1) := rfl
  -- overflow test and branch selection
  have hov : overflow_break fuel cfg s0 = some s0 := by
    unfold overflow_break
    rw [if_neg]
    rintro ⟨_, _, h3, _⟩
    rw [hfree] at h3
    exact Bool.false_ne_true h3
  obtain ⟨x, X', rfl⟩ := List.exists_cons_of_ne_nil hX
  have hx : Ordinary x := hXo x (List.mem_cons_self _ _)
  have hstr : (cstr s0.buffer1).length ≠ 0 := by
    rw [hb0]
    show (cstr ((x :: X' ++ '\x0c' :: Y) ++ _)).length ≠ 0
    unfold cstr
    simp [List.takeWhile_cons, hx.2.2]
  have hbody : line_body fuel cfg s0 = freeform_line fuel cfg s0 := by
    unfold line_body
    rw [if_neg hstr, if_pos hfree]
  -- the scanner
  let s1 : State := { s0 with buffer2 := [] }
  have hb1 : s1.buffer1 = [] ++ ((x :: X') ++ ('\x0c' :: (Y ++ '\x00' ::
      s.buffer1.drop (line.length + 1)))) := by
    show s0.buffer1 = _
    rw [hb0]
    simp [line]
  have htop : ∀ u : State, u.GV_PDFPageYPosition = s.GV_PDFPageYPosition →
      ¬ u.GV_PDFPageYPosition < cfg.GV_PageDepth - cfg.GV_PageMarginTop := by
    intro u hu
    rw [hu, hy]
    exact lt_irrefl _
  obtain ⟨k, e4096⟩ : ∃ k : Nat, 4096 = (x :: X').length + ((Y.length + (k + 1)) + 1) := by
    refine ⟨4096 - (x :: X').length - Y.length - 2, ?_⟩
    simp only [List.length_cons] at hlen ⊢
    omega
  have hscan1 := scan_loop_ordinary fuel cfg (x :: X') [] ('\x0c' :: (Y ++ '\x00' ::
      s.buffer1.drop (line.length + 1)))
      ((Y.length + (k + 1)) + 1) s1 hXo hb1
  let s2 : State := { s1 with buffer2 := s1.buffer2 ++ (x :: X') }
  have hb2 : s2.buffer1 = ((x :: X') ++ ['\x0c']) ++ (Y ++ ('\x00' ::
      s.buffer1.drop (line.length + 1))) := by
    show s0.buffer1 = _
    rw [hb0]
    simp [line]
  have hff : s2.buffer1.getD (x :: X').length '\x00' = '\x0c' := by
    show s0.buffer1.getD _ _ = _
    rw [hb0]
    show ((x :: X') ++ '\x0c' :: Y ++ _).getD _ _ = _
    rw [List.append_assoc, List.cons_append]
    exact getD_middle _ _ _
  have hscan2 := scan_loop_ordinary fuel cfg Y ((x :: X') ++ ['\x0c']) ('\x00' ::
      s.buffer1.drop (line.length + 1)) (k + 1) s2
      hYo hb2
  let s3 : State := { s2 with buffer2 := s2.buffer2 ++ Y }
  have hnul : s3.buffer1.getD (((x :: X') ++ ['\x0c']).length + Y.length) '\x00' = '\x00' := by
    show s0.buffer1.getD _ _ = _
    rw [hb0]
    exact getD_after_line line s.buffer1 _ hz (by simp [line]; omega)
  have hne3 : s3.buffer2 ≠ [] := by
    show ([] ++ (x :: X')) ++ Y ≠ []
    simp
  have hfl := flush_buffer2_nonempty cfg s3 hne3
  let s4 := flush_buffer2 cfg s3
  have hz4 : ∀ j, ((x :: X') ++ ['\x0c']).length + Y.length + 1 ≤ j →
      s4.buffer1.getD j '\x00' = '\x00' := by
    intro j hj
    show (flush_buffer2 cfg s3).buffer1.getD j '\x00' = '\x00'
    rw [hfl]
    show s0.buffer1.getD j '\x00' = '\x00'
    rw [hb0]
    refine getD_after_line line s.buffer1 j hz ?_
    simp only [List.length_append, List.length_cons, List.length_nil, line] at hj ⊢
    omega
  have hb4 : s4.buffer2 = [] := by
    show (flush_buffer2 cfg s3).buffer2 = []
    rw [hfl]
  have hy4 : ¬ s4.GV_PDFPageYPosition < cfg.GV_PageDepth - cfg.GV_PageMarginTop := by
    refine htop s4 ?_
    show (flush_buffer2 cfg s3).GV_PDFPageYPosition = _
    rw [hfl]
    rfl
  have hscan3 := scan_loop_nuls fuel cfg k
    (((x :: X') ++ ['\x0c']).length + Y.length + 1) s4 hz4 hb4 hy4
  let s5 : State :=
    { s4 with GV_CurrentLineCount := s4.GV_CurrentLineCount - (k : Int), buffer2 := [] }
  have hfree_line : freeform_line fuel cfg s0 = some s5 := by
    unfold freeform_line
    show scan_loop fuel cfg 4096 ([] : Bytes).length s1 = _
    rw [e4096, hscan1, scan_loop, scan_char]
    simp only [List.length_nil, Nat.zero_add]
    rw [hff, scan_switch_formfeed_at_top _ _ _ _ (htop s2 rfl), Option.some_bind]
    have e1 : (x :: X').length + 1 = ((x :: X') ++ ['\x0c']).length := by simp
    rw [e1, hscan2, scan_loop, scan_char, hnul, scan_switch_nul, Option.some_bind]
    exact hscan3
  refine ⟨line_tail cfg s5, ?_, ?_, ?_, ?_, ?_⟩
  · rw [process_line_eq]
    show ((overflow_break fuel cfg s0).bind (line_body fuel cfg)).map (line_tail cfg) = _
    rw [hov, Option.some_bind, hbody, hfree_line, Option.map_some']
  · have hr : s5.bResetColor = false := by
      show (flush_buffer2 cfg s3).bResetColor = false
      rw [hfl]
      rfl
    have ho : (line_tail cfg s5).out = s4.out := line_tail_out_noreset cfg s5 hr
    rw [ho]
    show (flush_buffer2 cfg s3).out = _
    rw [hfl]
    show s.out ++ _ = _
    simp [s3, s2, s1, s0, read_line]
  · rw [((Frame.same s5).line_tail cfg).npages]
    show (flush_buffer2 cfg s3).GV_PDFNumberOfPages = _
    rw [hfl]
    rfl
  · rw [((Frame.same s5).line_tail cfg).cpc]
    show (flush_buffer2 cfg s3).GV_CurrentPageCount = _
    rw [hfl]
    rfl
  · rw [((Frame.same s5).line_tail cfg).objid]
    show (flush_buffer2 cfg s3).GV_PDFObjectId = _
    rw [hfl]
    rfl

theorem start_pdf_object_out (id : Nat) (s : State) :
    (start_pdf_object id s).out = s.out ++ obj_header id := (startObj id s).out

/-- What `end_pdf_page` appends begins with the end-text marker and the stream
trailer. -/
theorem end_pdf_page_out (s : State) :
    ∃ rest, (end_pdf_page s).out = s.out ++ ("ET\n".toList ++ (stream_end ++ rest)) := by
  refine ⟨obj_header s.GV_PDFStreamLengthId
    ++ (length_obj ((s.out ++ "ET\n".toList).length - s.GV_PDFStreamStart)
    ++ (obj_header s.GV_PDFObjectId ++ page_obj s.GV_PDFPageTreeId s.GV_PDFStreamId)), ?_⟩
  let s4 : State := emit stream_end
    (emit "ET\n".toList (store_pdf_page s.GV_PDFObjectId (next_object_id s).2))
  have st5 := startObj s.GV_PDFStreamLengthId s4
  let s5 := start_pdf_object s.GV_PDFStreamLengthId s4
  let s6 := emit (length_obj ((s.out ++ "ET\n".toList).length - s.GV_PDFStreamStart)) s5
  have st7 := startObj s.GV_PDFObjectId s6
  let s7 := start_pdf_object s.GV_PDFObjectId s6
  have hend : end_pdf_page s = emit (page_obj s7.GV_PDFPageTreeId s7.GV_PDFStreamId) s7 := rfl
  rw [hend]
  show s7.out ++ page_obj s7.GV_PDFPageTreeId s7.GV_PDFStreamId = _
  have e7 : s7.out = s6.out ++ obj_header s.GV_PDFObjectId := st7.out
  have e6 : s6.out = s5.out ++ length_obj ((s.out ++ "ET\n".toList).length
      - s.GV_PDFStreamStart) := rfl
  have e5 : s5.out = s4.out ++ obj_header s.GV_PDFStreamLengthId := st5.out
  have e4 : s4.out = (s.out ++ "ET\n".toList) ++ stream_end := rfl
  have t7 : s7.GV_PDFPageTreeId = s.GV_PDFPageTreeId := st7.tree.trans st5.tree
  have i7 : s7.GV_PDFStreamId = s.GV_PDFStreamId := st7.sid.trans st5.sid
  rw [e7, e6, e5, e4, t7, i7]
  simp only [List.append_assoc]

/-- The fonts, page tree and catalog are appended to the output. -/
theorem objects_tail_out (cfg : Config) (s : State) :
    ∃ bs, (objects_tail cfg s).2.out = s.out ++ bs := by
  unfold objects_tail
  simp only [next_object_id, emit, start_pdf_object_out, List.append_assoc]
  exact ⟨_, rfl⟩

/-- C10, counterexample: in free-form mode with the defaults of `main`, the
one-line input `first`, form-feed, `second` (both parts non-empty, without
form-feed or carriage-return) gives a document of one page, not two. -/
theorem formfeed_in_single_line_gives_one_page :
    freeform_config.GV_IsASA = false ∧
    (do_process_pages 40 freeform_config [] ["first\x0csecond".toList]).map
      (fun s => s.GV_PDFNumberOfPages) = some 1 :=
  ⟨rfl, by decide!⟩

/-- C10 (as amended): in free-form mode, for an input consisting of the single line `X ++
[form-feed] ++ Y` (`X` non-empty, `X` and `Y` without form-feed, carriage-return or
NUL, the line fitting the 4096-byte buffer, which starts zero-filled), the form-feed
is scanned with the cursor at top-of-page and breaks no page: the run completes when
the band depth is positive and the iteration budget is at least `pagebars_fuel`, a
completed run has exactly one page, and between the opening of that page's stream
(object 2) and its end-text marker the only text written is one show-text operation
carrying `X ++ Y`. -/
theorem formfeed_in_single_line_breaks_no_page (fuel : Nat) (cfg : Config) (stack : Bytes)
    (X Y : Bytes)
    (hfree : cfg.GV_IsASA = false) (hX : X ≠ []) (hXo : ∀ c ∈ X, Ordinary c)
    (hYo : ∀ c ∈ Y, Ordinary c) (hlen : X.length + 1 + Y.length ≤ 4095)
    (hz : ∀ c ∈ stack, c = '\x00') :
    (0 < pagebars_height cfg → pagebars_fuel cfg ≤ fuel →
      ∃ final, do_process_pages fuel cfg stack [X ++ '\x0c' :: Y] = some final) ∧
    ∀ final, do_process_pages fuel cfg stack [X ++ '\x0c' :: Y] = some final →
      final.GV_PDFNumberOfPages = 1 ∧
      ∃ t0 rest, start_pdf_page fuel cfg (doc_start cfg stack) = some t0 ∧
        t0.GV_PDFStreamId = 2 ∧
        final.out = t0.out ++ (("T*".toList ++ (pdf_string_bytes cfg t0.GV_IsPrintLineNumbers
            (t0.GV_CurrentLineCount + 1) t0.GV_CURRENT_COLOR false (X ++ Y) ++ "Tj\n".toList))
          ++ ("ET\n".toList ++ (stream_end ++ rest))) := by
  refine ⟨fun hh hf => do_process_pages_total hh hf stack [X ++ '\x0c' :: Y], ?_⟩
  intro final h
  obtain ⟨P, c, s, u, hu, hcl, hobj, inv, rfl⟩ := do_process_pages_parts h
  obtain ⟨t0, v, h0, hv, rfl⟩ := do_text_translation_parts hu
  obtain ⟨y0, _, n0, _, _, _, _, _, b0, _, _⟩ := start_pdf_page_fields h0
  have hz0 : ∀ c ∈ t0.buffer1, c = '\x00' := by
    rw [b0]
    exact hz
  obtain ⟨t, ht, hout, hnp, _, _⟩ :=
    @formfeed_line_at_top fuel _ _ _ _ hfree hX hXo hYo hlen hz0 y0
  rw [run_lines, ht, Option.some_bind, run_lines] at hv
  obtain rfl := Option.some.inj hv
  have hopen := (closedInv_init cfg stack).start_page h0
  have hP : P = 1 := by
    have h2 : (end_pdf_page t).GV_PDFNumberOfPages = P := hcl.npages
    rw [(end_pdf_page_fields t).2.2, hnp, n0] at h2
    rw [← h2]
    rfl
  have hn : (emit (xref_section s.GV_PDFObjectId (xref_of s)
      ++ trailer_text s.GV_PDFObjectId c s.out.length) s).GV_PDFNumberOfPages = P := inv.npages
  refine ⟨hn.trans hP, t0, ?_⟩
  rw [do_process_pages_objects_start, hu, Option.map_some'] at hobj
  have hs : s = (objects_tail cfg (end_pdf_page t)).2 := by
    rw [Option.some.inj hobj]
  obtain ⟨bs, hbs⟩ := objects_tail_out cfg (end_pdf_page t)
  obtain ⟨rest, hrest⟩ := end_pdf_page_out t
  refine ⟨rest ++ (bs ++ (xref_section s.GV_PDFObjectId (xref_of s)
      ++ trailer_text s.GV_PDFObjectId c s.out.length)), h0, hopen.sid, ?_⟩
  show s.out ++ _ = _
  rw [hs, hbs, hrest, hout]
  simp only [List.append_assoc]

theorem formfeed_in_single_line_breaks_no_page_witness :
    ∃ final, do_process_pages 32 freeform_config [] ["ab".toList ++ '\x0c' :: "cd".toList]
        = some final ∧ final.GV_PDFNumberOfPages = 1 := by
  have hc := formfeed_in_single_line_breaks_no_page 32 freeform_config []
    "ab".toList "cd".toList rfl (by decide) (by decide) (by decide) (by decide) (by simp)
  obtain ⟨final, hf⟩ := hc.1 (by decide!) (by decide!)
  exact ⟨final, hf, (hc.2 final hf).1⟩

theorem adjust_pdf_ypos_fields (cfg : Config) (m : ℚ) (s : State) :
    (adjust_pdf_ypos cfg m s).GV_CURRENT_COLOR = s.GV_CURRENT_COLOR ∧
    (adjust_pdf_ypos cfg m s).bResetColor = s.bResetColor ∧
    (adjust_pdf_ypos cfg m s).out = s.out ∧
    (adjust_pdf_ypos cfg m s).GV_CurrentLineCount = s.GV_CurrentLineCount := by
  unfold adjust_pdf_ypos
  split <;> exact ⟨rfl, rfl, rfl, rfl⟩

/-- Each of the codes `R`, `G`, `B` leaves blue as the current colour. -/
theorem asa_switch_upper_colour (fuel : Nat) (cfg : Config) (s : State) (c : Char)
    (hc : c = 'R' ∨ c = 'G' ∨ c = 'B') :
    (asa_switch fuel cfg c s).map (fun t => t.GV_CURRENT_COLOR)
      = some (colorConverter 0x0000FF) := by
  have h : ∃ u : State, u.GV_CURRENT_COLOR = colorConverter 0x0000FF ∧ ∃ d : Int,
      asa_switch fuel cfg c s
        = some { adjust_pdf_ypos cfg 1 u with GV_CurrentLineCount := d } := by
    rcases hc with rfl | rfl | rfl <;> exact ⟨_, rfl, _, rfl⟩
  obtain ⟨u, hu, d, h⟩ := h
  rw [h]
  show some (adjust_pdf_ypos cfg 1 u).GV_CURRENT_COLOR = _
  rw [(adjust_pdf_ypos_fields cfg 1 u).1, hu]

/-- C11, evaluation of the code: the inner `switch` of the cases `R`, `G`, `B` has no
`break`, so each of the three codes ends with the assignment of blue; the inner
`switch` of the cases `r`, `g`, `b` has the labels `R`, `g`, `b`, so `g` and `b` end
with blue and `r` assigns no colour.  Blue is `(0, 0, 1)`.  As the first line of a
document in the default configuration, `Rtext` is shown after the colour operator
`0 0 1 rg`, not `1 0 0 rg`, and `rtext` is shown with no colour operator. -/
theorem colour_codes_fall_through_to_blue (fuel : Nat) (cfg : Config) (s : State) :
    (asa_switch fuel cfg 'R' s).map (fun t => t.GV_CURRENT_COLOR)
      = some (colorConverter 0x0000FF) ∧
    (asa_switch fuel cfg 'G' s).map (fun t => t.GV_CURRENT_COLOR)
      = some (colorConverter 0x0000FF) ∧
    (asa_switch fuel cfg 'B' s).map (fun t => t.GV_CURRENT_COLOR)
      = some (colorConverter 0x0000FF) ∧
    (asa_switch fuel cfg 'r' s).map (fun t => t.GV_CURRENT_COLOR)
      = some s.GV_CURRENT_COLOR ∧
    (asa_switch fuel cfg 'g' s).map (fun t => t.GV_CURRENT_COLOR)
      = some (colorConverter 0x0000FF) ∧
    (asa_switch fuel cfg 'b' s).map (fun t => t.GV_CURRENT_COLOR)
      = some (colorConverter 0x0000FF) ∧
    colorConverter 0x0000FF = { r := 0, g := 0, b := 1 } ∧
    ((start_pdf_page 40 (default_config fmt_fixed6 fmt_fixed6)
        (doc_start (default_config fmt_fixed6 fmt_fixed6) [])).bind fun t0 =>
      (process_line 40 (default_config fmt_fixed6 fmt_fixed6) t0 "Rtext".toList).map
        fun t => t.out.drop t0.out.length)
      = some ("0 9.000000 Td\nT* 0.000000 0.000000 1.000000 rg\n(text)Tj\n".toList
          ++ "0.000000 0.000000 0.000000 rg\n".toList) ∧
    ((start_pdf_page 40 (default_config fmt_fixed6 fmt_fixed6)
        (doc_start (default_config fmt_fixed6 fmt_fixed6) [])).bind fun t0 =>
      (process_line 40 (default_config fmt_fixed6 fmt_fixed6) t0 "rtext".toList).map
        fun t => t.out.drop t0.out.length)
      = some ("T*(text)Tj\n".toList ++ "0.000000 0.000000 0.000000 rg\n".toList) := by
  refine ⟨asa_switch_upper_colour fuel cfg s 'R' (Or.inl rfl),
    asa_switch_upper_colour fuel cfg s 'G' (Or.inr (Or.inl rfl)),
    asa_switch_upper_colour fuel cfg s 'B' (Or.inr (Or.inr rfl)),
    rfl, rfl, rfl, by decide!, by decide!, by decide!⟩

/-- C13, evaluation of the code: the case of the form-feed control code calls
`end_pdf_page` and `start_pdf_page` whatever the cursor is.  As the first line of a
document in the default configuration, the line form-feed `text` is read with the
cursor at top-of-page, yet it finishes a page and makes page 2 the current page;
the one-line document has two pages. -/
theorem asa_formfeed_breaks_page_at_top (fuel : Nat) (cfg : Config) (s : State) :
    asa_switch fuel cfg '\x0c' s = start_pdf_page fuel cfg (end_pdf_page s) ∧
    ((start_pdf_page 40 (default_config fmt_fixed6 fmt_fixed6)
        (doc_start (default_config fmt_fixed6 fmt_fixed6) [])).bind fun t0 =>
      (process_line 40 (default_config fmt_fixed6 fmt_fixed6) t0 "\x0ctext".toList).map
        fun t => (decide (t0.GV_PDFPageYPosition
            = (default_config fmt_fixed6 fmt_fixed6).GV_PageDepth
              - (default_config fmt_fixed6 fmt_fixed6).GV_PageMarginTop),
          t0.GV_PDFNumberOfPages, t0.GV_CurrentPageCount,
          t.GV_PDFNumberOfPages, t.GV_CurrentPageCount))
      = some (true, 0, 1, 1, 2) ∧
    (do_process_pages 40 (default_config fmt_fixed6 fmt_fixed6) []
        ["\x0ctext".toList]).map (fun t => t.GV_PDFNumberOfPages) = some 2 := by
  refine ⟨rfl, by decide!, by decide!⟩

/-- C15, evaluation of the code: the case `-` writes one empty show-text line, lowers
the cursor by two line heights and counts two lines.  As the first line of a document
in the default configuration, `-text` writes `T*()Tj` once and then `T*(text)Tj`
(two line-advance operators), while the cursor goes from 576 to 549, three line
heights of 9. -/
theorem minus_code_emits_one_blank_line (fuel : Nat) (cfg : Config) (s : State) :
    asa_switch fuel cfg '-' s =
      some { emit "T*()Tj\n".toList s with
        GV_PDFPageYPosition := s.GV_PDFPageYPosition - GV_StandardLineSize cfg
          - GV_StandardLineSize cfg,
        GV_CurrentLineCount := s.GV_CurrentLineCount + 1 + 1 } ∧
    ((start_pdf_page 40 (default_config fmt_fixed6 fmt_fixed6)
        (doc_start (default_config fmt_fixed6 fmt_fixed6) [])).bind fun t0 =>
      (process_line 40 (default_config fmt_fixed6 fmt_fixed6) t0 "-text".toList).map
        fun t => (t.out.drop t0.out.length, t0.GV_PDFPageYPosition, t.GV_PDFPageYPosition))
      = some ("T*()Tj\nT*(text)Tj\n".toList, 576, 549) ∧
    GV_StandardLineSize (default_config fmt_fixed6 fmt_fixed6) = 9 := by
  refine ⟨rfl, by decide!, by decide!⟩

theorem emit_with_line (bs b e : Bytes) (s : State) :
    emit bs (with_line b e s) = with_line b e (emit bs s) := rfl

theorem ite_with_line (c : Prop) [Decidable c] (b e : Bytes) (x y : State) :
    (if c then with_line b e x else with_line b e y) = with_line b e (if c then x else y) := by
  split <;> rfl

theorem print_pdf_string_with_line (cfg : Config) (buffer b e : Bytes) (s : State) :
    print_pdf_string cfg buffer (with_line b e s)
      = with_line b e (print_pdf_string cfg buffer s) := by
  rw [print_pdf_string_bytes, print_pdf_string_bytes]
  rfl

theorem print_pdf_title_at_with_line (cfg : Config) (x y : ℚ) (str b e : Bytes) (s : State) :
    print_pdf_title_at cfg x y str (with_line b e s)
      = with_line b e (print_pdf_title_at cfg x y str s) := by
  unfold print_pdf_title_at
  simp only [emit_with_line, print_pdf_string_with_line]

theorem print_pdf_impact_top_with_line (cfg : Config) (b e : Bytes) (s : State) :
    print_pdf_impact_top cfg (with_line b e s)
      = with_line b e (print_pdf_impact_top cfg s) := by
  unfold print_pdf_impact_top
  simp only [emit_with_line, print_pdf_string_with_line]
  split <;> rfl

theorem margin_label_body_with_line (cfg : Config) (b e : Bytes) (s : State) :
    margin_label_body cfg (with_line b e s) = with_line b e (margin_label_body cfg s) := by
  unfold margin_label_body
  simp only [emit_with_line, print_pdf_impact_top_with_line, print_pdf_title_at_with_line,
    ite_with_line]
  rfl

theorem print_margin_label_with_line (cfg : Config) (b e : Bytes) (s : State) :
    print_margin_label cfg (with_line b e s) = with_line b e (print_margin_label cfg s) := by
  rw [print_margin_label_eq, print_margin_label_eq]
  have h : ({ with_line b e s with GV_IsPrintLineNumbers := false } : State)
      = with_line b e { s with GV_IsPrintLineNumbers := false } := rfl
  rw [h, margin_label_body_with_line]
  rfl

theorem page_rest_with_line (cfg : Config) (b e : Bytes) (s : State) :
    page_rest cfg (with_line b e s) = with_line b e (page_rest cfg s) := by
  unfold page_rest
  rw [print_margin_label_with_line]
  rfl

theorem start_pdf_object_with_line (id : Nat) (b e : Bytes) (s : State) :
    start_pdf_object id (with_line b e s) = with_line b e (start_pdf_object id s) := by
  unfold start_pdf_object
  by_cases h : id ≥ s.GV_PDFXRefCount
  · have h' : id ≥ (with_line b e s).GV_PDFXRefCount := h
    simp only [if_pos h, if_pos h']
    rfl
  · have h' : ¬ id ≥ (with_line b e s).GV_PDFXRefCount := h
    simp only [if_neg h, if_neg h']
    rfl

theorem page_head_with_line (b e : Bytes) (s : State) :
    page_head (with_line b e s) = with_line b e (page_head s) := by
  unfold page_head
  have h : (with_line b e s).GV_PDFStreamId = s.GV_PDFStreamId := rfl
  rw [h, start_pdf_object_with_line]
  rfl

theorem pagebars_loop_with_line (cfg : Config) (x1 width height : ℚ) (b e : Bytes) :
    ∀ (fuel : Nat) (y1 step : ℚ) (s : State),
      pagebars_loop cfg x1 width height fuel y1 step (with_line b e s)
        = (pagebars_loop cfg x1 width height fuel y1 step s).map (with_line b e) := by
  intro fuel
  induction fuel with
  | zero => intro y1 step s; rfl
  | succ n ih =>
    intro y1 step s
    rw [pagebars_loop, pagebars_loop]
    split
    · split
      · rw [emit_with_line, ih]
      · rw [emit_with_line, emit_with_line, ih]
    · rfl

theorem print_pdf_pagebars_with_line (fuel : Nat) (cfg : Config) (b e : Bytes) (s : State) :
    print_pdf_pagebars fuel cfg (with_line b e s)
      = (print_pdf_pagebars fuel cfg s).map (with_line b e) := by
  unfold print_pdf_pagebars
  simp only [emit_with_line, ite_with_line, pagebars_loop_with_line, Option.map_map]
  congr 1
  funext t
  show _ = with_line b e _
  split <;> rfl

theorem start_pdf_page_with_line (fuel : Nat) (cfg : Config) (b e : Bytes) (s : State) :
    start_pdf_page fuel cfg (with_line b e s)
      = (start_pdf_page fuel cfg s).map (with_line b e) := by
  rw [start_pdf_page_eq, start_pdf_page_eq]
  have h : page_ids (with_line b e s)
      (if cfg.GV_IsPerPageLineNumbers then 0 else (with_line b e s).GV_CurrentLineCount)
      = with_line b e (page_ids s
        (if cfg.GV_IsPerPageLineNumbers then 0 else s.GV_CurrentLineCount)) := rfl
  rw [h, page_head_with_line, print_pdf_pagebars_with_line, Option.map_map, Option.map_map]
  congr 1
  funext t
  exact page_rest_with_line cfg b e t

theorem end_pdf_page_with_line (b e : Bytes) (s : State) :
    end_pdf_page (with_line b e s) = with_line b e (end_pdf_page s) := by
  let s4 : State := emit stream_end
    (emit "ET\n".toList (store_pdf_page s.GV_PDFObjectId (next_object_id s).2))
  let n : Nat := (s.out ++ "ET\n".toList).length - s.GV_PDFStreamStart
  let s7 := start_pdf_object s.GV_PDFObjectId
    (emit (length_obj n) (start_pdf_object s.GV_PDFStreamLengthId s4))
  let s7' := start_pdf_object s.GV_PDFObjectId
    (emit (length_obj n) (start_pdf_object s.GV_PDFStreamLengthId (with_line b e s4)))
  have h1 : end_pdf_page s = emit (page_obj s7.GV_PDFPageTreeId s7.GV_PDFStreamId) s7 := rfl
  have h2 : end_pdf_page (with_line b e s)
      = emit (page_obj s7'.GV_PDFPageTreeId s7'.GV_PDFStreamId) s7' := rfl
  have h3 : s7' = with_line b e s7 := by
    show start_pdf_object _ (emit _ (start_pdf_object _ (with_line b e s4))) = _
    rw [start_pdf_object_with_line, emit_with_line, start_pdf_object_with_line]
  rw [h1, h2, h3]
  rfl

theorem line_tail_with_line (cfg : Config) (b e : Bytes) (s : State) :
    line_tail cfg (with_line b e s) = with_line b e (line_tail cfg s) := by
  unfold line_tail
  by_cases h : s.bResetColor = true
  · have h' : (with_line b e s).bResetColor = true := h
    simp only [h, h', if_true]
    rfl
  · have h' : ¬ (with_line b e s).bResetColor = true := h
    simp only [h, h', if_false]
    rfl

theorem show_payload_with_line (cfg : Config) (payload b e : Bytes) (s : State) :
    show_payload cfg payload (with_line b e s)
      = with_line b e (show_payload cfg payload s) := by
  unfold show_payload
  rw [emit_with_line, print_pdf_string_with_line, emit_with_line, line_tail_with_line]

theorem asa_switch_unknown (fuel : Nat) (cfg : Config) (c : Char) (s : State)
    (hc : c ∉ asa_codes) :
    asa_switch fuel cfg c s = some (with_line s.buffer1 (s.err ++ asa_warning c) s) := by
  simp only [asa_codes, List.mem_cons, List.mem_singleton, List.mem_nil_iff, not_or,
    or_false] at hc
  obtain ⟨h1, h0, hm, hp, hR, hG, hB, hH, hr, hg, hb, hx, hgt, hff, hsp⟩ := hc
  unfold asa_switch
  rw [if_neg h1, if_neg h0, if_neg hm, if_neg hp, if_neg (by simp [hR, hG, hB]), if_neg hH,
    if_neg (by simp [hr, hg, hb]), if_neg hx, if_neg hgt, if_neg hff, if_neg hsp]
  unfold with_line asa_warning
  simp only [List.append_assoc]

/-- The overflow test does not look at the control code beyond asking whether the
line is empty or starts with `+`. -/
theorem overflow_break_with_code {fuel : Nat} {cfg : Config} (s : State) (c : Char)
    (payload : Bytes) (hasa : cfg.GV_IsASA = true) (hnul : c ≠ '\x00') (hplus : c ≠ '+') :
    overflow_break fuel cfg (read_line s (c :: payload))
      = (overflow_break fuel cfg (read_line s (' ' :: payload))).map
          (with_line (gets_s (c :: payload) s.buffer1) s.err) := by
  have e : read_line s (c :: payload)
      = with_line (gets_s (c :: payload) s.buffer1) s.err (read_line s (' ' :: payload)) := rfl
  by_cases hy : s.GV_PDFPageYPosition ≤ cfg.GV_PageMarginBottom + 1
  · rw [overflow_break_yes (show (read_line s (c :: payload)).GV_PDFPageYPosition ≤ _ from hy)
        hasa (buffer_after_read s c payload) hnul hplus,
      overflow_break_yes (show (read_line s (' ' :: payload)).GV_PDFPageYPosition ≤ _ from hy)
        hasa (buffer_after_read s ' ' payload) (by decide) (by decide),
      e, end_pdf_page_with_line, start_pdf_page_with_line]
  · rw [overflow_break_no (show ¬ (read_line s (c :: payload)).GV_PDFPageYPosition ≤ _ from hy),
      overflow_break_no (show ¬ (read_line s (' ' :: payload)).GV_PDFPageYPosition ≤ _ from hy),
      Option.map_some', e]

theorem overflow_break_buffer {fuel : Nat} {cfg : Config} {s t : State}
    (h : overflow_break fuel cfg s = some t) : t.buffer1 = s.buffer1 := by
  unfold overflow_break at h
  split at h
  · exact (page_break_fields h).buffer1
  · rw [← Option.some.inj h]

/-- C12: in ASA mode, a line `c ++ payload` whose first character `c` is not a label
of the control-code switch (and is a character of a C string, that is, not NUL) is
processed like the line `' ' ++ payload`: the result is the result for the space
line with the diagnostic appended to the error channel and the line buffer holding
the line read; the output bytes and every other field of the state are the same.
The space line leaves the error channel as it was, and both lines are processed to
completion when the band depth is positive and the iteration budget is at least
`pagebars_fuel`. -/
theorem unknown_code_is_space_with_warning (fuel : Nat) (cfg : Config) (s : State) (c : Char)
    (payload : Bytes) (hasa : cfg.GV_IsASA = true) (hc : c ∉ asa_codes) (hnul : c ≠ '\x00') :
    process_line fuel cfg s (c :: payload)
      = (process_line fuel cfg s (' ' :: payload)).map
          (with_line (gets_s (c :: payload) s.buffer1) (s.err ++ asa_warning c)) ∧
    (∀ t, process_line fuel cfg s (' ' :: payload) = some t → t.err = s.err) ∧
    (0 < pagebars_height cfg → pagebars_fuel cfg ≤ fuel →
      ∃ t, process_line fuel cfg s (' ' :: payload) = some t) := by
  have hplus : c ≠ '+' := by
    intro h
    apply hc
    rw [h]
    decide
  have key : ∀ u : State, overflow_break fuel cfg (read_line s (' ' :: payload)) = some u →
      (line_body fuel cfg (with_line (gets_s (c :: payload) s.buffer1) s.err u)).map
          (line_tail cfg)
        = some (with_line (gets_s (c :: payload) s.buffer1) (s.err ++ asa_warning c)
            (show_payload cfg (cstr payload) u)) ∧
      (line_body fuel cfg u).map (line_tail cfg) = some (show_payload cfg (cstr payload) u) := by
    intro u hu
    have hb' : u.buffer1 = ' ' :: (payload ++ '\x00' :: s.buffer1.drop (payload.length + 1 + 1)) :=
      (overflow_break_buffer hu).trans (buffer_after_read s ' ' payload)
    have hb : (with_line (gets_s (c :: payload) s.buffer1) s.err u).buffer1
        = c :: (payload ++ '\x00' :: s.buffer1.drop (payload.length + 1 + 1)) := rfl
    constructor
    · rw [asa_line_after_read hasa hnul hb, asa_switch_unknown _ _ _ _ hc, Option.map_some']
      congr 1
      show show_payload cfg (cstr ((gets_s (c :: payload) s.buffer1).drop 1))
        (with_line (gets_s (c :: payload) s.buffer1) (s.err ++ asa_warning c) u) = _
      rw [show_payload_with_line]
      congr 2
      show cstr (payload ++ '\x00' :: _) = _
      rw [cstr_append_nul]
    · rw [asa_line_after_read hasa (by decide) hb', asa_switch_space, Option.map_some', hb']
      simp only [List.drop_succ_cons, List.drop_zero, cstr_append_nul]
  refine ⟨?_, ?_, fun hh hf => process_line_total hh hf s _⟩
  · rw [process_line_eq, process_line_eq, overflow_break_with_code s c payload hasa hnul hplus]
    cases ho : overflow_break fuel cfg (read_line s (' ' :: payload)) with
    | none => rfl
    | some u =>
      obtain ⟨k1, k2⟩ := key u ho
      simp only [Option.map_some', Option.some_bind]
      rw [k1, k2]
      rfl
  · intro t ht
    rw [process_line_eq] at ht
    cases ho : overflow_break fuel cfg (read_line s (' ' :: payload)) with
    | none => rw [ho] at ht; cases ht
    | some u =>
      rw [ho, Option.some_bind, (key u ho).2] at ht
      rw [← Option.some.inj ht]
      have e1 : (show_payload cfg (cstr payload) u).err = u.err := by
        have := show_payload_with_line cfg (cstr payload) u.buffer1 u.err u
        have e0 : with_line u.buffer1 u.err u = u := rfl
        rw [e0] at this
        rw [this]
        rfl
      rw [e1]
      unfold overflow_break at ho
      split at ho
      · exact (page_break_fields ho).err
      · rw [← Option.some.inj ho]
        rfl

theorem unknown_code_is_space_with_warning_witness :
    (default_config fmt_fixed6 fmt_fixed6).GV_IsASA = true ∧ '?' ∉ asa_codes ∧
    process_line 40 (default_config fmt_fixed6 fmt_fixed6) top_state ('?' :: "text".toList)
      = (process_line 40 (default_config fmt_fixed6 fmt_fixed6) top_state
          (' ' :: "text".toList)).map
          (with_line (gets_s ('?' :: "text".toList) top_state.buffer1)
            (top_state.err ++ asa_warning '?')) :=
  ⟨rfl, by decide,
    (unknown_code_is_space_with_warning 40 (default_config fmt_fixed6 fmt_fixed6) top_state
      '?' "text".toList rfl (by decide) (by decide)).1⟩

theorem adjust_pdf_ypos_eq (cfg : Config) (m : ℚ) (s : State) :
    adjust_pdf_ypos cfg m s =
      { s with GV_PDFPageYPosition :=
          if s.GV_PDFPageYPosition < cfg.GV_PageDepth - cfg.GV_PageMarginTop then
            s.GV_PDFPageYPosition + GV_StandardLineSize cfg * m
          else s.GV_PDFPageYPosition } := by
  unfold adjust_pdf_ypos
  split <;> rfl

theorem line_tail_noreset (cfg : Config) (s : State) (h : s.bResetColor = false) :
    line_tail cfg s =
      { s with GV_PDFPageYPosition := s.GV_PDFPageYPosition - GV_StandardLineSize cfg } := by
  unfold line_tail
  simp [h]

theorem line_tail_reset (cfg : Config) (s : State) (h : s.bResetColor = true) :
    line_tail cfg s =
      emit (fmt_rgb cfg cfg.GV_FONT_COLOR ++ " rg\n".toList)
        { s with GV_PDFPageYPosition := s.GV_PDFPageYPosition - GV_StandardLineSize cfg,
                 GV_CURRENT_COLOR := cfg.GV_FONT_COLOR } := by
  unfold line_tail
  simp [h]

/-- The show-text of a payload when no colour reset is pending. -/
theorem show_payload_noreset (cfg : Config) (payload : Bytes) (s : State)
    (h : s.bResetColor = false) :
    show_payload cfg payload s =
      { emit ("T*".toList ++ (pdf_string_bytes cfg s.GV_IsPrintLineNumbers s.GV_CurrentLineCount
          s.GV_CURRENT_COLOR s.GV_IsExtendedASCII payload ++ "Tj\n".toList)) s with
        GV_PDFPageYPosition := s.GV_PDFPageYPosition - GV_StandardLineSize cfg } := by
  unfold show_payload
  rw [print_pdf_string_bytes, emit_emit, emit_emit, line_tail_noreset cfg (emit _ s) h]
  rfl

/-- The show-text of a payload when a colour reset is pending. -/
theorem show_payload_reset (cfg : Config) (payload : Bytes) (s : State)
    (h : s.bResetColor = true) :
    show_payload cfg payload s =
      { emit (("T*".toList ++ (pdf_string_bytes cfg s.GV_IsPrintLineNumbers
          s.GV_CurrentLineCount s.GV_CURRENT_COLOR s.GV_IsExtendedASCII payload
            ++ "Tj\n".toList)) ++ (fmt_rgb cfg cfg.GV_FONT_COLOR ++ " rg\n".toList)) s with
        GV_PDFPageYPosition := s.GV_PDFPageYPosition - GV_StandardLineSize cfg,
        GV_CURRENT_COLOR := cfg.GV_FONT_COLOR } := by
  unfold show_payload
  rw [print_pdf_string_bytes, emit_emit, emit_emit, line_tail_reset cfg (emit _ s) h]
  unfold emit
  simp only [List.append_assoc]

/-- An empty input line: one empty show-text, no page break, the loop tail. -/
theorem blank_line (fuel : Nat) (cfg : Config) (s : State) :
    process_line fuel cfg s [] =
      some { emit "T*()Tj\n".toList (read_line s []) with
        GV_PDFPageYPosition := s.GV_PDFPageYPosition - GV_StandardLineSize cfg } := by
  have hc : (cstr (read_line s []).buffer1).length = 0 := rfl
  rw [process_line_eq]
  have ho : overflow_break fuel cfg (read_line s []) = some (read_line s []) := by
    unfold overflow_break
    rw [if_neg (fun h => h.2.1 hc)]
  have hb : line_body fuel cfg (read_line s []) = some (emit "T*()Tj\n".toList (read_line s [])) := by
    unfold line_body
    rw [if_pos hc]
  rw [ho, Option.some_bind, hb, Option.map_some', line_tail_noreset _ _ rfl]
  rfl

/-- An ASA line `' ' :: payload` read with the cursor above `GV_PageMarginBottom + 1`. -/
theorem space_line_no_overflow {fuel : Nat} {cfg : Config} {s : State} {payload : Bytes}
    (hasa : cfg.GV_IsASA = true)
    (hy : ¬ s.GV_PDFPageYPosition ≤ cfg.GV_PageMarginBottom + 1) :
    process_line fuel cfg s (' ' :: payload) =
      some (show_payload cfg (cstr payload) (read_line s (' ' :: payload))) := by
  rw [asa_line_no_overflow hasa (by decide) hy, asa_switch_space, Option.map_some',
    cstr_drop_after_read]

/-- C14: in ASA mode, when no overflow break is due on this line or on the next
(the cursor and the cursor less one line height are above `GV_PageMarginBottom + 1`),
the line `'0' ++ payload` and the pair of lines empty, `' ' ++ payload` are both
processed to completion and give the same output bytes, cursor, line counter and
colour (every field of the state but the line buffer): one empty show-text line,
then the show-text of the payload, the cursor two line heights lower, the line
counter two higher. -/
theorem zero_code_is_blank_then_space (fuel : Nat) (cfg : Config) (s : State)
    (payload : Bytes) (hasa : cfg.GV_IsASA = true)
    (h0 : cfg.GV_PageMarginBottom + 1 < s.GV_PDFPageYPosition)
    (h1 : cfg.GV_PageMarginBottom + 1 < s.GV_PDFPageYPosition - GV_StandardLineSize cfg) :
    ∃ t1 t2, process_line fuel cfg s ('0' :: payload) = some t1 ∧
      run_lines fuel cfg s [[], ' ' :: payload] = some t2 ∧
      t1 = with_line t1.buffer1 t2.err t2 ∧
      t1.out = t2.out ∧ t1.GV_PDFPageYPosition = t2.GV_PDFPageYPosition ∧
      t1.GV_CurrentLineCount = t2.GV_CurrentLineCount ∧
      t1.GV_CURRENT_COLOR = t2.GV_CURRENT_COLOR ∧
      t1.out = s.out ++ ("T*()Tj\n".toList ++ ("T*".toList
        ++ (pdf_string_bytes cfg s.GV_IsPrintLineNumbers (s.GV_CurrentLineCount + 1 + 1)
              s.GV_CURRENT_COLOR false (cstr payload) ++ "Tj\n".toList))) ∧
      t1.GV_PDFPageYPosition
        = s.GV_PDFPageYPosition - GV_StandardLineSize cfg - GV_StandardLineSize cfg ∧
      t1.GV_CurrentLineCount = s.GV_CurrentLineCount + 1 + 1 ∧
      t1.GV_CURRENT_COLOR = s.GV_CURRENT_COLOR := by
  have e1 := @zero_line_no_overflow fuel _ _ payload hasa (not_le.mpr h0)
  have hy2 : ¬ ({ emit "T*()Tj\n".toList (read_line s []) with
      GV_PDFPageYPosition := s.GV_PDFPageYPosition - GV_StandardLineSize cfg }
        : State).GV_PDFPageYPosition ≤ cfg.GV_PageMarginBottom + 1 := not_le.mpr h1
  have e2 : run_lines fuel cfg s [[], ' ' :: payload] =
      some (show_payload cfg (cstr payload) (read_line
        { emit "T*()Tj\n".toList (read_line s []) with
          GV_PDFPageYPosition := s.GV_PDFPageYPosition - GV_StandardLineSize cfg }
        (' ' :: payload))) := by
    rw [run_lines, blank_line, Option.some_bind, run_lines, space_line_no_overflow hasa hy2,
      Option.some_bind, run_lines]
  refine ⟨_, _, e1, e2, ?_⟩
  rw [show_payload_noreset _ _ _ rfl, show_payload_noreset _ _ _ rfl]
  refine ⟨rfl, rfl, rfl, rfl, rfl, ?_, rfl, rfl, rfl⟩
  show (s.out ++ _) ++ _ = _
  rw [List.append_assoc]
  rfl

/-- C16, counterexample: in the default configuration (ASA mode) the first line
`+text` of a document is read with the cursor at top-of-page, 576, and leaves it at
567, one line height lower. -/
theorem plus_code_at_top_lowers_cursor :
    (default_config fmt_fixed6 fmt_fixed6).GV_IsASA = true ∧
    ((start_pdf_page 40 (default_config fmt_fixed6 fmt_fixed6)
        (doc_start (default_config fmt_fixed6 fmt_fixed6) [])).bind fun t0 =>
      (process_line 40 (default_config fmt_fixed6 fmt_fixed6) t0 "+text".toList).map
        fun t => (t0.GV_PDFPageYPosition, t.GV_PDFPageYPosition))
      = some (576, 567) :=
  ⟨rfl, by decide!⟩

/-- C16 (as amended): in ASA mode a line with control code `+` is processed without
any page break; its payload is shown with the overstrike colour as the current
colour, after the text position has been moved up one line height, and the base
font colour is restored afterwards.  When the cursor is below top-of-page before
the line, it has the same value after the line; when it is at top-of-page it ends
one line height lower. -/
theorem plus_code_keeps_cursor_below_top (fuel : Nat) (cfg : Config) (s : State)
    (payload : Bytes) (hasa : cfg.GV_IsASA = true) :
    ∃ t, process_line fuel cfg s ('+' :: payload) = some t ∧
      t.out = s.out ++ (("0 ".toList ++ cfg.fmt_f (GV_StandardLineSize cfg) ++ " Td\n".toList)
        ++ (("T*".toList ++ (pdf_string_bytes cfg s.GV_IsPrintLineNumbers
              (s.GV_CurrentLineCount + 1 - 1) cfg.GV_OVERSTRIKE_COLOR false (cstr payload)
              ++ "Tj\n".toList))
        ++ (fmt_rgb cfg cfg.GV_FONT_COLOR ++ " rg\n".toList))) ∧
      (s.GV_PDFPageYPosition < cfg.GV_PageDepth - cfg.GV_PageMarginTop →
        t.GV_PDFPageYPosition = s.GV_PDFPageYPosition) ∧
      (¬ s.GV_PDFPageYPosition < cfg.GV_PageDepth - cfg.GV_PageMarginTop →
        t.GV_PDFPageYPosition = s.GV_PDFPageYPosition - GV_StandardLineSize cfg) ∧
      t.GV_CURRENT_COLOR = cfg.GV_FONT_COLOR ∧
      t.GV_PDFNumberOfPages = s.GV_PDFNumberOfPages ∧
      t.GV_CurrentPageCount = s.GV_CurrentPageCount := by
  have ho : overflow_break fuel cfg (read_line s ('+' :: payload))
      = some (read_line s ('+' :: payload)) := by
    unfold overflow_break
    rw [if_neg (fun h => h.2.2.2 rfl)]
  let U0 : State := emit ("0 ".toList ++ cfg.fmt_f (GV_StandardLineSize cfg) ++ " Td\n".toList)
    { read_line s ('+' :: payload) with GV_CURRENT_COLOR := cfg.GV_OVERSTRIKE_COLOR }
  let U : State :=
    { U0 with
      GV_PDFPageYPosition :=
        if s.GV_PDFPageYPosition < cfg.GV_PageDepth - cfg.GV_PageMarginTop then
          s.GV_PDFPageYPosition + GV_StandardLineSize cfg * 1
        else s.GV_PDFPageYPosition,
      bResetColor := true, GV_CurrentLineCount := s.GV_CurrentLineCount + 1 - 1 }
  have hsw : asa_switch fuel cfg '+' (read_line s ('+' :: payload)) = some U := by
    have h : asa_switch fuel cfg '+' (read_line s ('+' :: payload)) =
        some { adjust_pdf_ypos cfg 1 U0 with
          bResetColor := true,
          GV_CurrentLineCount := (adjust_pdf_ypos cfg 1 U0).GV_CurrentLineCount - 1 } := rfl
    rw [h, adjust_pdf_ypos_eq]
    rfl
  have hp : process_line fuel cfg s ('+' :: payload)
      = some (show_payload cfg (cstr payload) U) := by
    rw [process_line_eq, ho, Option.some_bind,
      asa_line_after_read hasa (by decide) (buffer_after_read s '+' payload), hsw,
      Option.map_some']
    congr 2
    show cstr (payload ++ '\x00' :: _) = _
    rw [cstr_append_nul]
  rw [show_payload_reset _ _ _ rfl] at hp
  refine ⟨_, hp, ?_, ?_, ?_, rfl, rfl, rfl⟩
  · show (s.out ++ _) ++ _ = _
    rw [List.append_assoc]
    rfl
  · intro hb
    show (if s.GV_PDFPageYPosition < _ then _ else _) - _ = _
    rw [if_pos hb]
    ring
  · intro hb
    show (if s.GV_PDFPageYPosition < _ then _ else _) - _ = _
    rw [if_neg hb]

theorem zero_code_is_blank_then_space_witness :
    ∃ t1 t2,
      process_line 20 (default_config fmt_fixed6 fmt_fixed6) top_state "0World".toList
        = some t1 ∧
      run_lines 20 (default_config fmt_fixed6 fmt_fixed6) top_state [[], " World".toList]
        = some t2 ∧
      t1.out = t2.out ∧ t1.GV_PDFPageYPosition = 558 ∧ t2.GV_PDFPageYPosition = 558 := by
  obtain ⟨t1, t2, a1, a2, _, a4, a5, _, _, _, a9, _, _⟩ :=
    zero_code_is_blank_then_space 20 (default_config fmt_fixed6 fmt_fixed6) top_state
      "World".toList rfl (by decide!) (by decide!)
  have e : t1.GV_PDFPageYPosition = 558 := by
    rw [a9]
    decide!
  exact ⟨t1, t2, a1, a2, a4, e, by rw [← a5, e]⟩

theorem plus_code_keeps_cursor_below_top_witness :
    ∃ t, process_line 20 (default_config fmt_fixed6 fmt_fixed6) below_top_state
        "+over".toList = some t ∧
      t.GV_PDFPageYPosition = 567 := by
  obtain ⟨t, h1, _, h3, _⟩ :=
    plus_code_keeps_cursor_below_top 20 (default_config fmt_fixed6 fmt_fixed6)
      below_top_state "over".toList rfl
  exact ⟨t, h1, h3 (by decide!)⟩

/-- C17, counterexample: in the layout `flat_config` (ASA mode) the first line ` x`
of a document is non-empty, has the control code space, and is read with the cursor
at 306.5, above the bottom margin 305.5; yet the overflow test closes the page and
opens a new one before the line is interpreted. -/
theorem overflow_break_above_bottom_margin :
    flat_config.GV_IsASA = true ∧
    ((start_pdf_page 40 flat_config (doc_start flat_config [])).bind fun t0 =>
      (overflow_break 40 flat_config (read_line t0 " x".toList)).map fun t =>
        (decide (flat_config.GV_PageMarginBottom < t0.GV_PDFPageYPosition),
          t0.GV_PDFNumberOfPages, t0.GV_CurrentPageCount,
          t.GV_PDFNumberOfPages, t.GV_CurrentPageCount))
      = some (true, 0, 1, 1, 2) :=
  ⟨rfl, by decide!⟩

theorem cstr_after_read (s : State) (line : Bytes) :
    cstr (read_line s line).buffer1 = cstr line := by
  show cstr (line ++ '\x00' :: _) = _
  rw [cstr_append_nul]

theorem first_after_read (s : State) (line : Bytes) :
    (read_line s line).buffer1.getD 0 '\x00' ≠ '+' ↔ line.head? ≠ some '+' := by
  cases line with
  | nil =>
    show ('\x00' : Char) ≠ '+' ↔ _
    simp
  | cons c rest =>
    show c ≠ '+' ↔ _
    simp

/-- C17 (as amended): in ASA mode, for a line whose control code is none of `R`,
`G`, `B`, `^`: before the line is interpreted, the current page is closed and a new
page is opened (one more finished page, the page counter one higher, the cursor at
top-of-page) if and only if the line is non-empty, its control code is not `+`, and
the cursor is at or below `GV_PageMarginBottom + 1`; otherwise the state is left as
it is.  The page functions return when the band depth is positive and the iteration
budget is at least `pagebars_fuel`. -/
theorem overflow_break_iff (fuel : Nat) (cfg : Config) (s : State) (line : Bytes)
    (hasa : cfg.GV_IsASA = true) :
    (∀ c, line.head? = some c → c ≠ 'R' ∧ c ≠ 'G' ∧ c ≠ 'B' ∧ c ≠ '^') →
    (cstr line ≠ [] ∧ line.head? ≠ some '+' ∧
        s.GV_PDFPageYPosition ≤ cfg.GV_PageMarginBottom + 1 →
      overflow_break fuel cfg (read_line s line)
        = start_pdf_page fuel cfg (end_pdf_page (read_line s line)) ∧
      (∀ t, overflow_break fuel cfg (read_line s line) = some t →
        t.GV_PDFNumberOfPages = s.GV_PDFNumberOfPages + 1 ∧
        t.GV_CurrentPageCount = s.GV_CurrentPageCount + 1 ∧
        t.GV_PDFPageYPosition = cfg.GV_PageDepth - cfg.GV_PageMarginTop) ∧
      (0 < pagebars_height cfg → pagebars_fuel cfg ≤ fuel →
        ∃ t, overflow_break fuel cfg (read_line s line) = some t)) ∧
    (¬ (cstr line ≠ [] ∧ line.head? ≠ some '+' ∧
        s.GV_PDFPageYPosition ≤ cfg.GV_PageMarginBottom + 1) →
      overflow_break fuel cfg (read_line s line) = some (read_line s line)) := by
  intro _
  have hcond : ((read_line s line).GV_PDFPageYPosition ≤ cfg.GV_PageMarginBottom + 1 ∧
      (cstr (read_line s line).buffer1).length ≠ 0 ∧
      (cfg.GV_IsASA = true ∧ (read_line s line).buffer1.getD 0 '\x00' ≠ '+')) ↔
      (cstr line ≠ [] ∧ line.head? ≠ some '+' ∧
        s.GV_PDFPageYPosition ≤ cfg.GV_PageMarginBottom + 1) := by
    rw [cstr_after_read, first_after_read]
    have e : (read_line s line).GV_PDFPageYPosition = s.GV_PDFPageYPosition := rfl
    rw [e]
    constructor
    · rintro ⟨a, b, _, d⟩
      exact ⟨fun h => b (by rw [h]; rfl), d, a⟩
    · rintro ⟨a, b, d⟩
      exact ⟨d, fun h => a (List.length_eq_zero.mp h), hasa, b⟩
  constructor
  · intro h
    have hb : overflow_break fuel cfg (read_line s line)
        = start_pdf_page fuel cfg (end_pdf_page (read_line s line)) := by
      unfold overflow_break
      rw [if_pos (hcond.mpr h)]
    refine ⟨hb, ?_, fun hh hf => ?_⟩
    · intro t ht
      rw [hb] at ht
      have pb := page_break_fields ht
      exact ⟨pb.npages, pb.cpc, pb.ypos⟩
    · rw [hb]
      exact start_pdf_page_total hh hf _
  · intro h
    unfold overflow_break
    rw [if_neg (fun hc => h (hcond.mp hc))]

theorem overflow_break_iff_witness :
    (∃ t, overflow_break 40 (default_config fmt_fixed6 fmt_fixed6)
        (read_line bottom_state " x".toList) = some t ∧
      t.GV_PDFNumberOfPages = bottom_state.GV_PDFNumberOfPages + 1) ∧
    overflow_break 40 (default_config fmt_fixed6 fmt_fixed6) (read_line top_state " x".toList)
      = some (read_line top_state " x".toList) := by
  have hb := (overflow_break_iff 40 (default_config fmt_fixed6 fmt_fixed6) bottom_state
    " x".toList rfl (by intro c hc; cases hc; decide)).1 ⟨by decide, by decide, by decide!⟩
  have ht := (overflow_break_iff 40 (default_config fmt_fixed6 fmt_fixed6) top_state
    " x".toList rfl (by intro c hc; cases hc; decide)).2 (fun h => absurd h.2.2 (by decide!))
  obtain ⟨t, h1⟩ := hb.2.2 (default_config_total _ _).1
    (by rw [(default_config_total _ _).2]; decide)
  exact ⟨⟨t, h1, (hb.2.1 t h1).1⟩, ht⟩

theorem all_ite {c : Prop} [Decidable c] {a b : Option State} {P : State → Prop}
    (ha : ∀ t, a = some t → P t) (hb : ∀ t, b = some t → P t) :
    ∀ t, (if c then a else b) = some t → P t := by
  split
  · exact ha
  · exact hb

theorem all_some {x : State} {P : State → Prop} (h : P x) : ∀ t, some x = some t → P t := by
  intro t ht
  rw [← Option.some.inj ht]
  exact h

theorem colourOk_page_break {fuel : Nat} {cfg : Config} {s : State} (h : ColourOk cfg s) :
    ∀ t, start_pdf_page fuel cfg (end_pdf_page s) = some t → ColourOk cfg t := by
  intro t ht
  have pb := page_break_fields ht
  unfold ColourOk
  rw [pb.reset, pb.color]
  exact h

theorem colourOk_asa_switch {fuel : Nat} {cfg : Config} {c : Char} {s : State}
    (h : ColourOk cfg s) : ∀ t, asa_switch fuel cfg c s = some t → ColourOk cfg t := by
  unfold asa_switch
  simp only [adjust_pdf_ypos_eq]
  repeat (first
    | exact colourOk_page_break h
    | exact all_some (Or.inl rfl)
    | exact all_some h
    | apply all_ite)

theorem flush_buffer2_colour (cfg : Config) (s : State) :
    (flush_buffer2 cfg s).bResetColor = s.bResetColor ∧
    (flush_buffer2 cfg s).GV_CURRENT_COLOR = s.GV_CURRENT_COLOR := by
  by_cases h : s.buffer2 ≠ []
  · rw [flush_buffer2_nonempty cfg s h]
    exact ⟨rfl, rfl⟩
  · unfold flush_buffer2
    rw [if_neg h, adjust_pdf_ypos_eq]
    exact ⟨rfl, rfl⟩

theorem colourOk_flush {cfg : Config} {s : State} (h : ColourOk cfg s) :
    ColourOk cfg (flush_buffer2 cfg s) := by
  unfold ColourOk
  rw [(flush_buffer2_colour cfg s).1, (flush_buffer2_colour cfg s).2]
  exact h

theorem colourOk_scan_switch {fuel : Nat} {cfg : Config} {c next : Char} {s : State}
    (h : ColourOk cfg s) : ∀ t, scan_switch fuel cfg c next s = some t → ColourOk cfg t := by
  unfold scan_switch
  simp only [adjust_pdf_ypos_eq]
  refine all_ite (all_ite (colourOk_page_break h) (all_some h)) (all_ite ?_
    (all_ite (all_some (colourOk_flush h)) (all_some h)))
  refine all_some (colourOk_flush ?_)
  split
  · exact Or.inl rfl
  · exact h

theorem colourOk_scan_loop {fuel : Nat} {cfg : Config} :
    ∀ (n i : Nat) (s : State), ColourOk cfg s →
      ∀ t, scan_loop fuel cfg n i s = some t → ColourOk cfg t := by
  intro n
  induction n with
  | zero =>
    intro i s h t ht
    rw [scan_loop] at ht
    rw [← Option.some.inj ht]
    exact h
  | succ n ih =>
    intro i s h t ht
    rw [scan_loop, Option.bind_eq_some] at ht
    obtain ⟨u, hu, hut⟩ := ht
    exact ih (i + 1) u (colourOk_scan_switch h u hu) t hut

theorem colourOk_line_body {fuel : Nat} {cfg : Config} {s : State} (h : ColourOk cfg s) :
    ∀ t, line_body fuel cfg s = some t → ColourOk cfg t := by
  unfold line_body
  refine all_ite (all_some h) (all_ite ?_ ?_)
  · exact colourOk_scan_loop 4096 0 _ h
  · intro t ht
    unfold asa_line at ht
    rw [Option.map_eq_some'] at ht
    obtain ⟨u, hu, rfl⟩ := ht
    have hu' := colourOk_asa_switch h u hu
    show ColourOk cfg (emit "Tj\n".toList (print_pdf_string cfg _ (emit "T*".toList u)))
    rw [print_pdf_string_bytes]
    exact hu'

theorem line_tail_colour {cfg : Config} {s : State} (h : ColourOk cfg s) :
    (line_tail cfg s).GV_CURRENT_COLOR = cfg.GV_FONT_COLOR := by
  by_cases hr : s.bResetColor = true
  · rw [line_tail_reset cfg s hr]
    rfl
  · have hr' : s.bResetColor = false := by simpa using hr
    rw [line_tail_noreset cfg s hr']
    rcases h with h | h
    · exact absurd h hr
    · exact h

/-- One line keeps the current colour equal to the base font colour. -/
theorem process_line_colour {fuel : Nat} {cfg : Config} {s t : State} {line : Bytes}
    (hs : s.GV_CURRENT_COLOR = cfg.GV_FONT_COLOR)
    (h : process_line fuel cfg s line = some t) :
    t.GV_CURRENT_COLOR = cfg.GV_FONT_COLOR := by
  rw [process_line_eq, Option.map_eq_some'] at h
  obtain ⟨v, hv, rfl⟩ := h
  rw [Option.bind_eq_some] at hv
  obtain ⟨u, hu, huv⟩ := hv
  have h0 : ColourOk cfg (read_line s line) := Or.inr hs
  have h1 : ColourOk cfg u := by
    unfold overflow_break at hu
    exact all_ite (colourOk_page_break h0) (all_some h0) u hu
  exact line_tail_colour (colourOk_line_body h1 v huv)

theorem run_lines_colour {fuel : Nat} {cfg : Config} :
    ∀ (input : List Bytes) (s t : State), s.GV_CURRENT_COLOR = cfg.GV_FONT_COLOR →
      run_lines fuel cfg s input = some t → t.GV_CURRENT_COLOR = cfg.GV_FONT_COLOR := by
  intro input
  induction input with
  | nil =>
    intro s t hs h
    rw [run_lines] at h
    rw [← Option.some.inj h]
    exact hs
  | cons line rest ih =>
    intro s t hs h
    rw [run_lines, Option.bind_eq_some] at h
    obtain ⟨u, hu, hut⟩ := h
    exact ih u t (process_line_colour hs hu) hut

/-- C18: in both modes, a line processed from a state whose current colour is the
base font colour leaves the current colour equal to the base font colour, whatever
the line and its control code are; the run starts with the current colour equal to
the base font colour, so after any number of input lines (hence at the beginning of
every line) the current colour is the base font colour.  Every line is processed to
completion when the band depth is positive and the iteration budget is at least
`pagebars_fuel`. -/
theorem colour_is_base_after_every_line (fuel : Nat) (cfg : Config) :
    (∀ (s t : State) (line : Bytes), s.GV_CURRENT_COLOR = cfg.GV_FONT_COLOR →
      process_line fuel cfg s line = some t → t.GV_CURRENT_COLOR = cfg.GV_FONT_COLOR) ∧
    (∀ (stack : Bytes) (input : List Bytes) (t0 v : State),
      start_pdf_page fuel cfg (doc_start cfg stack) = some t0 →
      run_lines fuel cfg t0 input = some v →
        t0.GV_CURRENT_COLOR = cfg.GV_FONT_COLOR ∧ v.GV_CURRENT_COLOR = cfg.GV_FONT_COLOR) ∧
    (0 < pagebars_height cfg → pagebars_fuel cfg ≤ fuel →
      ∀ (s : State) (line : Bytes), ∃ t, process_line fuel cfg s line = some t) := by
  refine ⟨fun s t line hs h => process_line_colour hs h, ?_,
    fun hh hf s line => process_line_total hh hf s line⟩
  intro stack input t0 v h0 hv
  have hc : t0.GV_CURRENT_COLOR = cfg.GV_FONT_COLOR := by
    obtain ⟨_, _, _, _, _, c, _⟩ := start_pdf_page_fields h0
    rw [c]
    rfl
  exact ⟨hc, run_lines_colour input t0 v hc hv⟩

theorem colour_is_base_after_every_line_witness :
    ∃ t, process_line 40 (default_config fmt_fixed6 fmt_fixed6) top_state "Rred".toList
        = some t ∧
      t.GV_CURRENT_COLOR = (default_config fmt_fixed6 fmt_fixed6).GV_FONT_COLOR := by
  obtain ⟨t, ht⟩ := (colour_is_base_after_every_line 40
    (default_config fmt_fixed6 fmt_fixed6)).2.2 (default_config_total _ _).1
    (by rw [(default_config_total _ _).2]; decide) top_state "Rred".toList
  exact ⟨t, ht, (colour_is_base_after_every_line 40
    (default_config fmt_fixed6 fmt_fixed6)).1 top_state t "Rred".toList rfl ht⟩

/-- A free-form line whose first character is not NUL: no overflow test applies, the
scanner runs over the whole of `buffer1`, then the tail of the line loop. -/
theorem freeform_process_line {fuel : Nat} {cfg : Config} (s : State) (c : Char)
    (rest : Bytes) (hfree : cfg.GV_IsASA = false) (hc : c ≠ '\x00') :
    process_line fuel cfg s (c :: rest) =
      (scan_loop fuel cfg 4096 0 { read_line s (c :: rest) with buffer2 := [] }).map
        (line_tail cfg) := by
  have hov : overflow_break fuel cfg (read_line s (c :: rest))
      = some (read_line s (c :: rest)) := by
    unfold overflow_break
    rw [if_neg]
    rintro ⟨_, _, h3, _⟩
    rw [hfree] at h3
    exact Bool.false_ne_true h3
  have hstr : (cstr (read_line s (c :: rest)).buffer1).length ≠ 0 := by
    rw [buffer_after_read]
    unfold cstr
    simp [List.takeWhile_cons, hc]
  rw [process_line_eq, hov, Option.some_bind]
  unfold line_body
  rw [if_neg hstr, if_pos hfree]
  rfl

/-- Scanning NUL bytes runs the `case '\0'` body once per byte. -/
theorem scan_loop_all_nul (fuel : Nat) (cfg : Config) :
    ∀ (n i : Nat) (s : State), (∀ j, i ≤ j → s.buffer1.getD j '\x00' = '\x00') →
      scan_loop fuel cfg n i s = some ((flush_buffer2 cfg)^[n] s) := by
  intro n
  induction n with
  | zero =>
    intro i s _
    rfl
  | succ n ih =>
    intro i s hz
    rw [scan_loop, scan_char, hz i (Nat.le_refl i), scan_switch_nul, Option.some_bind,
      Function.iterate_succ_apply]
    refine ih (i + 1) (flush_buffer2 cfg s) (fun j hj => ?_)
    have hb : (flush_buffer2 cfg s).buffer1 = s.buffer1 := by
      by_cases h : s.buffer2 ≠ []
      · rw [flush_buffer2_nonempty cfg s h]
        rfl
      · unfold flush_buffer2
        rw [if_neg h, adjust_pdf_ypos_eq]
    rw [hb]
    exact hz j (by omega)

/-- The `case '\0'` body with `buffer2` empty: the cursor goes up one line unless it
is at top-of-page, and the line counter is decremented. -/
theorem flush_buffer2_empty (cfg : Config) (s : State) (h : s.buffer2 = []) :
    flush_buffer2 cfg s =
      { s with
        GV_PDFPageYPosition :=
          if s.GV_PDFPageYPosition < cfg.GV_PageDepth - cfg.GV_PageMarginTop then
            s.GV_PDFPageYPosition + GV_StandardLineSize cfg * 1
          else s.GV_PDFPageYPosition,
        GV_CurrentLineCount := s.GV_CurrentLineCount - 1 } := by
  unfold flush_buffer2
  rw [if_neg (by simp [h]), adjust_pdf_ypos_eq]
  show ({ s with GV_PDFPageYPosition := _, GV_CurrentLineCount := _, buffer2 := [] } : State) = _
  rw [← h]

/-- Repeating the `case '\0'` body at top-of-page only counts the line counter down. -/
theorem flush_iterate_at_top (cfg : Config) :
    ∀ (n : Nat) (s : State), s.buffer2 = [] →
      ¬ s.GV_PDFPageYPosition < cfg.GV_PageDepth - cfg.GV_PageMarginTop →
      (flush_buffer2 cfg)^[n] s
        = { s with GV_CurrentLineCount := s.GV_CurrentLineCount - (n : Int) } := by
  intro n
  induction n with
  | zero =>
    intro s _ _
    show s = _
    simp
  | succ n ih =>
    intro s hb hy
    rw [Function.iterate_succ_apply, flush_buffer2_empty cfg s hb, if_neg hy]
    have h := ih ({ s with GV_CurrentLineCount := s.GV_CurrentLineCount - 1 } : State) hb hy
    show (flush_buffer2 cfg)^[n]
      ({ s with GV_CurrentLineCount := s.GV_CurrentLineCount - 1 } : State) = _
    rw [h]
    show ({ s with GV_CurrentLineCount := s.GV_CurrentLineCount - 1 - (n : Int) } : State) = _
    congr 1
    push_cast
    ring

/-- Repeating the `case '\0'` body from one step below top-of-page: the first run
lifts the cursor by one line height, the others only count the line counter down. -/
theorem flush_iterate_below_top (cfg : Config) (n : Nat) (s : State) (hb : s.buffer2 = [])
    (hy : s.GV_PDFPageYPosition < cfg.GV_PageDepth - cfg.GV_PageMarginTop)
    (hy2 : ¬ s.GV_PDFPageYPosition + GV_StandardLineSize cfg * 1
      < cfg.GV_PageDepth - cfg.GV_PageMarginTop) :
    (flush_buffer2 cfg)^[n + 1] s
      = { s with
          GV_PDFPageYPosition := s.GV_PDFPageYPosition + GV_StandardLineSize cfg * 1,
          GV_CurrentLineCount := s.GV_CurrentLineCount - ((n + 1 : Nat) : Int) } := by
  rw [Function.iterate_succ_apply, flush_buffer2_empty cfg s hb, if_pos hy]
  have h := flush_iterate_at_top cfg n
    ({ s with
        GV_PDFPageYPosition := s.GV_PDFPageYPosition + GV_StandardLineSize cfg * 1,
        GV_CurrentLineCount := s.GV_CurrentLineCount - 1 } : State) hb hy2
  rw [h]
  show ({ s with
          GV_PDFPageYPosition := s.GV_PDFPageYPosition + GV_StandardLineSize cfg * 1,
          GV_CurrentLineCount := s.GV_CurrentLineCount - 1 - (n : Int) } : State) = _
  congr 1
  push_cast
  ring

/-- Scanning a non-empty run `X` of ordinary characters followed by a NUL, with
`buffer2` empty: one show-text of `X`. -/
theorem scan_segment_flush (fuel : Nat) (cfg : Config) (X pre post : Bytes) (n : Nat)
    (s : State) (hX : X ≠ []) (hXo : ∀ c ∈ X, Ordinary c)
    (hb : s.buffer1 = pre ++ (X ++ '\x00' :: post)) (hb2 : s.buffer2 = []) :
    scan_loop fuel cfg (X.length + (n + 1)) pre.length s =
      scan_loop fuel cfg n (pre.length + X.length + 1)
        (emit ("T*".toList ++ (pdf_string_bytes cfg s.GV_IsPrintLineNumbers
          s.GV_CurrentLineCount s.GV_CURRENT_COLOR s.GV_IsExtendedASCII X
            ++ "Tj\n".toList)) s) := by
  rw [scan_loop_ordinary fuel cfg X pre ('\x00' :: post) (n + 1) s hXo hb, scan_loop, scan_char]
  have hg : ({ s with buffer2 := s.buffer2 ++ X } : State).buffer1.getD
      (pre.length + X.length) '\x00' = '\x00' := by
    show s.buffer1.getD _ _ = _
    rw [hb, ← List.append_assoc, ← List.length_append]
    exact getD_middle _ _ _
  rw [hg, scan_switch_nul, Option.some_bind, flush_buffer2_nonempty _ _ (by
    show s.buffer2 ++ X ≠ []
    rw [hb2]
    simpa using hX)]
  congr 1
  show ({ emit _ { s with buffer2 := s.buffer2 ++ X } with buffer2 := [] } : State) = emit _ s
  rw [hb2, List.nil_append]
  show ({ emit _ s with buffer2 := [] } : State) = emit _ s
  rw [← hb2]
  rfl

/-- A free-form line `X` of ordinary characters, read with the cursor at top-of-page
into a buffer that holds only NUL bytes behind the line: one show-text of `X`; each
of the `4095 - |X|` NUL bytes behind the line decrements the line counter. -/
theorem plain_line_at_top {fuel : Nat} {cfg : Config} {s : State} {X : Bytes}
    (hfree : cfg.GV_IsASA = false) (hX : X ≠ []) (hXo : ∀ c ∈ X, Ordinary c)
    (hlen : X.length ≤ 4095)
    (hz : ∀ j, X.length ≤ j → (gets_s X s.buffer1).getD j '\x00' = '\x00')
    (hy : ¬ s.GV_PDFPageYPosition < cfg.GV_PageDepth - cfg.GV_PageMarginTop) :
    process_line fuel cfg s X =
      some (line_tail cfg
        { read_line s X with
          out := s.out ++ segment_shown cfg s X,
          GV_CurrentLineCount := s.GV_CurrentLineCount + 1 - ((4095 - X.length : Nat) : Int),
          buffer2 := [] }) := by
  obtain ⟨x, X', rfl⟩ := List.exists_cons_of_ne_nil hX
  have hx : Ordinary x := hXo x (List.mem_cons_self _ _)
  obtain ⟨k, hk, e4096⟩ : ∃ k : Nat, k = 4095 - (x :: X').length ∧
      4096 = (x :: X').length + (k + 1) := ⟨4095 - (x :: X').length, rfl, by omega⟩
  let s1 : State := { read_line s (x :: X') with buffer2 := [] }
  let s2 : State := emit (segment_shown cfg s (x :: X')) s1
  have hb1 : s1.buffer1
      = [] ++ ((x :: X') ++ '\x00' :: s.buffer1.drop ((x :: X').length + 1)) := rfl
  have h1 : scan_loop fuel cfg 4096 0 s1
      = scan_loop fuel cfg k (([] : Bytes).length + (x :: X').length + 1) s2 := by
    rw [e4096]
    exact scan_segment_flush fuel cfg (x :: X') [] _ k s1 (by simp) hXo hb1 rfl
  have h2 : scan_loop fuel cfg k (([] : Bytes).length + (x :: X').length + 1) s2
      = some ((flush_buffer2 cfg)^[k] s2) :=
    scan_loop_all_nul fuel cfg k _ s2 (fun j hj => hz j (by
      simp only [List.length_nil] at hj
      omega))
  have h3 := flush_iterate_at_top cfg k s2 rfl hy
  rw [freeform_process_line s x X' hfree hx.2.2]
  show (scan_loop fuel cfg 4096 0 s1).map (line_tail cfg) = _
  rw [h1, h2, h3, Option.map_some', ← hk]
  rfl

/-- A free-form line `X` of ordinary characters read, with the cursor one line below
top-of-page, over a longer earlier line whose tail `W` is still in the buffer: the
scanner shows `X`, then runs on behind the terminator and shows the stale bytes `W`
by a second show-text; the first NUL behind them lifts the cursor by one line. -/
theorem line_over_stale_tail {fuel : Nat} {cfg : Config} {s : State} {X W Z : Bytes}
    (hfree : cfg.GV_IsASA = false) (hX : X ≠ []) (hXo : ∀ c ∈ X, Ordinary c)
    (hW : W ≠ []) (hWo : ∀ c ∈ W, Ordinary c)
    (hb : gets_s X s.buffer1 = X ++ '\x00' :: (W ++ '\x00' :: Z))
    (hZ : ∀ c ∈ Z, c = '\x00') (hlen : X.length + W.length + 3 ≤ 4096)
    (hy : s.GV_PDFPageYPosition < cfg.GV_PageDepth - cfg.GV_PageMarginTop)
    (hy2 : ¬ s.GV_PDFPageYPosition + GV_StandardLineSize cfg * 1
      < cfg.GV_PageDepth - cfg.GV_PageMarginTop) :
    process_line fuel cfg s X =
      some (line_tail cfg
        { read_line s X with
          out := s.out ++ segment_shown cfg s X ++ segment_shown cfg s W,
          GV_PDFPageYPosition := s.GV_PDFPageYPosition + GV_StandardLineSize cfg * 1,
          GV_CurrentLineCount := s.GV_CurrentLineCount + 1
            - ((4096 - X.length - W.length - 2 : Nat) : Int),
          buffer2 := [] }) := by
  obtain ⟨x, X', rfl⟩ := List.exists_cons_of_ne_nil hX
  have hx : Ordinary x := hXo x (List.mem_cons_self _ _)
  obtain ⟨k, hk, e4096⟩ : ∃ k : Nat, k + 1 = 4096 - (x :: X').length - W.length - 2 ∧
      4096 = (x :: X').length + ((W.length + ((k + 1) + 1)) + 1) :=
    ⟨4096 - (x :: X').length - W.length - 3, by omega, by omega⟩
  let s1 : State := { read_line s (x :: X') with buffer2 := [] }
  let s2 : State := emit (segment_shown cfg s (x :: X')) s1
  let s3 : State := emit (segment_shown cfg s W) s2
  have hb1 : s1.buffer1 = [] ++ ((x :: X') ++ '\x00' :: (W ++ '\x00' :: Z)) := hb
  have hb2 : s2.buffer1 = ((x :: X') ++ ['\x00']) ++ (W ++ '\x00' :: Z) := by
    show gets_s (x :: X') s.buffer1 = _
    rw [hb]
    simp
  have h1 : scan_loop fuel cfg 4096 0 s1
      = scan_loop fuel cfg (W.length + ((k + 1) + 1))
          (([] : Bytes).length + (x :: X').length + 1) s2 := by
    rw [e4096]
    exact scan_segment_flush fuel cfg (x :: X') [] _ _ s1 (by simp) hXo hb1 rfl
  have e1 : ([] : Bytes).length + (x :: X').length + 1 = ((x :: X') ++ ['\x00']).length := by
    simp
  have h2 : scan_loop fuel cfg (W.length + ((k + 1) + 1)) (((x :: X') ++ ['\x00']).length) s2
      = scan_loop fuel cfg (k + 1) (((x :: X') ++ ['\x00']).length + W.length + 1) s3 :=
    scan_segment_flush fuel cfg W ((x :: X') ++ ['\x00']) Z (k + 1) s2 hW hWo hb2 rfl
  have h3 : scan_loop fuel cfg (k + 1) (((x :: X') ++ ['\x00']).length + W.length + 1) s3
      = some ((flush_buffer2 cfg)^[k + 1] s3) :=
    scan_loop_all_nul fuel cfg (k + 1) _ s3 (fun j hj => by
      show (gets_s (x :: X') s.buffer1).getD j '\x00' = '\x00'
      rw [hb]
      have hj' : ((x :: X') ++ '\x00' :: W).length + 1 ≤ j := by
        simp only [List.length_append, List.length_cons, List.length_nil] at hj ⊢
        omega
      have e : (x :: X') ++ '\x00' :: (W ++ '\x00' :: Z)
          = ((x :: X') ++ '\x00' :: W) ++ ('\x00' :: Z) := by simp
      rw [e, List.getD_append_right _ _ _ _ (by omega)]
      exact getD_all_nul _ _ (by
        intro c hc
        rcases List.mem_cons.mp hc with rfl | hc
        · rfl
        · exact hZ c hc))
  have h4 := flush_iterate_below_top cfg k s3 rfl hy hy2
  rw [freeform_process_line s x X' hfree hx.2.2]
  show (scan_loop fuel cfg 4096 0 s1).map (line_tail cfg) = _
  rw [h1, e1, h2, h3, h4, Option.map_some', hk]
  rfl

/-- The show-text of a segment when line numbering is off and the current colour is
the base font colour: `T*`, the escaped segment in parentheses, `Tj`. -/
theorem segment_shown_plain (cfg : Config) (s : State) (X : Bytes)
    (hp : s.GV_IsPrintLineNumbers = false) (hc : s.GV_CURRENT_COLOR = cfg.GV_FONT_COLOR) :
    segment_shown cfg s X
      = "T*".toList ++ (("(".toList ++ escape_ref X ++ ")".toList) ++ "Tj\n".toList) := by
  unfold segment_shown pdf_string_bytes
  rw [hp, hc, put_escaped_eq_ref]
  simp

theorem freeform_config_values :
    freeform_config.GV_IsASA = false ∧ 0 < pagebars_height freeform_config ∧
    pagebars_fuel freeform_config = 32 ∧
    freeform_config.GV_PageDepth - freeform_config.GV_PageMarginTop = 576 ∧
    GV_StandardLineSize freeform_config = 9 ∧
    freeform_config.GV_IsPrintLineNumbers = false := by
  refine ⟨rfl, by decide!, by decide!, by decide!, by decide!, rfl⟩

/-- C19, evaluation of the code: in free-form mode with the defaults of `main` and a
zero-filled line buffer, the two-line input `abcdef`, `xy` is processed as follows.
The first line leaves the cursor at 567, one line height of 9 below top-of-page.
The second line writes two show-text operations, `(xy)` and then `(def)`, the bytes
of the first line that are still in the buffer behind the terminator of the second;
and it leaves the cursor at 567, where it was before the line. -/
theorem freeform_second_line_shows_stale_tail :
    ∃ t0 t1 t2,
      start_pdf_page 32 freeform_config (doc_start freeform_config []) = some t0 ∧
      process_line 32 freeform_config t0 "abcdef".toList = some t1 ∧
      process_line 32 freeform_config t1 "xy".toList = some t2 ∧
      t1.out = t0.out ++ "T*(abcdef)Tj\n".toList ∧
      t2.out = t1.out ++ "T*(xy)Tj\nT*(def)Tj\n".toList ∧
      t1.GV_PDFPageYPosition = 567 ∧ t2.GV_PDFPageYPosition = 567 ∧
      GV_StandardLineSize freeform_config = 9 := by
  obtain ⟨hfree, hh, hf, htop, hls, hpl⟩ := freeform_config_values
  obtain ⟨t0, h0⟩ := start_pdf_page_total hh (le_of_eq hf) (doc_start freeform_config [])
  obtain ⟨y0, _, _, _, _, c0, _, p0, b0, _, _⟩ := start_pdf_page_fields h0
  have hb0 : t0.buffer1 = [] := b0
  have hc0 : t0.GV_CURRENT_COLOR = freeform_config.GV_FONT_COLOR := c0
  have hp0 : t0.GV_IsPrintLineNumbers = false := p0
  -- the first line
  have hz : ∀ j, "abcdef".toList.length ≤ j →
      (gets_s "abcdef".toList t0.buffer1).getD j '\x00' = '\x00' := by
    intro j hj
    rw [hb0]
    exact getD_after_line _ _ j (by simp) hj
  have h1 := @plain_line_at_top 32 freeform_config t0 "abcdef".toList hfree (by decide)
    (by decide) (by decide) hz (by rw [y0]; exact lt_irrefl _)
  rw [line_tail_noreset _ _ rfl] at h1
  -- the second line
  have hy1 : (t0.GV_PDFPageYPosition - GV_StandardLineSize freeform_config : ℚ) = 567 := by
    rw [y0, htop, hls]
    norm_num
  let t1 : State :=
    { ({ read_line t0 "abcdef".toList with
          out := t0.out ++ segment_shown freeform_config t0 "abcdef".toList,
          GV_CurrentLineCount := t0.GV_CurrentLineCount + 1
            - ((4095 - "abcdef".toList.length : Nat) : Int),
          buffer2 := [] } : State) with
        GV_PDFPageYPosition := t0.GV_PDFPageYPosition - GV_StandardLineSize freeform_config }
  have hp1 : t1.GV_IsPrintLineNumbers = false := hp0
  have hc1 : t1.GV_CURRENT_COLOR = freeform_config.GV_FONT_COLOR := hc0
  have h2 := @line_over_stale_tail 32 freeform_config t1
    "xy".toList "def".toList [] hfree (by decide) (by decide) (by decide) (by decide)
    (by
      show gets_s "xy".toList (gets_s "abcdef".toList t0.buffer1) = _
      rw [hb0]
      rfl)
    (by simp) (by decide)
    (by
      show t0.GV_PDFPageYPosition - GV_StandardLineSize freeform_config < _
      rw [hy1, htop]
      norm_num)
    (by
      show ¬ t0.GV_PDFPageYPosition - GV_StandardLineSize freeform_config
        + GV_StandardLineSize freeform_config * 1 < _
      rw [hy1, htop, hls]
      norm_num)
  rw [line_tail_noreset _ _ rfl] at h2
  refine ⟨t0, t1, _, h0, h1, h2, ?_, ?_, hy1, ?_, hls⟩
  · show t0.out ++ segment_shown freeform_config t0 "abcdef".toList = _
    rw [segment_shown_plain _ _ _ hp0 hc0]
    rfl
  · show t1.out ++ segment_shown freeform_config t1 "xy".toList
      ++ segment_shown freeform_config t1 "def".toList = _
    rw [segment_shown_plain _ t1 "xy".toList hp1 hc1,
      segment_shown_plain _ t1 "def".toList hp1 hc1, List.append_assoc]
    rfl
  · show t0.GV_PDFPageYPosition - GV_StandardLineSize freeform_config
      + GV_StandardLineSize freeform_config * 1 - GV_StandardLineSize freeform_config = 567
    rw [← hy1]
    ring

/-- The case of the carriage return when the next byte is not NUL: the cursor goes
down one line, the overstrike colour is set and the text position moved up one line
before the collected segment is shown by the `case '\0'` body. -/
theorem scan_switch_cr (fuel : Nat) (cfg : Config) (next : Char) (s : State)
    (hn : next ≠ '\x00') :
    scan_switch fuel cfg '\r' next s =
      some (flush_buffer2 cfg
        { emit ("0 ".toList ++ cfg.fmt_f (GV_StandardLineSize cfg) ++ " Td\n".toList) s with
          GV_PDFPageYPosition :=
            if s.GV_PDFPageYPosition - GV_StandardLineSize cfg
                < cfg.GV_PageDepth - cfg.GV_PageMarginTop then
              s.GV_PDFPageYPosition - GV_StandardLineSize cfg + GV_StandardLineSize cfg * 1
            else s.GV_PDFPageYPosition - GV_StandardLineSize cfg,
          GV_CURRENT_COLOR := cfg.GV_OVERSTRIKE_COLOR,
          bResetColor := true,
          GV_CurrentLineCount := s.GV_CurrentLineCount - 1 }) := by
  unfold scan_switch
  rw [if_neg (by decide), if_pos rfl]
  simp only [adjust_pdf_ypos_eq]
  rw [if_pos hn]
  rfl

/-- Scanning a non-empty run `X` of ordinary characters followed by a carriage return
and a further byte `c`, with `buffer2` empty and the cursor low enough for
`adjust_pdf_ypos` to act: the overstrike colour is set and `0 h Td` written first,
then `X` is shown. -/
theorem scan_segment_cr (fuel : Nat) (cfg : Config) (X pre post : Bytes) (c : Char) (n : Nat)
    (s : State) (hX : X ≠ []) (hXo : ∀ c ∈ X, Ordinary c) (hc : c ≠ '\x00')
    (hb : s.buffer1 = pre ++ (X ++ '\r' :: c :: post)) (hb2 : s.buffer2 = [])
    (ha : s.GV_PDFPageYPosition - GV_StandardLineSize cfg
      < cfg.GV_PageDepth - cfg.GV_PageMarginTop) :
    scan_loop fuel cfg (X.length + (n + 1)) pre.length s =
      scan_loop fuel cfg n (pre.length + X.length + 1)
        (emit ("T*".toList ++ (pdf_string_bytes cfg s.GV_IsPrintLineNumbers
            (s.GV_CurrentLineCount - 1) cfg.GV_OVERSTRIKE_COLOR s.GV_IsExtendedASCII X
              ++ "Tj\n".toList))
          { emit ("0 ".toList ++ cfg.fmt_f (GV_StandardLineSize cfg) ++ " Td\n".toList) s with
            GV_PDFPageYPosition :=
              s.GV_PDFPageYPosition - GV_StandardLineSize cfg + GV_StandardLineSize cfg * 1,
            GV_CURRENT_COLOR := cfg.GV_OVERSTRIKE_COLOR,
            bResetColor := true,
            GV_CurrentLineCount := s.GV_CurrentLineCount - 1 }) := by
  rw [scan_loop_ordinary fuel cfg X pre ('\r' :: c :: post) (n + 1) s hXo hb, scan_loop,
    scan_char]
  have hg : ({ s with buffer2 := s.buffer2 ++ X } : State).buffer1.getD
      (pre.length + X.length) '\x00' = '\r' := by
    show s.buffer1.getD _ _ = _
    rw [hb, ← List.append_assoc, ← List.length_append]
    exact getD_middle _ _ _
  have hg2 : ({ s with buffer2 := s.buffer2 ++ X } : State).buffer1.getD
      (pre.length + X.length + 1) '\x00' = c := by
    show s.buffer1.getD _ _ = _
    have e : pre ++ (X ++ '\r' :: c :: post) = (pre ++ X ++ ['\r']) ++ c :: post := by simp
    have e2 : pre.length + X.length + 1 = (pre ++ X ++ ['\r']).length := by
      simp only [List.length_append, List.length_cons, List.length_nil]
    rw [hb, e, e2]
    exact getD_middle _ _ _
  rw [hg, hg2, scan_switch_cr _ _ _ _ hc, Option.some_bind]
  have ha' : ({ s with buffer2 := s.buffer2 ++ X } : State).GV_PDFPageYPosition
      - GV_StandardLineSize cfg < cfg.GV_PageDepth - cfg.GV_PageMarginTop := ha
  rw [if_pos ha', flush_buffer2_nonempty _ _ (by
    show s.buffer2 ++ X ≠ []
    rw [hb2]
    simpa using hX)]
  congr 1
  show ({ emit (_ ++ (pdf_string_bytes cfg _ _ _ _ (s.buffer2 ++ X) ++ _))
      { emit _ { s with buffer2 := s.buffer2 ++ X } with
        GV_PDFPageYPosition := _, GV_CURRENT_COLOR := _, bResetColor := _,
        GV_CurrentLineCount := _ } with buffer2 := [] } : State) = _
  rw [hb2, List.nil_append]
  show ({ emit _ { emit _ s with
        GV_PDFPageYPosition := _, GV_CURRENT_COLOR := _, bResetColor := _,
        GV_CurrentLineCount := _ } with buffer2 := [] } : State) = _
  rw [← hb2]
  rfl

/-- A free-form line `X`, carriage return, `Y` (`X`, `Y` non-empty runs of ordinary
characters) read one line below top-of-page into a buffer that holds only NUL bytes
behind the line: `0 h Td` is written, then `X` and `Y` are shown by two show-text
operations, both with the overstrike colour as current colour. -/
theorem cr_line_below_top {fuel : Nat} {cfg : Config} {s : State} {X Y : Bytes}
    (hfree : cfg.GV_IsASA = false) (hX : X ≠ []) (hXo : ∀ c ∈ X, Ordinary c)
    (hY : Y ≠ []) (hYo : ∀ c ∈ Y, Ordinary c) (hlen : X.length + Y.length + 3 ≤ 4096)
    (hz : ∀ j, (X ++ '\r' :: Y).length ≤ j →
      (gets_s (X ++ '\r' :: Y) s.buffer1).getD j '\x00' = '\x00')
    (ha : s.GV_PDFPageYPosition - GV_StandardLineSize cfg
      < cfg.GV_PageDepth - cfg.GV_PageMarginTop)
    (hy : s.GV_PDFPageYPosition - GV_StandardLineSize cfg + GV_StandardLineSize cfg * 1
      < cfg.GV_PageDepth - cfg.GV_PageMarginTop)
    (hy2 : ¬ s.GV_PDFPageYPosition - GV_StandardLineSize cfg + GV_StandardLineSize cfg * 1
      + GV_StandardLineSize cfg * 1 < cfg.GV_PageDepth - cfg.GV_PageMarginTop) :
    process_line fuel cfg s (X ++ '\r' :: Y) =
      some (line_tail cfg
        { read_line s (X ++ '\r' :: Y) with
          out := s.out ++ ("0 ".toList ++ cfg.fmt_f (GV_StandardLineSize cfg) ++ " Td\n".toList)
            ++ overstrike_shown cfg s X ++ overstrike_shown cfg s Y,
          GV_PDFPageYPosition := s.GV_PDFPageYPosition - GV_StandardLineSize cfg
            + GV_StandardLineSize cfg * 1 + GV_StandardLineSize cfg * 1,
          GV_CURRENT_COLOR := cfg.GV_OVERSTRIKE_COLOR,
          bResetColor := true,
          GV_CurrentLineCount := s.GV_CurrentLineCount + 1 - 1
            - ((4096 - X.length - Y.length - 2 : Nat) : Int),
          buffer2 := [] }) := by
  obtain ⟨x, X', rfl⟩ := List.exists_cons_of_ne_nil hX
  obtain ⟨y, Y', rfl⟩ := List.exists_cons_of_ne_nil hY
  have hx : Ordinary x := hXo x (List.mem_cons_self _ _)
  have hyo : Ordinary y := hYo y (List.mem_cons_self _ _)
  obtain ⟨k, hk, e4096⟩ : ∃ k : Nat, k + 1 = 4096 - (x :: X').length - (y :: Y').length - 2 ∧
      4096 = (x :: X').length + (((y :: Y').length + ((k + 1) + 1)) + 1) :=
    ⟨4096 - (x :: X').length - (y :: Y').length - 3, by omega, by omega⟩
  let line : Bytes := (x :: X') ++ '\r' :: (y :: Y')
  let s1 : State := { read_line s line with buffer2 := [] }
  let s2 : State :=
    emit (overstrike_shown cfg s (x :: X'))
      { emit ("0 ".toList ++ cfg.fmt_f (GV_StandardLineSize cfg) ++ " Td\n".toList) s1 with
        GV_PDFPageYPosition :=
          s.GV_PDFPageYPosition - GV_StandardLineSize cfg + GV_StandardLineSize cfg * 1,
        GV_CURRENT_COLOR := cfg.GV_OVERSTRIKE_COLOR,
        bResetColor := true,
        GV_CurrentLineCount := s.GV_CurrentLineCount + 1 - 1 }
  let s3 : State := emit (overstrike_shown cfg s (y :: Y')) s2
  have hb1 : s1.buffer1 = [] ++ ((x :: X') ++ '\r' :: y
      :: (Y' ++ '\x00' :: s.buffer1.drop (line.length + 1))) := by
    show gets_s line s.buffer1 = _
    unfold gets_s
    simp [line]
  have hb2 : s2.buffer1 = ((x :: X') ++ ['\r']) ++ ((y :: Y') ++ '\x00'
      :: s.buffer1.drop (line.length + 1)) := by
    show gets_s line s.buffer1 = _
    unfold gets_s
    simp [line]
  have h1 : scan_loop fuel cfg 4096 0 s1
      = scan_loop fuel cfg ((y :: Y').length + ((k + 1) + 1))
          (([] : Bytes).length + (x :: X').length + 1) s2 := by
    rw [e4096]
    exact scan_segment_cr fuel cfg (x :: X') [] _ y _ s1 (by simp) hXo hyo.2.2 hb1 rfl ha
  have e1 : ([] : Bytes).length + (x :: X').length + 1 = ((x :: X') ++ ['\r']).length := by
    simp
  have h2 : scan_loop fuel cfg ((y :: Y').length + ((k + 1) + 1))
        (((x :: X') ++ ['\r']).length) s2
      = scan_loop fuel cfg (k + 1) (((x :: X') ++ ['\r']).length + (y :: Y').length + 1) s3 :=
    scan_segment_flush fuel cfg (y :: Y') ((x :: X') ++ ['\r']) _ (k + 1) s2 (by simp) hYo
      hb2 rfl
  have h3 : scan_loop fuel cfg (k + 1)
        (((x :: X') ++ ['\r']).length + (y :: Y').length + 1) s3
      = some ((flush_buffer2 cfg)^[k + 1] s3) :=
    scan_loop_all_nul fuel cfg (k + 1) _ s3 (fun j hj => hz j (by
      simp only [List.length_append, List.length_cons, List.length_nil] at hj ⊢
      omega))
  have h4 := flush_iterate_below_top cfg k s3 rfl hy hy2
  show process_line fuel cfg s (x :: (X' ++ '\r' :: y :: Y')) = _
  rw [freeform_process_line s x (X' ++ '\r' :: y :: Y') hfree hx.2.2]
  show (scan_loop fuel cfg 4096 0 s1).map (line_tail cfg) = _
  rw [h1, e1, h2, h3, h4, Option.map_some', hk]
  rfl

theorem overstrike_shown_unnumbered (cfg : Config) (s : State) (X : Bytes)
    (hp : s.GV_IsPrintLineNumbers = false) :
    overstrike_shown cfg s X
      = "T*".toList ++ (pdf_string_bytes cfg false 0 cfg.GV_OVERSTRIKE_COLOR false X
          ++ "Tj\n".toList) := by
  unfold overstrike_shown pdf_string_bytes
  rw [hp]
  simp

theorem overstrike_config_values :
    overstrike_config.GV_IsASA = false ∧ 0 < pagebars_height overstrike_config ∧
    pagebars_fuel overstrike_config = 32 ∧
    overstrike_config.GV_PageDepth - overstrike_config.GV_PageMarginTop = 576 ∧
    GV_StandardLineSize overstrike_config = 9 ∧
    overstrike_config.GV_IsPrintLineNumbers = false := by
  refine ⟨rfl, by decide!, by decide!, by decide!, by decide!, rfl⟩

/-- C20, evaluation of the code: in free-form mode with overstrike colour red
(`-A 0 -o FF0000`, base font colour black) and a zero-filled line buffer, the input
`first`, then `ab` carriage-return `cd` is processed as follows.  The first line
leaves the cursor at 567, below top-of-page 576.  For the second line the code
writes `0 9 Td` (text position up one line) and sets the overstrike colour before
anything is shown; then `ab` is shown after `T*` with the colour operator
`1 0 0 rg`, that is in the overstrike colour and on the baseline of the previous
line; then `cd` is shown after a further `T*`, one line lower, also in the
overstrike colour. -/
theorem freeform_cr_shows_first_segment_in_overstrike :
    ∃ t0 t1 t2,
      start_pdf_page 32 overstrike_config (doc_start overstrike_config []) = some t0 ∧
      process_line 32 overstrike_config t0 "first".toList = some t1 ∧
      process_line 32 overstrike_config t1 "ab\rcd".toList = some t2 ∧
      t1.GV_PDFPageYPosition = 567 ∧
      overstrike_config.GV_PageDepth - overstrike_config.GV_PageMarginTop = 576 ∧
      t2.out = t1.out ++ ("0 9.000000 Td\n".toList
        ++ "T* 1.000000 0.000000 0.000000 rg\n(ab)Tj\n".toList
        ++ "T* 1.000000 0.000000 0.000000 rg\n(cd)Tj\n".toList
        ++ "0.000000 0.000000 0.000000 rg\n".toList) ∧
      overstrike_config.GV_OVERSTRIKE_COLOR = { r := 1, g := 0, b := 0 } ∧
      overstrike_config.GV_FONT_COLOR = { r := 0, g := 0, b := 0 } := by
  obtain ⟨hfree, hh, hf, htop, hls, hpl⟩ := overstrike_config_values
  obtain ⟨t0, h0⟩ := start_pdf_page_total hh (le_of_eq hf) (doc_start overstrike_config [])
  obtain ⟨y0, _, _, _, _, c0, _, p0, b0, _, _⟩ := start_pdf_page_fields h0
  have hb0 : t0.buffer1 = [] := b0
  have hc0 : t0.GV_CURRENT_COLOR = overstrike_config.GV_FONT_COLOR := c0
  have hp0 : t0.GV_IsPrintLineNumbers = false := p0
  -- the first line
  have hz : ∀ j, "first".toList.length ≤ j →
      (gets_s "first".toList t0.buffer1).getD j '\x00' = '\x00' := by
    intro j hj
    rw [hb0]
    exact getD_after_line _ _ j (by simp) hj
  have h1 := @plain_line_at_top 32 overstrike_config t0 "first".toList hfree (by decide)
    (by decide) (by decide) hz (by rw [y0]; exact lt_irrefl _)
  rw [line_tail_noreset _ _ rfl] at h1
  have hy1 : (t0.GV_PDFPageYPosition - GV_StandardLineSize overstrike_config : ℚ) = 567 := by
    rw [y0, htop, hls]
    norm_num
  let t1 : State :=
    { ({ read_line t0 "first".toList with
          out := t0.out ++ segment_shown overstrike_config t0 "first".toList,
          GV_CurrentLineCount := t0.GV_CurrentLineCount + 1
            - ((4095 - "first".toList.length : Nat) : Int),
          buffer2 := [] } : State) with
        GV_PDFPageYPosition := t0.GV_PDFPageYPosition - GV_StandardLineSize overstrike_config }
  have hp1 : t1.GV_IsPrintLineNumbers = false := hp0
  have hyt : t1.GV_PDFPageYPosition = 567 := hy1
  -- the second line
  have hz2 : ∀ j, ("ab".toList ++ '\r' :: "cd".toList).length ≤ j →
      (gets_s ("ab".toList ++ '\r' :: "cd".toList) t1.buffer1).getD j '\x00' = '\x00' := by
    intro j hj
    have e : t1.buffer1 = gets_s "first".toList t0.buffer1 := rfl
    have eL : gets_s ("ab".toList ++ '\r' :: "cd".toList) (gets_s "first".toList [])
        = ("ab".toList ++ '\r' :: "cd".toList) ++ ['\x00'] := by decide
    rw [e, hb0, eL, List.getD_append_right _ _ _ _ hj]
    exact getD_all_nul _ _ (by simp)
  have h2 := @cr_line_below_top 32 overstrike_config t1 "ab".toList "cd".toList hfree
    (by decide) (by decide) (by decide) (by decide) (by decide) hz2
    (by rw [hyt, htop, hls]; norm_num) (by rw [hyt, htop, hls]; norm_num)
    (by rw [hyt, htop, hls]; norm_num)
  rw [line_tail_reset _ _ rfl] at h2
  refine ⟨t0, t1, _, h0, h1, h2, hy1, htop, ?_, by decide!, by decide!⟩
  show t1.out ++ _ ++ overstrike_shown overstrike_config t1 "ab".toList
    ++ overstrike_shown overstrike_config t1 "cd".toList ++ _ = _
  rw [overstrike_shown_unnumbered _ t1 "ab".toList hp1,
    overstrike_shown_unnumbered _ t1 "cd".toList hp1]
  simp only [List.append_assoc]
  congr 2
  decide!

theorem shift_and_byte (x k : Nat) : (x >>> k) &&& 0xFF = x / 2 ^ k % 256 := by
  have h : (0xFF : Nat) = 2 ^ 8 - 1 := rfl
  rw [h, Nat.and_pow_two_sub_one_eq_mod, Nat.shiftRight_eq_div_pow]

theorem to_long_byte (k : Nat) : to_long ((k : ℚ) / 255 * 255) = k := by
  have e : (k : ℚ) / 255 * 255 = k := by
    rw [div_mul_cancel₀]
    norm_num
  rw [e]
  unfold to_long
  rw [if_pos (Nat.cast_nonneg k)]
  exact Int.floor_natCast k

theorem byte_unit_interval (k : Nat) (h : k < 256) :
    0 ≤ (k : ℚ) / 255 ∧ (k : ℚ) / 255 ≤ 1 := by
  constructor
  · positivity
  · rw [div_le_one (by norm_num)]
    have : k ≤ 255 := by omega
    exact_mod_cast this

/-- C22: for every packed colour `x` with `0 ≤ x ≤ 0xFFFFFF`, `colorConverter x` is the
triple `(RR/255, GG/255, BB/255)` of the three bytes of `x`, each component lies in the
unit interval, and `colorInverter` recovers `x` from it (floating values are exact
rationals). -/
theorem color_converter_round_trip (x : Nat) (hx : x ≤ 0xFFFFFF) :
    colorConverter x = { r := ((x / 65536 % 256 : Nat) : ℚ) / 255
                         g := ((x / 256 % 256 : Nat) : ℚ) / 255
                         b := ((x % 256 : Nat) : ℚ) / 255 } ∧
    (0 ≤ (colorConverter x).r ∧ (colorConverter x).r ≤ 1) ∧
    (0 ≤ (colorConverter x).g ∧ (colorConverter x).g ≤ 1) ∧
    (0 ≤ (colorConverter x).b ∧ (colorConverter x).b ≤ 1) ∧
    colorInverter (colorConverter x) = x := by
  have e : colorConverter x = { r := ((x / 65536 % 256 : Nat) : ℚ) / 255
                                g := ((x / 256 % 256 : Nat) : ℚ) / 255
                                b := ((x % 256 : Nat) : ℚ) / 255 } := by
    unfold colorConverter
    have h0 : x &&& 0xFF = x % 256 := by
      have := shift_and_byte x 0
      simpa using this
    rw [shift_and_byte x 16, shift_and_byte x 8, h0]
    rfl
  refine ⟨e, ?_, ?_, ?_, ?_⟩
  · rw [e]; exact byte_unit_interval _ (Nat.mod_lt _ (by norm_num))
  · rw [e]; exact byte_unit_interval _ (Nat.mod_lt _ (by norm_num))
  · rw [e]; exact byte_unit_interval _ (Nat.mod_lt _ (by norm_num))
  · rw [e]
    unfold colorInverter
    simp only [to_long_byte]
    have hx' : x ≤ 16777215 := hx
    omega

theorem color_converter_round_trip_witness :
    (0x330099 : Nat) ≤ 0xFFFFFF ∧
    colorInverter (colorConverter 0x330099) = ((0x330099 : Nat) : Int) :=
  ⟨by decide, (color_converter_round_trip 0x330099 (by decide)).2.2.2.2⟩

theorem blue_is_unit_b : colorConverter 0x0000FF = { r := 0, g := 0, b := 1 } := by decide!

/-- C24, counterexample: as the first line of a document in the default configuration,
`rtext` leaves the current colour after control handling at the font colour black
`(0, 0, 0)`, which is not blue: the inner `switch` of the cases `r`, `g`, `b` has the
labels `R`, `g`, `b`, so the code `r` matches none of them. -/
theorem lower_r_code_changes_no_colour :
    ((start_pdf_page 40 (default_config fmt_fixed6 fmt_fixed6)
        (doc_start (default_config fmt_fixed6 fmt_fixed6) [])).bind fun t0 =>
      (asa_switch 40 (default_config fmt_fixed6 fmt_fixed6) 'r'
        (read_line t0 "rtext".toList)).map fun t => t.GV_CURRENT_COLOR)
      = some { r := 0, g := 0, b := 0 } ∧
    ({ r := 0, g := 0, b := 0 } : RGB) ≠ { r := 0, g := 0, b := 1 } := by
  refine ⟨by decide!, by decide⟩

/-- C24, amended: for every control code in `R`, `G`, `B`, `g`, `b`, control handling
returns and the current colour after it is blue `(0, 0, 1)`, whichever of the five
codes matched. -/
theorem colour_codes_except_r_give_blue (fuel : Nat) (cfg : Config) (s : State) (c : Char)
    (hc : c = 'R' ∨ c = 'G' ∨ c = 'B' ∨ c = 'g' ∨ c = 'b') :
    ∃ t, asa_switch fuel cfg c s = some t ∧ t.GV_CURRENT_COLOR = { r := 0, g := 0, b := 1 } := by
  have h : ∃ u : State, u.GV_CURRENT_COLOR = colorConverter 0x0000FF ∧
      (asa_switch fuel cfg c s = some u ∨
        ∃ d : Int, asa_switch fuel cfg c s
          = some { adjust_pdf_ypos cfg 1 u with GV_CurrentLineCount := d }) := by
    rcases hc with rfl | rfl | rfl | rfl | rfl
    · exact ⟨_, rfl, Or.inr ⟨_, rfl⟩⟩
    · exact ⟨_, rfl, Or.inr ⟨_, rfl⟩⟩
    · exact ⟨_, rfl, Or.inr ⟨_, rfl⟩⟩
    · exact ⟨{ s with GV_CURRENT_COLOR := colorConverter 0x0000FF, bResetColor := true },
        rfl, Or.inl rfl⟩
    · exact ⟨{ s with GV_CURRENT_COLOR := colorConverter 0x0000FF, bResetColor := true },
        rfl, Or.inl rfl⟩
  obtain ⟨u, hu, h | ⟨d, h⟩⟩ := h
  · exact ⟨u, h, by rw [hu, blue_is_unit_b]⟩
  · refine ⟨_, h, ?_⟩
    show (adjust_pdf_ypos cfg 1 u).GV_CURRENT_COLOR = _
    rw [(adjust_pdf_ypos_fields cfg 1 u).1, hu, blue_is_unit_b]

theorem colour_codes_except_r_give_blue_witness :
    ∃ t, asa_switch 40 (default_config fmt_fixed6 fmt_fixed6) 'g' top_state = some t ∧
      t.GV_CURRENT_COLOR = { r := 0, g := 0, b := 1 } :=
  colour_codes_except_r_give_blue 40 (default_config fmt_fixed6 fmt_fixed6) top_state 'g'
    (Or.inr (Or.inr (Or.inr (Or.inl rfl))))

/-- C25, counterexample: the first call of a run, `start_pdf_object(2)` with capacity 0,
makes the capacity 1000; the call `start_pdf_object(1000)` at capacity 1000 makes it
2200, not `1000 + max(1000/5, 1000) = 2000`. -/
theorem growth_at_capacity_thousand :
    (start_pdf_object 2 (doc_start (default_config fmt_fixed6 fmt_fixed6) [])).GV_PDFXRefCount
      = 1000 ∧
    (start_pdf_object 1000 (start_pdf_object 2
      (doc_start (default_config fmt_fixed6 fmt_fixed6) []))).GV_PDFXRefCount = 2200 ∧
    (2200 : Nat) ≠ 1000 + max (1000 / 5) 1000 := by
  refine ⟨by decide, by decide, by decide⟩

/-- C25, amended: whenever `start_pdf_object` is called with an id that is not below the
current capacity `C` of the offset table, the capacity after the call is
`C + C/5 + 1000` when `C/5 < 1000` and `C + C/5` otherwise (integer division); this is
`C + max(C/5, 1000)` when `C < 5` or `5000 ≤ C`, and never less than that. -/
theorem capacity_after_growth (id : Nat) (s : State) (h : s.GV_PDFXRefCount ≤ id) :
    (start_pdf_object id s).GV_PDFXRefCount =
      s.GV_PDFXRefCount + (if s.GV_PDFXRefCount / 5 < 1000 then s.GV_PDFXRefCount / 5 + 1000
                           else s.GV_PDFXRefCount / 5) ∧
    (s.GV_PDFXRefCount < 5 ∨ 5000 ≤ s.GV_PDFXRefCount →
      (start_pdf_object id s).GV_PDFXRefCount
        = s.GV_PDFXRefCount + max (s.GV_PDFXRefCount / 5) 1000) ∧
    s.GV_PDFXRefCount + max (s.GV_PDFXRefCount / 5) 1000
      ≤ (start_pdf_object id s).GV_PDFXRefCount := by
  have e : (start_pdf_object id s).GV_PDFXRefCount =
      s.GV_PDFXRefCount + (if s.GV_PDFXRefCount / 5 < 1000 then s.GV_PDFXRefCount / 5 + 1000
                           else s.GV_PDFXRefCount / 5) := by
    unfold start_pdf_object
    simp only [ge_iff_le, h, if_true]
    rfl
  refine ⟨e, ?_, ?_⟩
  · intro hC
    rw [e]
    split_ifs with h1
    · rcases hC with hC | hC
      · have : s.GV_PDFXRefCount / 5 = 0 := by omega
        rw [this]; rfl
      · omega
    · rw [max_eq_left (by omega)]
  · rw [e]
    split_ifs with h1
    · have := max_le (a := s.GV_PDFXRefCount / 5) (b := 1000) (c := s.GV_PDFXRefCount / 5 + 1000)
        (by omega) (by omega)
      omega
    · rw [max_eq_left (by omega)]

theorem capacity_after_growth_witness :
    (start_pdf_object 2 (doc_start (default_config fmt_fixed6 fmt_fixed6) [])).GV_PDFXRefCount
      = 0 + (if 0 / 5 < 1000 then 0 / 5 + 1000 else 0 / 5) :=
  (capacity_after_growth 2 (doc_start (default_config fmt_fixed6 fmt_fixed6) [])
    (Nat.zero_le 2)).1

theorem band_stride_pos (cfg : Config) : 0 < band_stride cfg := by
  unfold band_stride
  split_ifs <;> norm_num

theorem band_count_step (cfg : Config) (h y : ℚ) (hh : 0 < h)
    (hy : y ≥ cfg.GV_PageMarginBottom - h) :
    band_count cfg h y = band_count cfg h (y - band_stride cfg * h) + 1 := by
  have hm := band_stride_pos cfg
  have hmh : 0 < band_stride cfg * h := mul_pos hm hh
  have e : (y - band_stride cfg * h - cfg.GV_PageMarginBottom + h) / (band_stride cfg * h)
      = (y - cfg.GV_PageMarginBottom + h) / (band_stride cfg * h) - 1 := by
    field_simp
    ring
  have hq : 0 ≤ (y - cfg.GV_PageMarginBottom + h) / (band_stride cfg * h) :=
    div_nonneg (by linarith) hmh.le
  unfold band_count
  rw [if_pos hy]
  by_cases hy2 : y - band_stride cfg * h ≥ cfg.GV_PageMarginBottom - h
  · rw [if_pos hy2, e]
    have h1 : 1 ≤ (y - cfg.GV_PageMarginBottom + h) / (band_stride cfg * h) := by
      rw [le_div_iff₀ hmh]
      linarith
    have h2 : (1 : Int) ≤ ⌊(y - cfg.GV_PageMarginBottom + h) / (band_stride cfg * h)⌋ :=
      Int.le_floor.mpr (by exact_mod_cast h1)
    rw [Int.floor_sub_one]
    omega
  · rw [if_neg hy2]
    have h1 : (y - cfg.GV_PageMarginBottom + h) / (band_stride cfg * h) < 1 := by
      rw [div_lt_iff₀ hmh]
      linarith [not_le.mp hy2]
    have h2 : ⌊(y - cfg.GV_PageMarginBottom + h) / (band_stride cfg * h)⌋ = 0 := by
      rw [Int.floor_eq_iff]
      exact ⟨by exact_mod_cast hq, by simpa using h1⟩
    rw [h2]
    rfl

theorem bands_text_shift (cfg : Config) (x1 w h y0 : ℚ) :
    ∀ (n k : Nat), bands_text cfg x1 w h y0 n (k + 1)
      = bands_text cfg x1 w h (y0 - band_stride cfg * h) n k := by
  intro n
  induction n with
  | zero => intro k; rfl
  | succ n ih =>
    intro k
    rw [bands_text, bands_text, ih (k + 1)]
    congr 2
    push_cast
    ring

theorem pagebars_loop_bands (cfg : Config) (x1 w h : ℚ) (hh : 0 < h) :
    ∀ (fuel : Nat) (y1 step : ℚ) (s : State), (cfg.GV_DashCode ≠ [] → step = 1) →
      band_count cfg h y1 < fuel →
      pagebars_loop cfg x1 w h fuel y1 step s
        = some (emit (bands_text cfg x1 w h y1 (band_count cfg h y1) 0) s) := by
  intro fuel
  induction fuel with
  | zero => intro y1 step s _ hf; omega
  | succ n ih =>
    intro y1 step s hstep hf
    rw [pagebars_loop]
    by_cases hy : y1 ≥ cfg.GV_PageMarginBottom - h
    · rw [if_pos hy]
      have hc := band_count_step cfg h y1 hh hy
      have hb : bands_text cfg x1 w h y1 (band_count cfg h y1) 0
          = band_text cfg x1 w h y1
            ++ bands_text cfg x1 w h (y1 - band_stride cfg * h)
                (band_count cfg h (y1 - band_stride cfg * h)) 0 := by
        rw [hc, bands_text, bands_text_shift]
        congr 2
        push_cast
        ring
      rw [hb]
      by_cases hd : cfg.GV_DashCode = []
      · have hm : band_stride cfg = 2 := by unfold band_stride; rw [if_pos hd]
        rw [if_pos hd, ih _ 2 _ (fun h0 => absurd hd h0) (by rw [hm] at hc; omega), emit_emit]
        rw [hm]
        unfold band_text
        rw [if_pos hd]
      · have hm : band_stride cfg = 1 := by unfold band_stride; rw [if_neg hd]
        have hs1 := hstep hd
        subst hs1
        rw [if_neg hd, ih _ 1 _ (fun _ => rfl) (by rw [hm] at hc; omega), emit_emit, emit_emit]
        rw [hm]
        unfold band_text
        rw [if_neg hd]
        simp only [List.append_assoc]
    · rw [if_neg hy]
      have hc : band_count cfg h y1 = 0 := by unfold band_count; rw [if_neg hy]
      rw [hc]
      show some s = some (emit [] s)
      rw [emit_nil]

theorem band_count_iff (cfg : Config) (h y0 : ℚ) (hh : 0 < h) (k : Nat) :
    k < band_count cfg h y0 ↔
      y0 - (k : ℚ) * band_stride cfg * h ≥ cfg.GV_PageMarginBottom - h := by
  have hm := band_stride_pos cfg
  have hmh : 0 < band_stride cfg * h := mul_pos hm hh
  have hk : 0 ≤ (k : ℚ) * (band_stride cfg * h) := mul_nonneg (Nat.cast_nonneg k) hmh.le
  unfold band_count
  by_cases hy : y0 ≥ cfg.GV_PageMarginBottom - h
  · rw [if_pos hy]
    have hq : 0 ≤ (y0 - cfg.GV_PageMarginBottom + h) / (band_stride cfg * h) :=
      div_nonneg (by linarith) hmh.le
    have hf : 0 ≤ ⌊(y0 - cfg.GV_PageMarginBottom + h) / (band_stride cfg * h)⌋ :=
      Int.floor_nonneg.mpr hq
    have e1 : k < Int.toNat ⌊(y0 - cfg.GV_PageMarginBottom + h) / (band_stride cfg * h)⌋ + 1
        ↔ (k : Int) ≤ ⌊(y0 - cfg.GV_PageMarginBottom + h) / (band_stride cfg * h)⌋ := by
      omega
    rw [e1, Int.le_floor, le_div_iff₀ hmh]
    push_cast
    constructor <;> intro h1 <;> linarith
  · rw [if_neg hy]
    constructor
    · intro h1; omega
    · intro h1
      exact absurd (by linarith : y0 ≥ cfg.GV_PageMarginBottom - h) hy

theorem pagebars_height_pos (cfg : Config) (hs : 1 ≤ cfg.GV_ShadeStep)
    (hl : 0 < GV_StandardLineSize cfg) : 0 < pagebars_height cfg := by
  unfold pagebars_height
  have : (0 : ℚ) < (cfg.GV_ShadeStep : ℚ) := by
    have : (1 : ℚ) ≤ (cfg.GV_ShadeStep : ℚ) := by exact_mod_cast hs
    linarith
  exact mul_pos this hl

/-- C30: for every layout with `GV_ShadeStep ≥ 1` and positive standard line height, the
band loop of `print_pdf_pagebars` terminates (every iteration budget above the band
count suffices) and the function writes its prologue, the bands and its epilogue.  With
`h = GV_ShadeStep * GV_StandardLineSize`, `y0 = GV_PageDepth - GV_PageMarginTop - h -
0.22 * GV_BodyFontSize` and `m = 2` for filled bars (empty dash pattern), `m = 1` for
dashed rules, the bands are drawn at `y0 - k * m * h` for `k = 0, 1, …` exactly while
that value is `≥ GV_PageMarginBottom - h`; their number is
`⌊(y0 - GV_PageMarginBottom + h) / (m * h)⌋ + 1` when `y0 ≥ GV_PageMarginBottom - h` and
0 otherwise. -/
theorem pagebars_band_loop_terminates (cfg : Config) (hs : 1 ≤ cfg.GV_ShadeStep)
    (hl : 0 < GV_StandardLineSize cfg) (fuel : Nat)
    (hf : band_count cfg (pagebars_height cfg) (pagebars_y1 cfg) < fuel) (s : State) :
    print_pdf_pagebars fuel cfg s =
      some (emit (pagebars_epilogue cfg)
        (emit (bands_text cfg (cfg.GV_PageMarginLeft - (1 / 10 : ℚ) * GV_BodyFontSize cfg)
                (cfg.GV_PageWidth - cfg.GV_PageMarginLeft - cfg.GV_PageMarginRight)
                (pagebars_height cfg) (pagebars_y1 cfg)
                (band_count cfg (pagebars_height cfg) (pagebars_y1 cfg)) 0)
          (emit (pagebars_prologue cfg) s))) ∧
    (∀ k : Nat, k < band_count cfg (pagebars_height cfg) (pagebars_y1 cfg) ↔
      pagebars_y1 cfg - (k : ℚ) * band_stride cfg * pagebars_height cfg
        ≥ cfg.GV_PageMarginBottom - pagebars_height cfg) ∧
    band_count cfg (pagebars_height cfg) (pagebars_y1 cfg) =
      (if pagebars_y1 cfg ≥ cfg.GV_PageMarginBottom - pagebars_height cfg then
        Int.toNat ⌊(pagebars_y1 cfg - cfg.GV_PageMarginBottom + pagebars_height cfg)
          / (band_stride cfg * pagebars_height cfg)⌋ + 1
       else 0) ∧
    pagebars_height cfg = (cfg.GV_ShadeStep : ℚ) * GV_StandardLineSize cfg ∧
    pagebars_y1 cfg = cfg.GV_PageDepth - cfg.GV_PageMarginTop - pagebars_height cfg
      - (22 / 100 : ℚ) * GV_BodyFontSize cfg ∧
    band_stride cfg = (if cfg.GV_DashCode = [] then 2 else 1) := by
  have hh := pagebars_height_pos cfg hs hl
  refine ⟨?_, fun k => band_count_iff cfg _ _ hh k, rfl, rfl, rfl, rfl⟩
  have hloop := pagebars_loop_bands cfg
    (cfg.GV_PageMarginLeft - (1 / 10 : ℚ) * GV_BodyFontSize cfg)
    (cfg.GV_PageWidth - cfg.GV_PageMarginLeft - cfg.GV_PageMarginRight)
    (pagebars_height cfg) hh fuel (pagebars_y1 cfg) 1
  unfold print_pdf_pagebars
  show (pagebars_loop cfg _ _ (pagebars_height cfg) fuel (pagebars_y1 cfg) 1 _).map _ = _
  rw [hloop _ (fun _ => rfl) hf]
  unfold pagebars_prologue pagebars_epilogue
  by_cases hd : cfg.GV_DashCode ≠ []
  · simp only [if_pos hd, Option.map_some', emit_emit, List.append_assoc]
  · simp only [if_neg hd, Option.map_some', emit_emit, List.append_assoc, List.append_nil,
      List.nil_append]

theorem pagebars_band_loop_terminates_witness :
    band_count (default_config fmt_fixed6 fmt_fixed6)
        (pagebars_height (default_config fmt_fixed6 fmt_fixed6))
        (pagebars_y1 (default_config fmt_fixed6 fmt_fixed6)) = 15 ∧
    print_pdf_pagebars 32 (default_config fmt_fixed6 fmt_fixed6) top_state =
      some (emit (pagebars_epilogue (default_config fmt_fixed6 fmt_fixed6))
        (emit (bands_text (default_config fmt_fixed6 fmt_fixed6)
                ((default_config fmt_fixed6 fmt_fixed6).GV_PageMarginLeft
                  - (1 / 10 : ℚ) * GV_BodyFontSize (default_config fmt_fixed6 fmt_fixed6))
                ((default_config fmt_fixed6 fmt_fixed6).GV_PageWidth
                  - (default_config fmt_fixed6 fmt_fixed6).GV_PageMarginLeft
                  - (default_config fmt_fixed6 fmt_fixed6).GV_PageMarginRight)
                (pagebars_height (default_config fmt_fixed6 fmt_fixed6))
                (pagebars_y1 (default_config fmt_fixed6 fmt_fixed6)) 15 0)
          (emit (pagebars_prologue (default_config fmt_fixed6 fmt_fixed6)) top_state))) := by
  have hc : band_count (default_config fmt_fixed6 fmt_fixed6)
        (pagebars_height (default_config fmt_fixed6 fmt_fixed6))
        (pagebars_y1 (default_config fmt_fixed6 fmt_fixed6)) = 15 := by decide!
  have h := (pagebars_band_loop_terminates (default_config fmt_fixed6 fmt_fixed6)
    (by decide) (by decide!) 32 (by decide!) top_state).1
  rw [hc] at h
  exact ⟨hc, h⟩

theorem put_escaped_extended (b : Bytes) : put_escaped true b = b.map shift127 := by
  induction b with
  | nil => rfl
  | cons c rest ih =>
    rw [put_escaped, if_pos rfl, ih]
    rfl

theorem show_payload_shown (cfg : Config) (payload : Bytes) (w : State) :
    show_payload cfg payload w
      = shown_line cfg (put_escaped w.GV_IsExtendedASCII payload) w := by
  unfold show_payload shown_line
  rw [print_pdf_string_bytes, emit_emit, emit_emit]
  unfold pdf_string_bytes string_prefix
  simp only [List.append_assoc]
  rfl

theorem asa_switch_buffer {fuel : Nat} {cfg : Config} {c : Char} {s : State} :
    ∀ t, asa_switch fuel cfg c s = some t → t.buffer1 = s.buffer1 := by
  unfold asa_switch
  simp only [adjust_pdf_ypos_eq]
  repeat (first
    | exact fun t ht => (page_break_fields ht).buffer1
    | exact all_some rfl
    | exact all_some (by split_ifs <;> rfl)
    | apply all_ite)

theorem asa_switch_ext {fuel : Nat} {cfg : Config} {c : Char} {s : State} (hc : c ≠ '^') :
    ∀ t, asa_switch fuel cfg c s = some t → t.GV_IsExtendedASCII = s.GV_IsExtendedASCII := by
  unfold asa_switch
  simp only [adjust_pdf_ypos_eq, hc, if_false]
  repeat (first
    | exact fun t ht => (page_break_fields ht).ext
    | exact all_some rfl
    | exact all_some (by split_ifs <;> rfl)
    | apply all_ite)

theorem asa_switch_caret (fuel : Nat) (cfg : Config) (s : State) :
    ∃ w, asa_switch fuel cfg '^' s = some w ∧ w.GV_IsExtendedASCII = true :=
  ⟨_, rfl, rfl⟩

theorem overflow_break_ext {fuel : Nat} {cfg : Config} {s t : State}
    (h : overflow_break fuel cfg s = some t) : t.GV_IsExtendedASCII = s.GV_IsExtendedASCII := by
  unfold overflow_break at h
  split at h
  · exact (page_break_fields h).ext
  · rw [← Option.some.inj h]

/-- One ASA line `c :: payload` with `c` not NUL: overflow test, control code, then
the payload as one show-text operation. -/
theorem asa_process_line {fuel : Nat} {cfg : Config} (s : State) (c : Char) (payload : Bytes)
    (hasa : cfg.GV_IsASA = true) (hc : c ≠ '\x00') :
    process_line fuel cfg s (c :: payload) =
      ((overflow_break fuel cfg (read_line s (c :: payload))).bind
        (asa_switch fuel cfg c)).map (show_payload cfg (cstr payload)) := by
  rw [process_line_eq]
  cases hu : overflow_break fuel cfg (read_line s (c :: payload)) with
  | none => rfl
  | some u =>
    have hb : u.buffer1 = c :: (payload ++ '\x00' :: s.buffer1.drop (payload.length + 1 + 1)) := by
      rw [overflow_break_buffer hu, buffer_after_read]
    rw [Option.some_bind, Option.some_bind, asa_line_after_read hasa hc hb]
    cases hv : asa_switch fuel cfg c u with
    | none => rfl
    | some v =>
      rw [Option.map_some', Option.map_some', asa_switch_buffer v hv, hb]
      simp only [List.drop_succ_cons, List.drop_zero, cstr_append_nul]

/-- C21: in ASA mode, a line `^payload` (the payload being the characters of a C string)
is processed to completion when the band depth is positive and the iteration budget is
at least `pagebars_fuel`; the control code sets the extended flag, and the bytes
written between the string delimiters are, in order, `(c + 127) mod 256` for each
payload character `c`, one byte per character, so no escape character is inserted.
Reading any line clears the flag: for every state (also one left by a `^` line) and
every following line whose control code is not `^`, the payload is shown with the
flag clear, that is unshifted (with the escapes of `put_escaped false`). -/
theorem extended_line_shifts_payload (fuel : Nat) (cfg : Config) (s : State) (payload : Bytes)
    (hasa : cfg.GV_IsASA = true) (hp : ∀ c ∈ payload, c ≠ '\x00') :
    (0 < pagebars_height cfg → pagebars_fuel cfg ≤ fuel →
      ∃ t, process_line fuel cfg s ('^' :: payload) = some t) ∧
    (∀ t, process_line fuel cfg s ('^' :: payload) = some t →
      ∃ v w : State, overflow_break fuel cfg (read_line s ('^' :: payload)) = some v ∧
        asa_switch fuel cfg '^' v = some w ∧ w.GV_IsExtendedASCII = true ∧
        t = shown_line cfg (payload.map fun c => Char.ofNat ((c.toNat + 127) % 256)) w) ∧
    (payload.map fun c => Char.ofNat ((c.toNat + 127) % 256)).length = payload.length ∧
    (∀ (s' : State) (line : Bytes), (read_line s' line).GV_IsExtendedASCII = false) ∧
    (∀ (s' : State) (c : Char) (next : Bytes) (t : State), c ≠ '^' → c ≠ '\x00' →
      (∀ x ∈ next, x ≠ '\x00') → process_line fuel cfg s' (c :: next) = some t →
      ∃ v w : State, overflow_break fuel cfg (read_line s' (c :: next)) = some v ∧
        asa_switch fuel cfg c v = some w ∧ w.GV_IsExtendedASCII = false ∧
        t = shown_line cfg (put_escaped false next) w) := by
  refine ⟨fun hh hf => process_line_total hh hf s _, ?_, List.length_map _ _,
    fun _ _ => rfl, ?_⟩
  · intro t ht
    rw [asa_process_line s '^' payload hasa (by decide), cstr_of_no_nul payload hp,
      Option.map_eq_some'] at ht
    obtain ⟨w, hw, rfl⟩ := ht
    rw [Option.bind_eq_some] at hw
    obtain ⟨v, hv, hvw⟩ := hw
    obtain ⟨w', hw', he⟩ := asa_switch_caret fuel cfg v
    have hww : w = w' := Option.some.inj (hvw.symm.trans hw')
    have hext : w.GV_IsExtendedASCII = true := by rw [hww]; exact he
    refine ⟨v, w, hv, hvw, hext, ?_⟩
    rw [show_payload_shown, hext, put_escaped_extended]
    rfl
  · intro s' c next t hc hnul hn ht
    rw [asa_process_line s' c next hasa hnul, cstr_of_no_nul next hn,
      Option.map_eq_some'] at ht
    obtain ⟨w, hw, rfl⟩ := ht
    rw [Option.bind_eq_some] at hw
    obtain ⟨v, hv, hvw⟩ := hw
    have hext : w.GV_IsExtendedASCII = false := by
      rw [asa_switch_ext hc w hvw, overflow_break_ext hv]
      rfl
    refine ⟨v, w, hv, hvw, hext, ?_⟩
    rw [show_payload_shown, hext]

theorem extended_line_shifts_payload_witness :
    (∀ c ∈ "A(".toList, c ≠ '\x00') ∧
    ∃ t, process_line 40 (default_config fmt_fixed6 fmt_fixed6) top_state "^A(".toList = some t ∧
      ∃ v w : State, overflow_break 40 (default_config fmt_fixed6 fmt_fixed6)
          (read_line top_state "^A(".toList) = some v ∧
        asa_switch 40 (default_config fmt_fixed6 fmt_fixed6) '^' v = some w ∧
        w.GV_IsExtendedASCII = true ∧
        t = shown_line (default_config fmt_fixed6 fmt_fixed6)
              [Char.ofNat 192, Char.ofNat 167] w := by
  have hp : ∀ c ∈ "A(".toList, c ≠ '\x00' := by decide
  have h := extended_line_shifts_payload 40 (default_config fmt_fixed6 fmt_fixed6) top_state
    "A(".toList rfl hp
  obtain ⟨t, ht⟩ := h.1 (default_config_total _ _).1
    (by rw [(default_config_total _ _).2]; decide)
  exact ⟨hp, t, ht, h.2.1 t ht⟩

/-- C23, counterexample: in the default configuration (ASA mode), after 60 lines the
page is full; an empty 61st line is written on the same page and the document has one
page, whereas a 61st line consisting of a single blank closes the page and opens a new
one, and the document has two pages. -/
theorem blank_line_breaks_full_page_empty_line_does_not :
    (do_process_pages 32 (default_config fmt_fixed6 fmt_fixed6) []
        (List.replicate 60 " x".toList ++ [[]])).map (fun t => t.GV_PDFNumberOfPages)
      = some 1 ∧
    (do_process_pages 32 (default_config fmt_fixed6 fmt_fixed6) []
        (List.replicate 60 " x".toList ++ [" ".toList])).map (fun t => t.GV_PDFNumberOfPages)
      = some 2 := by
  refine ⟨by decide!, by decide!⟩

/-- C23, amended: in ASA mode, for every engine state in which the cursor is above
`GV_PageMarginBottom + 1`, line numbering is off and the current colour is the font
colour, an empty input line and a line consisting of a single blank are both processed
to completion and give the same output bytes `T*()Tj` and the same resulting state,
except for the contents of the line buffer. -/
theorem empty_line_is_blank_line_above_margin (fuel : Nat) (cfg : Config) (s : State)
    (hasa : cfg.GV_IsASA = true)
    (hy : cfg.GV_PageMarginBottom + 1 < s.GV_PDFPageYPosition)
    (hn : s.GV_IsPrintLineNumbers = false)
    (hcol : s.GV_CURRENT_COLOR = cfg.GV_FONT_COLOR) :
    ∃ t, process_line fuel cfg s [] = some t ∧
      process_line fuel cfg s [' '] = some { t with buffer1 := gets_s [' '] s.buffer1 } ∧
      t.buffer1 = gets_s [] s.buffer1 ∧
      t.out = s.out ++ "T*()Tj\n".toList := by
  refine ⟨_, blank_line fuel cfg s, ?_, rfl, rfl⟩
  rw [space_line_no_overflow hasa (not_le.mpr hy), show_payload_noreset _ _ _ rfl]
  have hb : pdf_string_bytes cfg (read_line s [' ']).GV_IsPrintLineNumbers
      (read_line s [' ']).GV_CurrentLineCount (read_line s [' ']).GV_CURRENT_COLOR
      (read_line s [' ']).GV_IsExtendedASCII (cstr []) = "()".toList := by
    show pdf_string_bytes cfg s.GV_IsPrintLineNumbers _ s.GV_CURRENT_COLOR false [] = _
    unfold pdf_string_bytes
    rw [hn, hcol]
    simp [put_escaped]
  rw [hb]
  rfl

theorem empty_line_is_blank_line_above_margin_witness :
    ∃ t, process_line 40 (default_config fmt_fixed6 fmt_fixed6) top_state [] = some t ∧
      process_line 40 (default_config fmt_fixed6 fmt_fixed6) top_state [' ']
        = some { t with buffer1 := gets_s [' '] top_state.buffer1 } ∧
      t.buffer1 = gets_s [] top_state.buffer1 ∧
      t.out = top_state.out ++ "T*()Tj\n".toList :=
  empty_line_is_blank_line_above_margin 40 (default_config fmt_fixed6 fmt_fixed6) top_state
    rfl (by decide!) rfl rfl

theorem cursorInv_page_break {fuel : Nat} {cfg : Config} {s : State} :
    ∀ t, start_pdf_page fuel cfg (end_pdf_page s) = some t → CursorInv cfg t :=
  fun _ ht => Or.inl (page_break_fields ht).ypos

theorem top_page_break {fuel : Nat} {cfg : Config} {s : State} :
    ∀ t, start_pdf_page fuel cfg (end_pdf_page s) = some t →
      t.GV_PDFPageYPosition ≤ cfg.GV_PageDepth - cfg.GV_PageMarginTop :=
  fun _ ht => le_of_eq (page_break_fields ht).ypos

theorem cursorInv_overflow_break {fuel : Nat} {cfg : Config} {s : State}
    (h : CursorInv cfg s) : ∀ t, overflow_break fuel cfg s = some t → CursorInv cfg t := by
  unfold overflow_break
  exact all_ite cursorInv_page_break (all_some h)

/-- After the control code of an ASA line the cursor is not above top-of-page. -/
theorem asa_switch_below_top {fuel : Nat} {cfg : Config} {c : Char} {s : State}
    (hl : 0 < GV_StandardLineSize cfg) (h : CursorInv cfg s) :
    ∀ t, asa_switch fuel cfg c s = some t →
      t.GV_PDFPageYPosition ≤ cfg.GV_PageDepth - cfg.GV_PageMarginTop := by
  have h0 : s.GV_PDFPageYPosition ≤ cfg.GV_PageDepth - cfg.GV_PageMarginTop := by
    rcases h with h | h <;> linarith
  have h1 : (if s.GV_PDFPageYPosition < cfg.GV_PageDepth - cfg.GV_PageMarginTop then
        s.GV_PDFPageYPosition + GV_StandardLineSize cfg * 1 else s.GV_PDFPageYPosition)
      ≤ cfg.GV_PageDepth - cfg.GV_PageMarginTop := by
    split_ifs with hlt
    · rcases h with h | h <;> linarith
    · exact h0
  have h2 : (if s.GV_PDFPageYPosition < cfg.GV_PageDepth - cfg.GV_PageMarginTop then
        s.GV_PDFPageYPosition + GV_StandardLineSize cfg * (1 / 2) else s.GV_PDFPageYPosition)
      ≤ cfg.GV_PageDepth - cfg.GV_PageMarginTop := by
    split_ifs with hlt
    · rcases h with h | h <;> linarith
    · exact h0
  have h3 : s.GV_PDFPageYPosition - GV_StandardLineSize cfg
      ≤ cfg.GV_PageDepth - cfg.GV_PageMarginTop := by linarith
  have h4 : s.GV_PDFPageYPosition - GV_StandardLineSize cfg - GV_StandardLineSize cfg
      ≤ cfg.GV_PageDepth - cfg.GV_PageMarginTop := by linarith
  by_cases hU : c = 'R' ∨ c = 'G' ∨ c = 'B'
  · have he : ∃ (u : State) (d : Int), asa_switch fuel cfg c s
          = some { adjust_pdf_ypos cfg 1 u with GV_CurrentLineCount := d } ∧
        u.GV_PDFPageYPosition = s.GV_PDFPageYPosition := by
      rcases hU with rfl | rfl | rfl <;> exact ⟨_, _, rfl, rfl⟩
    obtain ⟨u, d, he, hu⟩ := he
    intro t ht
    rw [he] at ht
    rw [← Option.some.inj ht]
    show (adjust_pdf_ypos cfg 1 u).GV_PDFPageYPosition ≤ _
    rw [adjust_pdf_ypos_eq]
    show (if u.GV_PDFPageYPosition < _ then u.GV_PDFPageYPosition + _ else
      u.GV_PDFPageYPosition) ≤ _
    rw [hu]
    exact h1
  by_cases hL : c = 'r' ∨ c = 'g' ∨ c = 'b'
  · have he : ∃ u : State, asa_switch fuel cfg c s = some u ∧
        u.GV_PDFPageYPosition = s.GV_PDFPageYPosition := by
      rcases hL with rfl | rfl | rfl <;> exact ⟨_, rfl, rfl⟩
    obtain ⟨u, he, hu⟩ := he
    intro t ht
    rw [he] at ht
    rw [← Option.some.inj ht, hu]
    exact h0
  unfold asa_switch
  simp only [adjust_pdf_ypos_eq, hU, hL, if_false]
  repeat (first
    | exact top_page_break
    | exact all_some h0
    | exact all_some h1
    | exact all_some h2
    | exact all_some h3
    | exact all_some h4
    | apply all_ite)

theorem line_body_below_top {fuel : Nat} {cfg : Config} {s : State}
    (hasa : cfg.GV_IsASA = true) (hl : 0 < GV_StandardLineSize cfg) (h : CursorInv cfg s) :
    ∀ t, line_body fuel cfg s = some t →
      t.GV_PDFPageYPosition ≤ cfg.GV_PageDepth - cfg.GV_PageMarginTop := by
  have h0 : s.GV_PDFPageYPosition ≤ cfg.GV_PageDepth - cfg.GV_PageMarginTop := by
    rcases h with h | h <;> linarith
  unfold line_body
  refine all_ite (all_some h0) ?_
  rw [if_neg (by simp [hasa])]
  intro t ht
  unfold asa_line at ht
  rw [Option.map_eq_some'] at ht
  obtain ⟨u, hu, rfl⟩ := ht
  have hu' := asa_switch_below_top hl h u hu
  show (print_pdf_string cfg (cstr (List.drop 1 u.buffer1))
    (emit "T*".toList u)).GV_PDFPageYPosition ≤ _
  rw [print_pdf_string_ypos]
  exact hu'

/-- In ASA mode with a positive line height, one line read at a line boundary leaves
the cursor at least one line height below top-of-page. -/
theorem process_line_cursor {fuel : Nat} {cfg : Config} {s t : State} {line : Bytes}
    (hasa : cfg.GV_IsASA = true) (hl : 0 < GV_StandardLineSize cfg) (h : CursorInv cfg s)
    (ht : process_line fuel cfg s line = some t) :
    t.GV_PDFPageYPosition
      ≤ cfg.GV_PageDepth - cfg.GV_PageMarginTop - GV_StandardLineSize cfg := by
  rw [process_line_eq, Option.map_eq_some'] at ht
  obtain ⟨v, hv, rfl⟩ := ht
  rw [Option.bind_eq_some] at hv
  obtain ⟨u, hu, huv⟩ := hv
  have h1 : CursorInv cfg u := cursorInv_overflow_break (show CursorInv cfg (read_line s line) from h) u hu
  have h2 := line_body_below_top hasa hl h1 v huv
  rw [line_tail_ypos]
  linarith

theorem run_lines_cursor {fuel : Nat} {cfg : Config} (hasa : cfg.GV_IsASA = true)
    (hl : 0 < GV_StandardLineSize cfg) :
    ∀ (lines : List Bytes) (s t : State), CursorInv cfg s → lines ≠ [] →
      run_lines fuel cfg s lines = some t →
      t.GV_PDFPageYPosition
        ≤ cfg.GV_PageDepth - cfg.GV_PageMarginTop - GV_StandardLineSize cfg := by
  intro lines
  induction lines with
  | nil => intro s t _ hne _; exact absurd rfl hne
  | cons line rest ih =>
    intro s t hs _ ht
    rw [run_lines, Option.bind_eq_some] at ht
    obtain ⟨u, hu, hut⟩ := ht
    have h1 := process_line_cursor hasa hl hs hu
    cases rest with
    | nil =>
      rw [run_lines] at hut
      rw [← Option.some.inj hut]
      exact h1
    | cons l2 r2 => exact ih u t (Or.inr h1) (by simp) hut

/-- A line `1payload` read with the cursor below top-of-page: exactly one page is
closed and one opened, by the overflow test or by the control code. -/
theorem one_line_below_top {fuel : Nat} {cfg : Config} {s t : State} {payload : Bytes}
    (hasa : cfg.GV_IsASA = true)
    (hy : s.GV_PDFPageYPosition < cfg.GV_PageDepth - cfg.GV_PageMarginTop)
    (ht : process_line fuel cfg s ('1' :: payload) = some t) :
    t.GV_PDFNumberOfPages = s.GV_PDFNumberOfPages + 1 ∧
    t.GV_CurrentPageCount = s.GV_CurrentPageCount + 1 ∧
    t.GV_PDFPageYPosition
      = cfg.GV_PageDepth - cfg.GV_PageMarginTop - GV_StandardLineSize cfg := by
  rw [asa_process_line s '1' payload hasa (by decide), Option.map_eq_some'] at ht
  obtain ⟨w, hw, rfl⟩ := ht
  rw [Option.bind_eq_some] at hw
  obtain ⟨v, hv, hvw⟩ := hw
  have hf := frame_show_payload cfg (cstr payload) w
  rw [hf.npages, hf.cpc, show_payload_ypos]
  by_cases hb : s.GV_PDFPageYPosition ≤ cfg.GV_PageMarginBottom + 1
  · rw [overflow_break_yes (show (read_line s ('1' :: payload)).GV_PDFPageYPosition ≤ _ from hb)
      hasa (buffer_after_read s '1' payload) (by decide) (by decide)] at hv
    have pb := page_break_fields hv
    rw [asa_switch_one_at_top _ _ _ (by rw [pb.ypos]; exact lt_irrefl _)] at hvw
    rw [← Option.some.inj hvw, pb.npages, pb.cpc, pb.ypos]
    exact ⟨rfl, rfl, rfl⟩
  · rw [overflow_break_no (show ¬ (read_line s ('1' :: payload)).GV_PDFPageYPosition ≤ _
      from hb)] at hv
    rw [← Option.some.inj hv, asa_switch_one_below_top _ _ _
      (show (read_line s ('1' :: payload)).GV_PDFPageYPosition < _ from hy)] at hvw
    have pb := page_break_fields hvw
    rw [pb.npages, pb.cpc, pb.ypos]
    exact ⟨rfl, rfl, rfl⟩

/-- C27: in ASA mode with a positive standard line height, every line is processed to
completion (band depth positive, iteration budget at least `pagebars_fuel`), and at
every line boundary of a run (after the lines `pre` of an input `pre ++ post`) the
cursor is exactly top-of-page when no line has been processed (`pre` empty) and at most
top-of-page minus one line height otherwise.  Consequently a line with control code
`1` read after any line, that is with the cursor at most top-of-page minus one line
height, always closes the current page and opens a new one (one more finished page,
the page counter one higher), and its payload is shown as the first line of the new
page. -/
theorem cursor_at_line_boundaries (fuel : Nat) (cfg : Config) (hasa : cfg.GV_IsASA = true)
    (hl : 0 < GV_StandardLineSize cfg) :
    (0 < pagebars_height cfg → pagebars_fuel cfg ≤ fuel →
      ∀ (s : State) (line : Bytes), ∃ t, process_line fuel cfg s line = some t) ∧
    (∀ (stack : Bytes) (pre post : List Bytes) (t0 final : State),
      start_pdf_page fuel cfg (doc_start cfg stack) = some t0 →
      run_lines fuel cfg t0 (pre ++ post) = some final →
      ∃ t, run_lines fuel cfg t0 pre = some t ∧ run_lines fuel cfg t post = some final ∧
        (pre = [] → t.GV_PDFPageYPosition = cfg.GV_PageDepth - cfg.GV_PageMarginTop) ∧
        (pre ≠ [] → t.GV_PDFPageYPosition
          ≤ cfg.GV_PageDepth - cfg.GV_PageMarginTop - GV_StandardLineSize cfg)) ∧
    (∀ (s t : State) (payload : Bytes),
      s.GV_PDFPageYPosition
        ≤ cfg.GV_PageDepth - cfg.GV_PageMarginTop - GV_StandardLineSize cfg →
      process_line fuel cfg s ('1' :: payload) = some t →
      t.GV_PDFNumberOfPages = s.GV_PDFNumberOfPages + 1 ∧
      t.GV_CurrentPageCount = s.GV_CurrentPageCount + 1 ∧
      t.GV_PDFPageYPosition
        = cfg.GV_PageDepth - cfg.GV_PageMarginTop - GV_StandardLineSize cfg) := by
  refine ⟨fun hh hf s line => process_line_total hh hf s line, ?_, ?_⟩
  · intro stack pre post t0 final h0 hrun
    rw [run_lines_append, Option.bind_eq_some] at hrun
    obtain ⟨t, ht, htf⟩ := hrun
    have hy0 := (start_pdf_page_fields h0).1
    refine ⟨t, ht, htf, ?_, ?_⟩
    · intro hpre
      rw [hpre, run_lines] at ht
      rw [← Option.some.inj ht]
      exact hy0
    · intro hpre
      exact run_lines_cursor hasa hl pre t0 t (Or.inl hy0) hpre ht
  · intro s t payload hy ht
    exact one_line_below_top hasa (by linarith) ht

theorem cursor_at_line_boundaries_witness :
    ∃ t, process_line 40 (default_config fmt_fixed6 fmt_fixed6) below_top_state "1x".toList
          = some t ∧
        t.GV_PDFNumberOfPages = below_top_state.GV_PDFNumberOfPages + 1 ∧
        t.GV_CurrentPageCount = below_top_state.GV_CurrentPageCount + 1 ∧
        t.GV_PDFPageYPosition
          = (default_config fmt_fixed6 fmt_fixed6).GV_PageDepth
            - (default_config fmt_fixed6 fmt_fixed6).GV_PageMarginTop
            - GV_StandardLineSize (default_config fmt_fixed6 fmt_fixed6) := by
  have h := cursor_at_line_boundaries 40 (default_config fmt_fixed6 fmt_fixed6) rfl
    (by decide!)
  obtain ⟨t, ht⟩ := h.1 (default_config_total _ _).1
    (by rw [(default_config_total _ _).2]; decide) below_top_state "1x".toList
  exact ⟨t, ht, h.2.2 below_top_state t "x".toList (by decide!) ht⟩

theorem show_payload_counters (cfg : Config) (payload : Bytes) (u : State) :
    (show_payload cfg payload u).GV_CurrentLineCount = u.GV_CurrentLineCount ∧
    (show_payload cfg payload u).GV_IsPrintLineNumbers = u.GV_IsPrintLineNumbers ∧
    (show_payload cfg payload u).GV_CurrentPageCount = u.GV_CurrentPageCount := by
  by_cases hr : u.bResetColor = true
  · rw [show_payload_reset cfg payload u hr]
    exact ⟨rfl, rfl, rfl⟩
  · rw [show_payload_noreset cfg payload u (by simpa using hr)]
    exact ⟨rfl, rfl, rfl⟩

/-- One line `' ' :: payload` under the default layout in per-page numbering mode,
with `m ≤ 60` lines on the current page: the line counter is incremented and, when
the page is full, reset to 0 by the page break before the line is shown. -/
theorem numbered_line_step {fuel : Nat} {cfg : Config} {s t : State} {payload : Bytes}
    {m : Nat} (hl : DefaultLayout cfg) (hpp : cfg.GV_IsPerPageLineNumbers = true)
    (hm : m ≤ 60) (hy : s.GV_PDFPageYPosition = 576 - 9 * (m : ℚ))
    (h : process_line fuel cfg s (' ' :: payload) = some t) :
    ∃ u, t = show_payload cfg (cstr payload) u ∧
      u.GV_CurrentLineCount = (if m = 60 then 0 else s.GV_CurrentLineCount + 1) ∧
      u.GV_IsPrintLineNumbers = s.GV_IsPrintLineNumbers ∧
      u.GV_IsExtendedASCII = false ∧
      u.GV_CurrentPageCount = s.GV_CurrentPageCount + break_after m ∧
      t.GV_PDFPageYPosition = 576 - 9 * (lines_after m : ℚ) := by
  obtain ⟨u0, hu0, _, _, hy0⟩ := space_line_step hl hm hy h
  rcases space_line_cases hl.asa h with ⟨hno, rfl⟩ | ⟨hyes, u, hu, rfl⟩
  · have hm' : m ≠ 60 := by
      rintro rfl
      apply hno
      rw [hy, hl.bottom]; norm_num
    refine ⟨_, rfl, ?_, rfl, rfl, ?_, hy0⟩
    · rw [if_neg hm']; rfl
    · simp [break_after, hm', read_line]
  · have hm' : m = 60 := by
      by_contra hne
      have h59 : m ≤ 59 := by omega
      have : (m : ℚ) ≤ 59 := by exact_mod_cast h59
      rw [hy, hl.bottom] at hyes
      linarith
    have pb := page_break_fields hu
    refine ⟨u, rfl, ?_, ?_, ?_, ?_, hy0⟩
    · rw [pb.lc, if_pos hpp, if_pos hm']
    · rw [pb.pln]; rfl
    · rw [pb.ext]; rfl
    · rw [pb.cpc]; simp [break_after, hm', read_line]

theorem page_fill_pos (n : Nat) (h : 0 < n) : page_fill n = (n - 1) % 60 + 1 := by
  unfold page_fill
  rw [if_neg (by omega)]

theorem page_fill_succ (n : Nat) : lines_after (page_fill n) = page_fill (n + 1) := by
  rw [page_fill_pos (n + 1) (by omega)]
  rcases Nat.eq_zero_or_pos n with h | h
  · subst h; rfl
  · rw [page_fill_pos n h]
    unfold lines_after
    split_ifs <;> omega

theorem line_number_succ (n : Nat) :
    (if page_fill n = 60 then (0 : Int) else line_number n + 1) = line_number (n + 1) := by
  rcases Nat.eq_zero_or_pos n with h | h
  · subst h; rfl
  · rw [page_fill_pos n h]
    unfold line_number
    split_ifs <;> omega

theorem page_count_succ (n : Nat) :
    (n - 1) / 60 + 1 + break_after (page_fill n) = (n + 1 - 1) / 60 + 1 := by
  rcases Nat.eq_zero_or_pos n with h | h
  · subst h; rfl
  · rw [page_fill_pos n h]
    unfold break_after
    split_ifs <;> omega

theorem take_succ_get (lines : List Bytes) (i : Nat) (hi : i < lines.length) :
    lines.take (i + 1) = lines.take i ++ [lines.get ⟨i, hi⟩] := by
  rw [List.take_succ, List.getElem?_eq_getElem hi]; rfl

/-- The state after the first `n` lines of an input of lines `' ' :: payload`. -/
theorem numbered_prefix {fuel : Nat} {cfg : Config} (hl : DefaultLayout cfg)
    (hpp : cfg.GV_IsPerPageLineNumbers = true) (lines : List Bytes)
    (hsp : ∀ l ∈ lines, ∃ p, l = ' ' :: p) (t0 : State)
    (hy0 : t0.GV_PDFPageYPosition = 576) (hc0 : t0.GV_CurrentLineCount = 0)
    (hp0 : t0.GV_CurrentPageCount = 1) :
    ∀ (n : Nat) (a : State), n ≤ lines.length →
      run_lines fuel cfg t0 (lines.take n) = some a →
      a.GV_PDFPageYPosition = 576 - 9 * (page_fill n : ℚ) ∧
      a.GV_CurrentLineCount = line_number n ∧
      a.GV_IsPrintLineNumbers = t0.GV_IsPrintLineNumbers ∧
      a.GV_CurrentPageCount = (n - 1) / 60 + 1 := by
  intro n
  induction n with
  | zero =>
    intro a _ ha
    rw [List.take_zero, run_lines] at ha
    rw [← Option.some.inj ha]
    refine ⟨by rw [hy0]; simp [page_fill], by rw [hc0]; simp [line_number], rfl, by rw [hp0]⟩
  | succ n ih =>
    intro a hn ha
    have hi : n < lines.length := by omega
    rw [take_succ_get lines n hi, run_lines_append, Option.bind_eq_some] at ha
    obtain ⟨b, hb, hlast⟩ := ha
    simp only [run_lines, Option.bind_eq_some, Option.some.injEq] at hlast
    obtain ⟨a', ha', rfl⟩ := hlast
    obtain ⟨hby, hbc, hbn, hbp⟩ := ih b (by omega) hb
    obtain ⟨p, hp⟩ := hsp (lines.get ⟨n, hi⟩) (List.get_mem _ _ _)
    rw [hp] at ha'
    have hm : page_fill n ≤ 60 := by
      rcases Nat.eq_zero_or_pos n with h | h
      · subst h; decide
      · rw [page_fill_pos n h]; omega
    obtain ⟨u, rfl, hu1, hu2, _, hu4, hu5⟩ := numbered_line_step hl hpp hm hby ha'
    obtain ⟨c1, c2, c3⟩ := show_payload_counters cfg (cstr p) u
    refine ⟨?_, ?_, ?_, ?_⟩
    · rw [hu5, page_fill_succ]
    · rw [c1, hu1, hbc, line_number_succ]
    · rw [c2, hu2, hbn]
    · rw [c3, hu4, hbp, page_count_succ]

theorem line_number_of_index (i : Nat) :
    (i / 60 = 0 → line_number (i + 1) = ((i % 60 + 1 : Nat) : Int)) ∧
    (0 < i / 60 → line_number (i + 1) = ((i % 60 + 1 : Nat) : Int) - 1) := by
  unfold line_number
  constructor
  · intro h
    split_ifs <;> omega
  · intro h
    split_ifs <;> omega

/-- C29: in ASA mode with the default layout, line numbering enabled and per-page
numbering, for an input of lines each beginning with a space the run completes (band
depth positive, iteration budget at least `pagebars_fuel`), and line `i` (counted from
0), which is line `j = i mod 60 + 1` of page `i / 60 + 1`, is shown with the line
counter equal to `j` on the first page and to `j - 1` on every later page: the text
before its string is the line-number prefix with that number.  (The counter is
incremented when the line is read; the page break then resets it to 0.) -/
theorem per_page_line_numbers_lag (fuel : Nat) (cfg : Config) (stack : Bytes)
    (lines : List Bytes) (hl : DefaultLayout cfg)
    (hn : cfg.GV_IsPrintLineNumbers = true) (hpp : cfg.GV_IsPerPageLineNumbers = true)
    (hsp : ∀ l ∈ lines, ∃ p, l = ' ' :: p) :
    (0 < pagebars_height cfg → pagebars_fuel cfg ≤ fuel →
      ∃ final, do_process_pages fuel cfg stack lines = some final) ∧
    ∀ t0, start_pdf_page fuel cfg (doc_start cfg stack) = some t0 →
      ∀ (i : Nat) (hi : i < lines.length) (t : State),
        run_lines fuel cfg t0 (lines.take (i + 1)) = some t →
        ∃ u : State,
          t = shown_line cfg (put_escaped false (cstr ((lines.get ⟨i, hi⟩).drop 1))) u ∧
          u.GV_CurrentPageCount = i / 60 + 1 ∧
          (i / 60 = 0 → u.GV_CurrentLineCount = ((i % 60 + 1 : Nat) : Int)) ∧
          (0 < i / 60 → u.GV_CurrentLineCount = ((i % 60 + 1 : Nat) : Int) - 1) ∧
          string_prefix cfg u =
            "/F1 ".toList ++ cfg.fmt_f (GV_BodyFontSize cfg) ++ " Tf\n ".toList
              ++ fmt_rgb cfg cfg.GV_LINE_NUMBER_COLOR ++ " rg\n (".toList
              ++ fmt_6d u.GV_CurrentLineCount ++ " | )Tj\n /F0 ".toList
              ++ cfg.fmt_f (GV_BodyFontSize cfg) ++ " Tf\n ".toList
              ++ fmt_rgb cfg u.GV_CURRENT_COLOR ++ " rg ".toList := by
  refine ⟨fun hh hf => do_process_pages_total hh hf stack lines, ?_⟩
  intro t0 h0 i hi t ht
  obtain ⟨y0, c0, _, l0, _, _, _, p0, _, _, _⟩ := start_pdf_page_fields h0
  have hy0 : t0.GV_PDFPageYPosition = 576 := by
    rw [y0, hl.depth, hl.top]; norm_num
  have hc0 : t0.GV_CurrentLineCount = 0 := by rw [l0, if_pos hpp]
  have hp0 : t0.GV_CurrentPageCount = 1 := by rw [c0]; rfl
  have hpl : t0.GV_IsPrintLineNumbers = true := by rw [p0]; exact hn
  rw [take_succ_get lines i hi, run_lines_append, Option.bind_eq_some] at ht
  obtain ⟨a, ha, hlast⟩ := ht
  simp only [run_lines, Option.bind_eq_some, Option.some.injEq] at hlast
  obtain ⟨t', ht', rfl⟩ := hlast
  obtain ⟨hay, hac, han, hap⟩ := numbered_prefix hl hpp lines hsp t0 hy0 hc0 hp0 i a
    (by omega) ha
  obtain ⟨p, hp⟩ := hsp (lines.get ⟨i, hi⟩) (List.get_mem _ _ _)
  rw [hp] at ht'
  have hm : page_fill i ≤ 60 := by
    rcases Nat.eq_zero_or_pos i with h | h
    · subst h; decide
    · rw [page_fill_pos i h]; omega
  obtain ⟨u, rfl, hu1, hu2, hu3, hu4, _⟩ := numbered_line_step hl hpp hm hay ht'
  have hlc : u.GV_CurrentLineCount = line_number (i + 1) := by
    rw [hu1, hac, line_number_succ]
  have hpg : u.GV_CurrentPageCount = i / 60 + 1 := by
    rw [hu4, hap, page_count_succ]
    rfl
  refine ⟨u, ?_, hpg, ?_, ?_, ?_⟩
  · rw [show_payload_shown, hu3, hp]
    rfl
  · intro h
    rw [hlc]
    exact (line_number_of_index i).1 h
  · intro h
    rw [hlc]
    exact (line_number_of_index i).2 h
  · unfold string_prefix
    rw [if_pos (by rw [hu2, han, hpl])]

theorem per_page_line_numbers_lag_witness :
    ∃ t0 t u : State,
      start_pdf_page 32 numbered_config (doc_start numbered_config []) = some t0 ∧
      run_lines 32 numbered_config t0 (List.replicate 61 " x".toList) = some t ∧
      t = shown_line numbered_config "x".toList u ∧
      u.GV_CurrentPageCount = 2 ∧ u.GV_CurrentLineCount = 0 := by
  have hh : 0 < pagebars_height numbered_config :=
    (default_config_total fmt_fixed6 fmt_fixed6).1
  have hf : pagebars_fuel numbered_config ≤ 32 := by
    have e : pagebars_fuel numbered_config
        = pagebars_fuel (default_config fmt_fixed6 fmt_fixed6) := rfl
    rw [e, (default_config_total fmt_fixed6 fmt_fixed6).2]
  have hlay : DefaultLayout numbered_config :=
    ⟨rfl, by decide!, by decide!, by decide!, by decide!⟩
  have hsp : ∀ l ∈ List.replicate 61 " x".toList, ∃ p, l = ' ' :: p := by
    intro l hl
    rw [List.eq_of_mem_replicate hl]
    exact ⟨"x".toList, rfl⟩
  obtain ⟨t0, h0⟩ := start_pdf_page_total hh hf (doc_start numbered_config [])
  obtain ⟨t, ht⟩ := run_lines_total hh hf (List.replicate 61 " x".toList) t0
  obtain ⟨u, hu, hpg, _, hlc, _⟩ :=
    (per_page_line_numbers_lag 32 numbered_config [] (List.replicate 61 " x".toList) hlay
      rfl rfl hsp).2 t0 h0 60 (by decide) t ht
  exact ⟨t0, t, u, h0, ht, hu, hpg, hlc (by decide)⟩

/-- C26: the run completes when the band depth is positive and the iteration budget is at
least `pagebars_fuel`; in every completed run, the call log holds one record per id
passed to `start_pdf_object` (`3 P + 4` calls for `P` pages, made by `start_pdf_page`,
`end_pdf_page` and `do_process_pages`), and at every call: the capacity at the store is
the capacity at entry or that capacity after one growth step, the table has that many
cells and the id is strictly less than it, so the store at index `id` is in bounds;
the cell of every id passed by an earlier call holds after the call what it held
before it; and the offset stored by the call is still in its cell when the run ends. -/
theorem offset_writes_in_bounds (fuel : Nat) (cfg : Config) (stack : Bytes)
    (input : List Bytes) :
    (0 < pagebars_height cfg → pagebars_fuel cfg ≤ fuel →
      ∃ final, do_process_pages fuel cfg stack input = some final) ∧
    ∀ final, do_process_pages fuel cfg stack input = some final →
      final.calls.map XrefCall.id = final.started ∧
      final.calls.length = 3 * final.GV_PDFNumberOfPages + 4 ∧
      ∀ c ∈ final.calls,
        (c.capacity = c.before.length ∨
          c.capacity = c.before.length + (if c.before.length / 5 < 1000
            then c.before.length / 5 + 1000 else c.before.length / 5)) ∧
        c.after.length = c.capacity ∧ c.id < c.capacity ∧
        (∀ j ∈ c.earlier, c.after.getD j 0 = c.before.getD j 0) ∧
        final.GV_XReferences.getD c.id 0 = c.after.getD c.id 0 := by
  refine ⟨fun hh hf => do_process_pages_total hh hf stack input, ?_⟩
  intro final h
  obtain ⟨P, c, s, _, hfin, rfl⟩ := do_process_pages_final h
  have hids : s.calls.map XrefCall.id = s.started := hfin.recd.ids
  refine ⟨hids, ?_, ?_⟩
  · show s.calls.length = 3 * s.GV_PDFNumberOfPages + 4
    have hl : (s.calls.map XrefCall.id).length = s.started.length := by rw [hids]
    rw [List.length_map, hfin.started] at hl
    rw [hl, hfin.npages]
    simp only [List.length_append, List.length_range', List.length_cons, List.length_nil]
  · intro k hk
    obtain ⟨h1, h2, h3, h4⟩ := hfin.recd.calls k hk
    exact ⟨h4, h1, h2, h3, hfin.recd.kept k hk⟩

end Txt2Pdf
